import Mathlib

/-! FLTK X11 backend: descriptor table, click detection, window creation, grab.

A shallow embedding of `src/src/Fl_x.cxx` and `src/src/Fl_grab.cxx`.

Conventions of the embedding:
* C `int` values are Lean `Int`; a store into a `short` field wraps with `toShort`, a
  store of an `unsigned` sum into an `int` wraps with `toInt32`.  Sums and differences of
  `int` coordinates, sizes and counters are taken in the integers.
* `unsigned long` values are Lean `Nat` below `ULONG_MOD`, additions wrap explicitly;
  `unsigned int` bit sets are Lean `Nat` below 2^32.
* pointers are `Nat`, the null pointer is `0`; C strings are the lists of their bytes.
* calls into Xlib and into toolkit code outside these files (`Fl::handle`,
  `fl_fix_focus`, `redraw`, the layout of children) are recorded in a trace; what they
  do to the statics modelled here is an input of the embedding where the code reads it
  back (`Fl::pushed()`).
* the descriptor table is the one of the select() build (`HAVE_POLL` is 0; the other
  branch names an array `fds` that is declared nowhere).
-/

namespace FLTK

/-! ## Machine integers -/

/-- C bitwise complement of a twos-complement integer: `~a` is `-a - 1`. -/
def bitNot (a : Int) : Int := -a - 1

/-- C bitwise AND of two twos-complement integers, with infinite sign extension, so the
result is the one of every width that holds both operands.  `m & ~n` on naturals is
written `m ^^^ (m &&& n)`. -/
def bitAnd : Int → Int → Int
  | Int.ofNat m, Int.ofNat n => Int.ofNat (m &&& n)
  | Int.ofNat m, Int.negSucc n => Int.ofNat (m ^^^ (m &&& n))
  | Int.negSucc m, Int.ofNat n => Int.ofNat (n ^^^ (n &&& m))
  | Int.negSucc m, Int.negSucc n => Int.negSucc (m ||| n)

/-- Conversion of an `int` to `short`: 16-bit twos complement, wrapping. -/
def toShort (v : Int) : Int := (v + 32768) % 65536 - 32768

/-- The values of the C type `short`. -/
def isShort (v : Int) : Prop := -32768 ≤ v ∧ v < 32768

instance (v : Int) : Decidable (isShort v) := by
  unfold isShort; infer_instance

/-! ## The descriptor table (`Fl_x.cxx`, select() build) -/

/-- Source: `#define POLLIN 1` -/
def POLLIN : Int := 1
/-- Source: `#define POLLOUT 4` -/
def POLLOUT : Int := 4
/-- Source: `#define POLLERR 8` -/
def POLLERR : Int := 8

/-- One entry of the table, `struct FD`: `events` is a `short`, `cb` and `arg` are
pointers. -/
structure FD where
  fd : Int
  events : Int
  cb : Nat
  arg : Nat
deriving DecidableEq, Repr

/-- An `fd_set`: the list of descriptors whose bit is set. -/
abbrev FdSet := List Int

/-- Source: `FD_SET(n, &s)` -/
def FD_SET (n : Int) (s : FdSet) : FdSet := if n ∈ s then s else n :: s

/-- Source: `FD_CLR(n, &s)` -/
def FD_CLR (n : Int) (s : FdSet) : FdSet := s.filter (fun m => decide (m ≠ n))

/-- Source: `FD_ISSET(n, &s)` -/
def FD_ISSET (n : Int) (s : FdSet) : Bool := decide (n ∈ s)

/-- The static variables of the descriptor table: `nfds`, `fd_array_size`, the array `fd`
(a total map; cells at and above `fd_array_size` are unallocated, cells at and above
`nfds` are unused), `fdsets[0..2]` and `maxfd`. -/
structure FdState where
  nfds : Nat
  fd_array_size : Nat
  fd : Nat → FD
  fdsets0 : FdSet
  fdsets1 : FdSet
  fdsets2 : FdSet
  maxfd : Int

/-- The state at program start: all statics are zero. -/
def FdState.init : FdState :=
  { nfds := 0, fd_array_size := 0, fd := fun _ => ⟨0, 0, 0, 0⟩,
    fdsets0 := [], fdsets1 := [], fdsets2 := [], maxfd := 0 }

/-- The registered entries `fd[0] .. fd[nfds-1]`, in order. -/
def FdState.table (s : FdState) : List FD := (List.range s.nfds).map s.fd

/-- The body of the `for` loop of `Fl::remove_fd`, run for `k` more iterations from the
indices `i`, `j` on the array `fd`; returns the final `j` and the array. -/
def remove_fd_loop (n events : Int) : Nat → Nat → Nat → (Nat → FD) → Nat × (Nat → FD)
  | 0, _, j, fd => (j, fd)
  | k + 1, i, j, fd =>
    let kept : Option (Nat → FD) :=
      if (fd i).fd = n then
        let e := bitAnd (fd i).events (bitNot events)
        if e = 0 then none -- continue: if no events left, delete this fd
        else some (Function.update fd i { fd i with events := toShort e })
      else some fd
    match kept with
    | none => remove_fd_loop n events k (i + 1) j fd
    | some fd1 =>
      -- move it down in the array if necessary:
      let fd2 := if j < i then Function.update fd1 j (fd1 i) else fd1
      remove_fd_loop n events k (i + 1) (j + 1) fd2

/-- Source: `void Fl::remove_fd(int n, int events)` -/
def remove_fd (n events : Int) (s : FdState) : FdState :=
  let r := remove_fd_loop n events s.nfds 0 0 s.fd
  { s with
    nfds := r.1
    fd := r.2
    fdsets0 := if bitAnd events POLLIN ≠ 0 then FD_CLR n s.fdsets0 else s.fdsets0
    fdsets1 := if bitAnd events POLLOUT ≠ 0 then FD_CLR n s.fdsets1 else s.fdsets1
    fdsets2 := if bitAnd events POLLERR ≠ 0 then FD_CLR n s.fdsets2 else s.fdsets2
    maxfd := if n = s.maxfd then s.maxfd - 1 else s.maxfd }

/-- Source: `void Fl::remove_fd(int n)` -/
def remove_fd_all (n : Int) (s : FdState) : FdState := remove_fd n (-1) s

/-- Source: `void Fl::add_fd(int n, int events, void (*cb)(int, void*), void *v)` -/
def add_fd (n events : Int) (cb v : Nat) (s : FdState) : FdState :=
  let s1 := remove_fd n events s
  let i := s1.nfds
  { s1 with
    nfds := i + 1
    fd_array_size := if i ≥ s1.fd_array_size then 2 * s1.fd_array_size + 1
                     else s1.fd_array_size
    fd := Function.update s1.fd i ⟨n, toShort events, cb, v⟩
    fdsets0 := if bitAnd events POLLIN ≠ 0 then FD_SET n s1.fdsets0 else s1.fdsets0
    fdsets1 := if bitAnd events POLLOUT ≠ 0 then FD_SET n s1.fdsets1 else s1.fdsets1
    fdsets2 := if bitAnd events POLLERR ≠ 0 then FD_SET n s1.fdsets2 else s1.fdsets2
    maxfd := if n > s1.maxfd then n else s1.maxfd }

/-- Source: `void Fl::add_fd(int fd, void (*cb)(int, void*), void* v)` -/
def add_fd_read (n : Int) (cb v : Nat) (s : FdState) : FdState := add_fd n POLLIN cb v s

/-- What `Fl::remove_fd(n, events)` does to one entry: `none` when the entry is deleted. -/
def remove_fd_entry (n events : Int) (x : FD) : Option FD :=
  if x.fd = n then
    if bitAnd x.events (bitNot events) = 0 then none
    else some { x with events := toShort (bitAnd x.events (bitNot events)) }
  else some x

/-- The table of the specification: walk the table in order, keep every entry of another
descriptor, replace the mask `m` of an entry of `n` by `m & ~e`, delete the entry when the
new mask is 0. -/
def remove_fd_spec (n e : Int) (t : List FD) : List FD :=
  t.filterMap fun x =>
    if x.fd = n then
      if bitAnd x.events (bitNot e) = 0 then none
      else some { x with events := bitAnd x.events (bitNot e) }
    else some x

/-- Every mask stored in the table is a `short`. -/
def FdState.masksShort (s : FdState) : Prop := ∀ x ∈ s.table, isShort x.events

/-- The descriptors that `select(maxfd+1, ...)` examines: `0 .. maxfd`. -/
def watched (s : FdState) (n : Int) : Prop := 0 ≤ n ∧ n ≤ s.maxfd

/-- A call of the descriptor interface. -/
inductive FdOp where
  | add (n events : Int) (cb v : Nat)
  | remove (n events : Int)
deriving DecidableEq, Repr

/-- The effect of one call. -/
def FdOp.run : FdOp → FdState → FdState
  | FdOp.add n events cb v, s => add_fd n events cb v s
  | FdOp.remove n events, s => remove_fd n events s

/-- A sequence of calls, first call first. -/
def runOps (ops : List FdOp) (s : FdState) : FdState := ops.foldl (fun s op => op.run s) s

/-- The cells `a .. a+len-1` of an array. -/
def seg (fd : Nat → FD) (a len : Nat) : List FD := (List.range len).map fun t => fd (a + t)

/-! ## Click detection (`Fl_x.cxx`: `set_event_xy`, `checkdouble`, `fl_handle`) -/

/-- What these files take from headers that are not part of them: the width of
`unsigned long` (`ulong`), and the constants `FL_Button`, `FL_BUTTON1`
(FL/Enumerations.H) and `Fl_Window::FL_FORCE_POSITION` (FL/Fl_Window.H). -/
structure Platform where
  ULONG_BITS : Nat
  FL_Button : Int
  FL_BUTTON1 : Nat
  FL_FORCE_POSITION : Nat
deriving DecidableEq, Repr

/-- The number of values of `unsigned long`. -/
def Platform.ULONG_MOD (K : Platform) : Nat := 2 ^ K.ULONG_BITS

/-- Conversion to `int`: 32-bit twos complement, wrapping. -/
def toInt32 (v : Int) : Int := (v + 2147483648) % 4294967296 - 2147483648

/-- The toolkit event codes that `fl_handle` passes to `Fl::handle` (FL/Enumerations.H);
`NO_EVENT` is the code 0. -/
inductive FlEvent where
  | NO_EVENT
  | FL_PUSH
  | FL_RELEASE
  | FL_MOVE
  | FL_ENTER
  | FL_LEAVE
  | FL_VIEWCHANGE
  | FL_FOCUS
  | FL_UNFOCUS
  | FL_KEYBOARD
  | FL_KEYUP
  | FL_SHOW
  | FL_HIDE
  | FL_CLOSE
deriving DecidableEq, Repr

/-- The fields of an `XEvent` that the pointer arms of `fl_handle` read.  `x`, `y`,
`x_root`, `y_root`, `time`, `state` are the members read through `xbutton` (for a
crossing event `xbutton.state` overlays another member and `crossing_state` is
`xcrossing.state`); `button` is `xbutton.button`, `detail` is `xcrossing.detail`. -/
structure XEvent where
  x : Int
  y : Int
  x_root : Int
  y_root : Int
  time : Nat
  state : Nat
  button : Nat
  detail : Int
  crossing_state : Nat
deriving DecidableEq, Repr

/-- X11 constant `NotifyInferior` of X.h. -/
def NotifyInferior : Int := 2

/-- The statics that `set_event_xy` and `checkdouble` read and write: `Fl::e_*`,
`fl_event_time`, and `px`, `py`, `ptime`.  `e_state` is kept as its 32-bit pattern. -/
structure EventState where
  e_x : Int
  e_y : Int
  e_x_root : Int
  e_y_root : Int
  e_state : Nat
  e_keysym : Int
  e_is_click : Int
  e_clicks : Int
  e_dy : Int
  fl_event_time : Nat
  px : Int
  py : Int
  ptime : Nat
deriving DecidableEq, Repr

/-- Source: `static void set_event_xy()`, for `fl_xevent` pointing to `ev`; `pushed` tells
whether `Fl::pushed()` is non-null. -/
def set_event_xy (K : Platform) (pushed : Bool) (ev : XEvent) (s : EventState) : EventState :=
  let s1 := { s with
    e_x_root := ev.x_root
    e_x := ev.x
    e_y_root := ev.y_root
    e_y := ev.y
    e_state := (ev.state <<< 16) % 4294967296
    fl_event_time := ev.time }
  -- turn off is_click if enough time or mouse movement has passed:
  if (s1.e_x_root - s1.px).natAbs + (s1.e_y_root - s1.py).natAbs > 3
      ∨ s1.fl_event_time ≥ (s1.ptime + (if pushed then 200 else 1000)) % K.ULONG_MOD then
    { s1 with e_is_click := 0 }
  else s1

/-- Source: `static inline void checkdouble()` -/
def checkdouble (s : EventState) : EventState :=
  let s1 :=
    if s.e_is_click = s.e_keysym then { s with e_clicks := s.e_clicks + 1 }
    else { s with e_clicks := 0, e_is_click := s.e_keysym }
  { s1 with px := s1.e_x_root, py := s1.e_y_root, ptime := s1.fl_event_time }

/-- Source: `unsigned fl_mousewheel_up = 4` -/
def fl_mousewheel_up : Nat := 4
/-- Source: `unsigned fl_mousewheel_down = 5` -/
def fl_mousewheel_down : Nat := 5

/-- The arm `case ButtonPress:` of `fl_handle` for a known window: the new statics and
the event code passed to `Fl::handle`.  The shift `FL_BUTTON1 << (button-1)` is kept to
32 bits; C leaves it undefined for button 0 and for buttons above 32. -/
def fl_handle_ButtonPress (K : Platform) (pushed : Bool) (ev : XEvent) (s : EventState) :
    EventState × FlEvent :=
  let s1 := { s with e_keysym := toInt32 (K.FL_Button + ev.button) }
  let s2 := checkdouble (set_event_xy K pushed ev s1)
  if ev.button = fl_mousewheel_up then
    ({ s2 with e_dy := -14 * 3 }, FlEvent.FL_VIEWCHANGE)
  else if ev.button = fl_mousewheel_down then
    ({ s2 with e_dy := 14 * 3 }, FlEvent.FL_VIEWCHANGE)
  else
    ({ s2 with e_state := s2.e_state ||| (K.FL_BUTTON1 <<< (ev.button - 1)) % 4294967296 },
      FlEvent.FL_PUSH)

/-- The arm `case MotionNotify:` of `fl_handle` (`CONSOLIDATE_MOTION` is 0). -/
def fl_handle_MotionNotify (K : Platform) (pushed : Bool) (ev : XEvent) (s : EventState) :
    EventState × FlEvent :=
  (set_event_xy K pushed ev s, FlEvent.FL_MOVE)

/-- The arm `case ButtonRelease:` of `fl_handle`. -/
def fl_handle_ButtonRelease (K : Platform) (pushed : Bool) (ev : XEvent) (s : EventState) :
    EventState × FlEvent :=
  let s1 := { s with e_keysym := toInt32 (K.FL_Button + ev.button) }
  let s2 := set_event_xy K pushed ev s1
  if ev.button = fl_mousewheel_up ∨ ev.button = fl_mousewheel_down then
    (s2, FlEvent.NO_EVENT)
  else
    let bit := (K.FL_BUTTON1 <<< (ev.button - 1)) % 4294967296
    ({ s2 with e_state := s2.e_state &&& (4294967295 - bit) }, FlEvent.FL_RELEASE)

/-- The arm `case EnterNotify:` of `fl_handle`. -/
def fl_handle_EnterNotify (K : Platform) (pushed : Bool) (ev : XEvent) (s : EventState) :
    EventState × FlEvent :=
  if ev.detail = NotifyInferior then (s, FlEvent.NO_EVENT)
  else
    let s1 := set_event_xy K pushed ev s
    ({ s1 with e_state := (ev.crossing_state <<< 16) % 4294967296 }, FlEvent.FL_ENTER)

/-- The arm `case LeaveNotify:` of `fl_handle`. -/
def fl_handle_LeaveNotify (K : Platform) (pushed : Bool) (ev : XEvent) (s : EventState) :
    EventState × FlEvent :=
  if ev.detail = NotifyInferior then (s, FlEvent.NO_EVENT)
  else
    let s1 := set_event_xy K pushed ev s
    ({ s1 with e_state := (ev.crossing_state <<< 16) % 4294967296 }, FlEvent.FL_LEAVE)

/-- The event types of the pointer arms of `fl_handle`. -/
inductive PointerType where
  | ButtonPress
  | MotionNotify
  | ButtonRelease
  | EnterNotify
  | LeaveNotify
deriving DecidableEq, Repr

/-- A pointer event delivered to a known window, with the value of `Fl::pushed() != 0`
at the time `fl_handle` runs (`Fl::pushed_` is maintained by `Fl::handle`, which is not
part of these files). -/
structure PointerEvent where
  type : PointerType
  pushed : Bool
  ev : XEvent
deriving DecidableEq, Repr

/-- The `switch (xevent.type)` of `fl_handle` on the pointer events of a known window. -/
def fl_handle_pointer (K : Platform) (p : PointerEvent) (s : EventState) :
    EventState × FlEvent :=
  match p.type with
  | PointerType.ButtonPress => fl_handle_ButtonPress K p.pushed p.ev s
  | PointerType.MotionNotify => fl_handle_MotionNotify K p.pushed p.ev s
  | PointerType.ButtonRelease => fl_handle_ButtonRelease K p.pushed p.ev s
  | PointerType.EnterNotify => fl_handle_EnterNotify K p.pushed p.ev s
  | PointerType.LeaveNotify => fl_handle_LeaveNotify K p.pushed p.ev s

/-- The statics after a sequence of pointer events, first event first. -/
def runPointer (K : Platform) (ps : List PointerEvent) (s : EventState) : EventState :=
  ps.foldl (fun s p => (fl_handle_pointer K p s).1) s

/-- A `ButtonPress` of button `b` at root position (`X`, `Y`) with timestamp `t`. -/
def press (b : Nat) (X Y : Int) (t : Nat) : XEvent :=
  { x := X, y := Y, x_root := X, y_root := Y, time := t, state := 0, button := b,
    detail := 0, crossing_state := 0 }

/-- An event that does not turn off `e_is_click` in `set_event_xy`: it is a crossing
with detail `NotifyInferior`, or it lies within 3 pixels of (`px`, `py`) and before
`ptime` plus the time window. -/
def quiet (K : Platform) (s : EventState) (p : PointerEvent) : Prop :=
  ((p.type = PointerType.EnterNotify ∨ p.type = PointerType.LeaveNotify)
      ∧ p.ev.detail = NotifyInferior) ∨
  ((p.ev.x_root - s.px).natAbs + (p.ev.y_root - s.py).natAbs ≤ 3 ∧
    p.ev.time < (s.ptime + (if p.pushed then 200 else 1000)) % K.ULONG_MOD)

/-- An example platform: 64-bit `unsigned long`, and for the constants the values that
FLTK 1 gives them. -/
def lp64 : Platform :=
  { ULONG_BITS := 64, FL_Button := 0xfee8, FL_BUTTON1 := 0x01000000,
    FL_FORCE_POSITION := 16 }

/-- The statics at program start. -/
def EventState.init : EventState :=
  { e_x := 0, e_y := 0, e_x_root := 0, e_y_root := 0, e_state := 0, e_keysym := 0,
    e_is_click := 0, e_clicks := 0, e_dy := 0, fl_event_time := 0, px := 0, py := 0,
    ptime := 0 }

/-- A run of events cut at its presses: each item is the events that `fl_handle`
processes before a press (none of them a press), the value of `Fl::pushed() != 0` at
the press, and the `ButtonPress` event. -/
abbrev PressRun := List (List PointerEvent × Bool × XEvent)

/-- The statics after such a run. -/
def runPresses (K : Platform) : PressRun → EventState → EventState
  | [], s => s
  | (gap, q, e) :: rest, s =>
    runPresses K rest (fl_handle_ButtonPress K q e (runPointer K gap s)).1

/-- The click counts after each press of such a run, in order. -/
def clickCounts (K : Platform) : PressRun → EventState → List Int
  | [], _ => []
  | (gap, q, e) :: rest, s =>
    (fl_handle_ButtonPress K q e (runPointer K gap s)).1.e_clicks ::
      clickCounts K rest (fl_handle_ButtonPress K q e (runPointer K gap s)).1

/-- Every event between two presses is a motion, release or crossing that is `quiet`
with respect to the press before it (for the first item: with respect to `s`). -/
def quietRun (K : Platform) : PressRun → EventState → Prop
  | [], _ => True
  | (gap, q, e) :: rest, s =>
    (∀ p ∈ gap, p.type ≠ PointerType.ButtonPress ∧ quiet K s p) ∧
      quietRun K rest (fl_handle_ButtonPress K q e (runPointer K gap s)).1

instance (K : Platform) (s : EventState) (p : PointerEvent) : Decidable (quiet K s p) := by
  unfold quiet; infer_instance

/-- Decision procedure for `quietRun`. -/
def quietRun.decide (K : Platform) :
    (r : PressRun) → (s : EventState) → Decidable (quietRun K r s)
  | [], _ => isTrue trivial
  | (gap, q, e) :: rest, s =>
    have _ := quietRun.decide K rest (fl_handle_ButtonPress K q e (runPointer K gap s)).1
    by unfold quietRun; infer_instance

instance (K : Platform) (r : PressRun) (s : EventState) : Decidable (quietRun K r s) :=
  quietRun.decide K r s

/-- The part of the statics that decides the click count of the next press. -/
def sameClickState (s s2 : EventState) : Prop :=
  s.px = s2.px ∧ s.py = s2.py ∧ s.ptime = s2.ptime ∧ s.e_is_click = s2.e_is_click ∧
    s.e_clicks = s2.e_clicks

/-- A `MotionNotify` at root position (`X`, `Y`) with timestamp `t`. -/
def motion (X Y : Int) (t : Nat) : PointerEvent :=
  { type := PointerType.MotionNotify, pushed := false, ev := press 0 X Y t }

/-! ## Window creation (`Fl_x.cxx`: `Fl_X::create`, `Fl_X::sendxjunk`, `Fl_Window::layout`,
`Fl_Window::label`) and grab (`Fl_grab.cxx`) -/

/-! Constants of X11/X.h, X11/Xutil.h and X11/Xatom.h. -/

/-- X11 constant `CWBackPixel`. -/
def CWBackPixel : Nat := 2
/-- X11 constant `CWBorderPixel`. -/
def CWBorderPixel : Nat := 8
/-- X11 constant `CWBitGravity`. -/
def CWBitGravity : Nat := 16
/-- X11 constant `CWOverrideRedirect`. -/
def CWOverrideRedirect : Nat := 512
/-- X11 constant `CWSaveUnder`. -/
def CWSaveUnder : Nat := 1024
/-- X11 constant `CWEventMask`. -/
def CWEventMask : Nat := 2048
/-- X11 constant `CWColormap`. -/
def CWColormap : Nat := 8192
/-- X11 constant `KeyPressMask`. -/
def KeyPressMask : Nat := 1
/-- X11 constant `KeyReleaseMask`. -/
def KeyReleaseMask : Nat := 2
/-- X11 constant `ButtonPressMask`. -/
def ButtonPressMask : Nat := 4
/-- X11 constant `ButtonReleaseMask`. -/
def ButtonReleaseMask : Nat := 8
/-- X11 constant `EnterWindowMask`. -/
def EnterWindowMask : Nat := 16
/-- X11 constant `LeaveWindowMask`. -/
def LeaveWindowMask : Nat := 32
/-- X11 constant `PointerMotionMask`. -/
def PointerMotionMask : Nat := 64
/-- X11 constant `ButtonMotionMask`. -/
def ButtonMotionMask : Nat := 8192
/-- X11 constant `KeymapStateMask`. -/
def KeymapStateMask : Nat := 16384
/-- X11 constant `ExposureMask`. -/
def ExposureMask : Nat := 32768
/-- X11 constant `StructureNotifyMask`. -/
def StructureNotifyMask : Nat := 131072
/-- X11 constant `FocusChangeMask`. -/
def FocusChangeMask : Nat := 2097152
/-- X11 constant `InputOutput`. -/
def InputOutput : Nat := 1
/-- X11 constant `GrabModeAsync`. -/
def GrabModeAsync : Nat := 1
/-- X11 constant `USPosition`. -/
def USPosition : Nat := 1
/-- X11 constant `PMinSize`. -/
def PMinSize : Nat := 16
/-- X11 constant `PMaxSize`. -/
def PMaxSize : Nat := 32
/-- X11 constant `PResizeInc`. -/
def PResizeInc : Nat := 64
/-- X11 constant `PWinGravity`. -/
def PWinGravity : Nat := 512
/-- X11 constant `StaticGravity`. -/
def StaticGravity : Int := 10
/-- X11 constant `InputHint`. -/
def InputHint : Nat := 1
/-- X11 constant `StateHint`. -/
def StateHint : Nat := 2
/-- X11 constant `IconPixmapHint`. -/
def IconPixmapHint : Nat := 4
/-- X11 constant `IconicState`. -/
def IconicState : Int := 3
/-- X11 constant `XA_ATOM`. -/
def XA_ATOM : Nat := 4
/-- X11 constant `XA_STRING`. -/
def XA_STRING : Nat := 31
/-- X11 constant `XA_WM_ICON_NAME`. -/
def XA_WM_ICON_NAME : Nat := 37
/-- X11 constant `XA_WM_NAME`. -/
def XA_WM_NAME : Nat := 39
/-- X11 constant `XA_WM_CLASS`. -/
def XA_WM_CLASS : Nat := 67

/-- The struct `XSetWindowAttributes`, the members that `Fl_X::create` assigns; `none` is a member
that was not assigned. -/
structure XSetWindowAttributes where
  background_pixel : Option Int
  border_pixel : Option Int
  bit_gravity : Option Int
  event_mask : Option Nat
  override_redirect : Option Int
  save_under : Option Int
  colormap : Option Nat
deriving DecidableEq, Repr

/-- The struct `XSizeHints`, the members that `Fl_X::sendxjunk` assigns. -/
structure XSizeHints where
  flags : Nat
  x : Option Int
  y : Option Int
  min_width : Int
  min_height : Int
  max_width : Int
  max_height : Int
  width_inc : Int
  height_inc : Int
  win_gravity : Int
deriving DecidableEq, Repr

/-- The struct `XWMHints`, the members that `Fl_X::create` assigns. -/
structure XWMHints where
  flags : Nat
  input : Int
  initial_state : Option Int
  icon_pixmap : Option Nat
deriving DecidableEq, Repr

/-- A call into Xlib, or into toolkit code that is not part of these files, with the
arguments that these files compute (the display argument is left out). -/
inductive Call where
  | XCreateWindow (parent : Nat) (x y width height : Int) (border_width : Nat) (depth : Int)
      (cls visual valuemask : Nat) (attributes : XSetWindowAttributes)
  | XChangeProperty (w property type format mode : Nat) (data : List Int) (nelements : Int)
  | XSetTransientForHint (w prop_window : Nat)
  | XSetWMHints (w : Nat) (hints : XWMHints)
  | XSetWMNormalHints (w : Nat) (hints : XSizeHints)
  | XMapWindow (w : Nat)
  | XMoveWindow (w : Nat) (x y : Int)
  | XMoveResizeWindow (w : Nat) (x y width height : Int)
  | XGrabPointer (grab_window owner_events event_mask pointer_mode keyboard_mode confine_to
      cursor time : Nat)
  | XGrabKeyboard (grab_window owner_events pointer_mode keyboard_mode time : Nat)
  | XUngrabKeyboard (time : Nat)
  | XUngrabPointer (time : Nat)
  | XFlush
  | fl_fix_focus (sendmove : Int)
  | redraw (window : Nat)
  | layout_children (window : Nat)
  | Fl_Widget_layout (window : Nat)
  | set_old_size (window : Nat)
  | Fl_Group_layout (window : Nat)
deriving DecidableEq, Repr

/-- The struct `Fl_X`: the native side of a window (the links `w` and `next` are kept by
`Fl_Window.i` and `XGlobals.first`). -/
structure Fl_X where
  xid : Nat
  other_xid : Nat
  region : Nat
  wait_for_expose : Int
deriving DecidableEq, Repr

/-- The members of `Fl_Window` that these files use.  `self` is the address of the
window; `parent` is `none` for a top-level window and otherwise holds
`window()->i->xid`; strings are the bytes before the terminating NUL, `none` is the
null pointer; `icon` is a pointer. -/
structure Fl_Window where
  self : Nat
  x : Int
  y : Int
  w : Int
  h : Int
  ox : Int
  oy : Int
  ow : Int
  oh : Int
  parent : Option Nat
  border : Bool
  flags : Nat
  i : Option Fl_X
  label : Option (List Nat)
  iconlabel : Option (List Nat)
  xclass : Option (List Nat)
  icon : Nat
  minw : Int
  minh : Int
  maxw : Int
  maxh : Int
  dw : Int
  dh : Int
  size_range_set : Int
deriving DecidableEq, Repr

/-- The globals of `Fl_x.cxx` that window creation reads and writes, and what the
display reports: `DisplayWidth`, `DisplayHeight` (the results of `Fl::w()`, `Fl::h()`)
and `RootWindow`.  `fl_modal_for` holds `fl_modal_for->i->xid`; `first` is the list
`Fl_X::first` as the native ids, newest first. -/
structure XGlobals where
  screen_w : Int
  screen_h : Int
  root : Nat
  wm_delete_window : Nat
  wm_protocols : Nat
  fl_motif_wm_hints : Nat
  fl_show_iconic : Int
  fl_disable_transient_for : Int
  fl_modal_for : Option Nat
  resize_from_system : Nat
  first : List Nat
deriving DecidableEq, Repr

/-- The function `isalnum` of the C locale, on a byte. -/
def isalnum (c : Nat) : Bool :=
  (48 ≤ c && c ≤ 57) || (65 ≤ c && c ≤ 90) || (97 ≤ c && c ≤ 122)

/-- The function `toupper` of the C locale, on a byte. -/
def toupper (c : Nat) : Nat := if 97 ≤ c ∧ c ≤ 122 then c - 32 else c

/-- The loop of `filename_name`: `p` is the rest of the string, `q` the result so far. -/
def filename_name_loop : List Nat → List Nat → List Nat
  | [], q => q
  | c :: p, q => if c = 47 then filename_name_loop p p else filename_name_loop p q

/-- Source: `const char *filename_name(const char *name)`: the result points into `name`, it is
given as the bytes from there to the end. -/
def filename_name (name : List Nat) : List Nat := filename_name_loop name name

/-- Source: `void Fl_X::sendxjunk()` for the window `w` with native id `xid`. -/
def Fl_X.sendxjunk (K : Platform) (G : XGlobals) (w : Fl_Window) (xid : Nat) : List Call :=
  if w.parent.isSome then [] -- it is not a window manager window
  else
    let hints : XSizeHints :=
      { flags := 0, x := none, y := none, min_width := w.minw, min_height := w.minh,
        max_width := w.maxw, max_height := w.maxh, width_inc := w.dw, height_inc := w.dh,
        win_gravity := StaticGravity }
    let r : XSizeHints × List Int :=
      if hints.min_width ≠ hints.max_width ∨ hints.min_height ≠ hints.max_height then
        -- resizable
        let h1 : XSizeHints := { hints with flags := PMinSize ||| PWinGravity }
        let h2 : XSizeHints :=
          if h1.max_width ≥ h1.min_width ∨ h1.max_height ≥ h1.min_height then
            let a : XSizeHints := { h1 with flags := PMinSize ||| PMaxSize ||| PWinGravity }
            let b : XSizeHints := if a.max_width < a.min_width then { a with max_width := G.screen_w }
                     else a
            if b.max_height < b.min_height then { b with max_height := G.screen_h } else b
          else h1
        let h3 : XSizeHints := if h2.width_inc ≠ 0 ∧ h2.height_inc ≠ 0
                  then { h2 with flags := h2.flags ||| PResizeInc } else h2
        (h3, [0, 1, 1, 0, 0])
      else
        -- not resizable
        ({ hints with flags := PMinSize ||| PMaxSize }, [1, 19, 1, 0, 0]) -- prop[1] = 1|2|16
    let h4 : XSizeHints :=
      if w.flags &&& K.FL_FORCE_POSITION ≠ 0 then
        { r.1 with flags := r.1.flags ||| USPosition, x := some w.x, y := some w.y }
      else r.1
    [Call.XSetWMNormalHints xid h4,
     Call.XChangeProperty xid G.fl_motif_wm_hints G.fl_motif_wm_hints 32 0 r.2 5]

/-- Source: `void Fl_Window::size_range_()` -/
def Fl_Window.size_range_ (K : Platform) (G : XGlobals) (w : Fl_Window) :
    Fl_Window × List Call :=
  let w1 := { w with size_range_set := 1 }
  match w1.i with
  | some x => (w1, Fl_X.sendxjunk K G w1 x.xid)
  | none => (w1, [])

/-- Source: `void Fl_Window::label(const char *name, const char *iname)` -/
def Fl_Window.setLabel (w : Fl_Window) (name iname : Option (List Nat)) :
    Fl_Window × List Call :=
  let w1 := { w with label := name, iconlabel := iname }
  match w1.i with
  | some x =>
    if w1.parent.isNone then
      let name1 := name.getD []
      let iname1 := match iname with
        | some s => s
        | none => filename_name name1
      (w1, [Call.XChangeProperty x.xid XA_WM_NAME XA_STRING 8 0
              (name1.map Int.ofNat) name1.length,
            Call.XChangeProperty x.xid XA_WM_ICON_NAME XA_STRING 8 0
              (iname1.map Int.ofNat) iname1.length])
    else (w1, [])
  | none => (w1, [])

/-- The first loop of the WM_CLASS block: `for (...; isalnum(*q)||(*q&128);) *p++ = *q++;`
with `q` the rest of the class string and `p` an index into `buffer`. -/
def copy_alnum : List Nat → (Nat → Nat) → Nat → (Nat → Nat) × Nat
  | [], buffer, p => (buffer, p)
  | c :: q, buffer, p =>
    if isalnum c ∨ c &&& 128 ≠ 0 then copy_alnum q (Function.update buffer p c) (p + 1)
    else (buffer, p)

/-- The loop `while ((*p++ = *q++));` with `p`, `q` indices into `buffer`, for at most
`fuel` iterations. -/
def copy_string : Nat → (Nat → Nat) → Nat → Nat → (Nat → Nat) × Nat
  | 0, buffer, p, _ => (buffer, p)
  | fuel + 1, buffer, p, q =>
    let c := buffer q
    let buffer1 := Function.update buffer p c
    if c ≠ 0 then copy_string fuel buffer1 (p + 1) (q + 1) else (buffer1, p + 1)

/-- The WM_CLASS block of `Fl_X::create`: the bytes and the length passed to
`XChangeProperty`, or `none` when the block writes behind the end of
`char buffer[1024]`, where the behaviour of the source is undefined.  The block writes
the cells 0, 1, 2, ... in order up to the cell before the final `p`, so it stays inside
the buffer exactly when the final `p` is at most 1024; the last loop is given the fuel
1024, which it cannot use up inside the buffer. -/
def wm_class_data (xclass : List Nat) : Option (List Int × Int) :=
  -- truncate on any punctuation, because they break XResource lookup:
  let r1 := copy_alnum xclass (fun _ => 0) 0
  let buffer1 := Function.update r1.1 r1.2 0
  let p1 := r1.2 + 1
  -- create the capitalized version:
  let buffer2 := Function.update buffer1 p1 (toupper (buffer1 0))
  let q2 := 1
  let r3 : (Nat → Nat) × Nat × Nat :=
    if buffer2 p1 = 88 then
      (Function.update buffer2 (p1 + 1) (toupper (buffer2 q2)), p1 + 2, q2 + 1)
    else (buffer2, p1 + 1, q2)
  let r4 := copy_string 1024 r3.1 r3.2.1 r3.2.2
  if r4.2 ≤ 1024 then
    some (((List.range (r4.2 - 1)).map fun k => Int.ofNat (r4.1 k)), (r4.2 : Int) - 1)
  else none

/-- The first part of `Fl_X::create`: the parent (`root`), the value mask and the
attributes passed to `XCreateWindow`. -/
def Fl_X.create_attributes (G : XGlobals) (w : Fl_Window) (colormap : Nat)
    (background : Int) : Nat × Nat × XSetWindowAttributes :=
  let attr0 : XSetWindowAttributes :=
    { background_pixel := none, border_pixel := none, bit_gravity := none,
      event_mask := none, override_redirect := none, save_under := none, colormap := none }
  let mask0 := CWBorderPixel ||| CWColormap ||| CWEventMask ||| CWBitGravity
  let r1 : Nat × Nat × XSetWindowAttributes :=
    match w.parent with
    | some pxid => (pxid, mask0, { attr0 with event_mask := some ExposureMask })
    | none =>
      let event_mask :=
        ExposureMask ||| StructureNotifyMask
          ||| KeyPressMask ||| KeyReleaseMask ||| KeymapStateMask ||| FocusChangeMask
          ||| ButtonPressMask ||| ButtonReleaseMask
          ||| EnterWindowMask ||| LeaveWindowMask
          ||| PointerMotionMask
      let a := { attr0 with event_mask := some event_mask }
      if ¬ w.border then
        (G.root, mask0 ||| (CWOverrideRedirect ||| CWSaveUnder),
          { a with override_redirect := some 1, save_under := some 1 })
      else (G.root, mask0, a)
  let attr2 := { r1.2.2 with border_pixel := some 0, colormap := some colormap,
                             bit_gravity := some 0 }
  if background ≥ 0 then
    (r1.1, r1.2.1 ||| CWBackPixel, { attr2 with background_pixel := some background })
  else (r1.1, r1.2.1, attr2)

/-- The width that `Fl_X::create` passes on: `int W = w->w(); if (W <= 0) W = 1;`, and
likewise for the height. -/
def Fl_X.create_size (v : Int) : Int := if v ≤ 0 then 1 else v -- X does not like zero

/-- The centering step of `Fl_X::create`, with `W`, `H` the clamped size. -/
def Fl_X.create_center (K : Platform) (G : XGlobals) (w : Fl_Window) (W H : Int) :
    Fl_Window :=
  -- center windows in case window manager does not do anything:
  if w.flags &&& K.FL_FORCE_POSITION = 0 ∧ w.parent.isNone then
    { w with x := (G.screen_w - W).tdiv 2, y := (G.screen_h - H).tdiv 2 }
  else w

/-- The block of `Fl_X::create` that talks to the window manager, run for a bordered
top-level window `w` with the native side `x`.  The last component tells whether the
block ran to its end: it is `false` when the WM_CLASS block wrote behind the end of its
buffer, and the calls are then those made before that. -/
def Fl_X.create_wm (K : Platform) (G : XGlobals) (w : Fl_Window) (x : Fl_X) :
    XGlobals × Fl_Window × List Call × Bool :=
  -- communicate with the X window manager:
  let rl := Fl_Window.setLabel w w.label w.iconlabel
  let w3 := rl.1
  let cprot := [Call.XChangeProperty x.xid G.wm_protocols XA_ATOM 32 0
                  [Int.ofNat G.wm_delete_window] 1]
  -- send size limits and border:
  let cjunk := Fl_X.sendxjunk K G w3 x.xid
  -- set the class property, which controls the icon used:
  let cclass : Option (List Call) := match w3.xclass with
    | some s => match wm_class_data s with
      | some d => some [Call.XChangeProperty x.xid XA_WM_CLASS XA_STRING 8 0 d.1 d.2]
      | none => none
    | none => some []
  let ctrans := match G.fl_modal_for with
    | some m => if G.fl_disable_transient_for = 0
                then [Call.XSetTransientForHint x.xid m] else []
    | none => []
  let hints0 : XWMHints :=
    { flags := InputHint, input := 1, initial_state := none, icon_pixmap := none }
  let rh : XWMHints × XGlobals :=
    if G.fl_show_iconic ≠ 0 then
      ({ hints0 with flags := hints0.flags ||| StateHint,
                     initial_state := some IconicState },
       { G with fl_show_iconic := 0 })
    else (hints0, G)
  let hints2 :=
    if w3.icon ≠ 0 then
      { rh.1 with icon_pixmap := some w3.icon, flags := rh.1.flags ||| IconPixmapHint }
    else rh.1
  match cclass with
  | none => (G, w3, rl.2 ++ cprot ++ cjunk, false)
  | some cc =>
    (rh.2, w3, rl.2 ++ cprot ++ cjunk ++ cc ++ ctrans ++ [Call.XSetWMHints x.xid hints2],
      true)

/-- Source: `void Fl_X::create(Fl_Window* w, XVisualInfo *visual, Colormap colormap, int
background)`; `depth` and `visual` are `visual->depth` and `visual->visual`, `newxid`
is the id that `XCreateWindow` returns.  The result is the globals, the window and the
calls made, in order.  When the WM_CLASS block writes behind the end of its buffer the
behaviour of the source is undefined: the result then holds the calls made before
that, and neither `XSetWMHints` nor `XMapWindow`. -/
def Fl_X.create (K : Platform) (G : XGlobals) (w : Fl_Window) (depth : Int)
    (visual colormap : Nat) (background : Int) (newxid : Nat) :
    XGlobals × Fl_Window × List Call :=
  let a := Fl_X.create_attributes G w colormap background
  let W := Fl_X.create_size w.w
  let H := Fl_X.create_size w.h
  let w1 := Fl_X.create_center K G w W H
  let X := w1.x
  let Y := w1.y
  let x : Fl_X := { xid := newxid, other_xid := 0, region := 0, wait_for_expose := 1 }
  let w2 := { w1 with i := some x }
  let G1 := { G with first := newxid :: G.first }
  let calls1 := [Call.XCreateWindow a.1 X Y W H 0 depth InputOutput visual a.2.1 a.2.2,
                 Call.redraw w2.self] -- force draw to happen
  let r4 : XGlobals × Fl_Window × List Call × Bool :=
    if w2.parent.isNone ∧ w2.border then Fl_X.create_wm K G1 w2 x else (G1, w2, [], true)
  (r4.1, r4.2.1,
    calls1 ++ r4.2.2.1 ++ (if r4.2.2.2 = true then [Call.XMapWindow x.xid] else []))

/-- Source: `void Fl_Window::create()` -/
def Fl_Window.create (K : Platform) (G : XGlobals) (w : Fl_Window) (depth : Int)
    (fl_visual fl_colormap : Nat) (newxid : Nat) : XGlobals × Fl_Window × List Call :=
  Fl_X.create K G w depth fl_visual fl_colormap (-1) newxid

/-- Source: `void Fl_Window::layout()` -/
def Fl_Window.layout (K : Platform) (G : XGlobals) (w : Fl_Window) :
    XGlobals × Fl_Window × List Call :=
  let w1 := if w.ox ≠ w.x ∨ w.oy ≠ w.y
            then { w with flags := w.flags ||| K.FL_FORCE_POSITION } else w
  if w1.ow = w1.w ∧ w1.oh = w1.h then
    let r : XGlobals × List Call :=
      if w1.self = G.resize_from_system then ({ G with resize_from_system := 0 }, [])
      else match w1.i with
        | some x => if w1.ox ≠ w1.x ∨ w1.oy ≠ w1.y
                    then (G, [Call.XMoveWindow x.xid w1.x w1.y]) else (G, [])
        | none => (G, [])
    (r.1, w1, r.2 ++ [Call.layout_children w1.self, Call.Fl_Widget_layout w1.self,
                      Call.set_old_size w1.self])
  else
    let r : XGlobals × List Call :=
      if w1.self = G.resize_from_system then ({ G with resize_from_system := 0 }, [])
      else match w1.i with
        | some x =>
          (G, [Call.XMoveResizeWindow x.xid w1.x w1.y
                 (if w1.w > 0 then w1.w else 1) (if w1.h > 0 then w1.h else 1),
               Call.redraw w1.self])
        | none => (G, [])
    (r.1, w1, r.2 ++ [Call.Fl_Group_layout w1.self])

/-- The statics `Fl::grab_` and `Fl::pushed_`, and the calls made so far. -/
structure GrabState where
  grab_ : Nat
  pushed_ : Nat
  calls : List Call
deriving DecidableEq, Repr

/-- Source: `void Fl::grab(Fl_Window* w)` (not WIN32); `first` is `fl_xid(first_window())` and
`time` is `fl_event_time`. -/
def grab (first time : Nat) (w : Nat) (s : GrabState) : GrabState :=
  if w ≠ 0 then
    let s1 :=
      if s.grab_ = 0 then
        { s with calls := s.calls ++
          [Call.XGrabPointer first 1
             (ButtonPressMask ||| ButtonReleaseMask ||| ButtonMotionMask ||| PointerMotionMask)
             GrabModeAsync GrabModeAsync 0 0 time,
           Call.XGrabKeyboard first 1 GrabModeAsync GrabModeAsync time] }
      else s
    let s2 := if s1.pushed_ ≠ 0 then { s1 with pushed_ := w } else s1
    { s2 with grab_ := w }
  else
    if s.grab_ ≠ 0 then
      { grab_ := 0, pushed_ := 0,
        calls := s.calls ++ [Call.XUngrabKeyboard time, Call.XUngrabPointer time, Call.XFlush,
                             Call.fl_fix_focus 1] }
    else s

/-- The number of `fl_fix_focus` calls in a trace. -/
def countFixFocus (cs : List Call) : Nat :=
  (cs.filter fun c => match c with
    | Call.fl_fix_focus _ => true
    | _ => false).length

/-- The `XCreateWindow` calls of a trace, as (x, y, width, height). -/
def createdGeometry (cs : List Call) : List (Int × Int × Int × Int) :=
  cs.filterMap fun c => match c with
    | Call.XCreateWindow _ x y width height _ _ _ _ _ _ => some (x, y, width, height)
    | _ => none

/-- The `XCreateWindow` calls of a trace, as (valuemask, attributes). -/
def createdAttributes (cs : List Call) : List (Nat × XSetWindowAttributes) :=
  cs.filterMap fun c => match c with
    | Call.XCreateWindow _ _ _ _ _ _ _ _ _ valuemask attributes => some (valuemask, attributes)
    | _ => none

/-- The `XMoveResizeWindow` calls of a trace, as (width, height). -/
def resizedSize (cs : List Call) : List (Int × Int) :=
  cs.filterMap fun c => match c with
    | Call.XMoveResizeWindow _ _ _ width height => some (width, height)
    | _ => none

/-- An example display: 1280 x 1024. -/
def exampleGlobals : XGlobals :=
  { screen_w := 1280, screen_h := 1024, root := 1, wm_delete_window := 100,
    wm_protocols := 101, fl_motif_wm_hints := 102, fl_show_iconic := 0,
    fl_disable_transient_for := 0, fl_modal_for := none, resize_from_system := 0,
    first := [] }

/-- An example window: top-level, bordered, at (0, 0) with the size `w` x `h`. -/
def exampleWindow (w h : Int) : Fl_Window :=
  { self := 7, x := 0, y := 0, w := w, h := h, ox := 0, oy := 0, ow := w, oh := h,
    parent := none, border := true, flags := 0, i := none, label := some [97],
    iconlabel := none, xclass := some [120], icon := 0, minw := 0, minh := 0, maxw := 0,
    maxh := 0, dw := 0, dh := 0, size_range_set := 0 }


/-! ## The base graphics driver (`FL/Fl_Graphics_Driver.H`) -/

/-- The scalar members of `Fl_Graphics_Driver` (the matrix stack, the region stack and
the current matrix are left out: no operation modelled here reads or writes them).
`color_` is an `Fl_Color` (unsigned), `font_` an `Fl_Font`, `size_` an `Fl_Fontsize`,
`font_descriptor_` a pointer. -/
structure Fl_Graphics_Driver where
  fl_clip_state_number : Int
  font_ : Int
  size_ : Int
  color_ : Nat
  sptr : Int
  n : Int
  gap_ : Int
  what : Int
  rstackptr : Int
  font_descriptor_ : Nat
deriving DecidableEq, Repr

/-- A call of one of the drawing primitives, clip operations and vertex operations of
the base class, or of `color(Fl_Color)` or `font(Fl_Font, Fl_Fontsize)`, with its
arguments; `D` is the type of the `double` arguments.  Overloads are told apart by the
number of their points. -/
inductive DriverOp (D : Type) where
  | point (x y : Int)
  | rect (x y w h : Int)
  | rectf (x y w h : Int)
  | line (x y x1 y1 : Int)
  | line2 (x y x1 y1 x2 y2 : Int)
  | xyline (x y x1 : Int)
  | xyline2 (x y x1 y2 : Int)
  | xyline3 (x y x1 y2 x3 : Int)
  | yxline (x y y1 : Int)
  | yxline2 (x y y1 x2 : Int)
  | yxline3 (x y y1 x2 y3 : Int)
  | loop (x0 y0 x1 y1 x2 y2 : Int)
  | loop4 (x0 y0 x1 y1 x2 y2 x3 y3 : Int)
  | polygon (x0 y0 x1 y1 x2 y2 : Int)
  | polygon4 (x0 y0 x1 y1 x2 y2 x3 y3 : Int)
  | push_clip (x y w h : Int)
  | push_no_clip
  | pop_clip
  | begin_complex_polygon
  | transformed_vertex (xf yf : D)
  | vertex (x y : D)
  | end_points
  | end_line
  | end_loop
  | end_polygon
  | end_complex_polygon
  | gap
  | color (c : Nat)
  | font (face fsize : Int)

/-- The inline bodies of these member functions in the base class: the driver after
the call (every one of them returns `void`). -/
def Fl_Graphics_Driver.run {D : Type} : DriverOp D → Fl_Graphics_Driver → Fl_Graphics_Driver
  | DriverOp.point _ _, d => d
  | DriverOp.rect _ _ _ _, d => d
  | DriverOp.rectf _ _ _ _, d => d
  | DriverOp.line _ _ _ _, d => d
  | DriverOp.line2 _ _ _ _ _ _, d => d
  | DriverOp.xyline _ _ _, d => d
  | DriverOp.xyline2 _ _ _ _, d => d
  | DriverOp.xyline3 _ _ _ _ _, d => d
  | DriverOp.yxline _ _ _, d => d
  | DriverOp.yxline2 _ _ _ _, d => d
  | DriverOp.yxline3 _ _ _ _ _, d => d
  | DriverOp.loop _ _ _ _ _ _, d => d
  | DriverOp.loop4 _ _ _ _ _ _ _ _, d => d
  | DriverOp.polygon _ _ _ _ _ _, d => d
  | DriverOp.polygon4 _ _ _ _ _ _ _ _, d => d
  | DriverOp.push_clip _ _ _ _, d => d
  | DriverOp.push_no_clip, d => d
  | DriverOp.pop_clip, d => d
  | DriverOp.begin_complex_polygon, d => d
  | DriverOp.transformed_vertex _ _, d => d
  | DriverOp.vertex _ _, d => d
  | DriverOp.end_points, d => d
  | DriverOp.end_line, d => d
  | DriverOp.end_loop, d => d
  | DriverOp.end_polygon, d => d
  | DriverOp.end_complex_polygon, d => d
  | DriverOp.gap, d => d
  | DriverOp.color c, d => { d with color_ := c }
  | DriverOp.font face fsize, d => { d with font_ := face, size_ := fsize }

/-- Source: `virtual Fl_Color color() { return color_; }` -/
def Fl_Graphics_Driver.color (d : Fl_Graphics_Driver) : Nat := d.color_

/-- Source: `virtual Fl_Font font() {return font_; }` -/
def Fl_Graphics_Driver.font (d : Fl_Graphics_Driver) : Int := d.font_

/-- Source: `virtual Fl_Fontsize size() {return size_; }` -/
def Fl_Graphics_Driver.size (d : Fl_Graphics_Driver) : Int := d.size_

/-- Source: `virtual int height() { return size(); }` -/
def Fl_Graphics_Driver.height (d : Fl_Graphics_Driver) : Int := d.size

/-- Source: `virtual int descent() { return 0; }` -/
def Fl_Graphics_Driver.descent (_d : Fl_Graphics_Driver) : Int := 0

/-- The operations that are neither `color(c)` nor `font(face, size)`. -/
def DriverOp.isPrimitive {D : Type} : DriverOp D → Bool
  | DriverOp.color _ => false
  | DriverOp.font _ _ => false
  | _ => true

/-! ## The display connection (`Fl_x.cxx`: `fl_open_display`, `fl_close_display`) -/

/-- The atom names that `fl_open_display` interns: "WM_DELETE_WINDOW", "WM_PROTOCOLS"
and "_MOTIF_WM_HINTS". -/
inductive AtomName where
  | WM_DELETE_WINDOW
  | WM_PROTOCOLS
  | MOTIF_WM_HINTS
deriving DecidableEq, Repr

/-- What Xlib answers to `fl_open_display`: the result of `XOpenDisplay(0)` (0 when the
display cannot be opened), of `ConnectionNumber`, `XInternAtom`, `DefaultScreen`,
`DefaultVisual`, `XVisualIDFromVisual`, `XGetVisualInfo` and `DefaultColormap`. -/
structure XServer where
  display : Nat
  connection : Int
  atom : AtomName → Nat
  default_screen : Int
  default_visual : Nat
  visualid : Nat
  visual_info : Nat
  default_colormap : Nat

/-- A call made by `fl_open_display` or `fl_close_display`, with the arguments that
identify it. -/
inductive DisplayCall where
  | XSetIOErrorHandler
  | XSetErrorHandler
  | XOpenDisplay
  | XInternAtom (d : Nat) (name : AtomName)
  | ConnectionNumber (d : Nat)
  | DefaultScreen (d : Nat)
  | DefaultVisual (d : Nat) (screen : Int)
  | XVisualIDFromVisual (visual : Nat)
  | XGetVisualInfo (d : Nat) (visualid : Nat)
  | DefaultColormap (d : Nat) (screen : Int)
  | Fl_visual_FL_RGB
  | XCloseDisplay (d : Nat)
deriving DecidableEq, Repr

/-- The globals `fl_display`, `fl_screen`, `fl_visual`, `fl_colormap`, the three atoms,
the descriptor table, and the calls made so far. -/
structure DisplayState where
  fl_display : Nat
  fl_screen : Int
  fl_visual : Nat
  fl_colormap : Nat
  wm_delete_window : Nat
  wm_protocols : Nat
  fl_motif_wm_hints : Nat
  fds : FdState
  calls : List DisplayCall

/-- The address of `static void fd_callback(int, void *)`; any non-null value will do. -/
def fd_callback : Nat := 1

/-- Source: `void fl_open_display()`.  The result is `none` when `XOpenDisplay` fails:
`Fl::fatal` does not return.  `USE_COLORMAP` is the macro of config.h; what
`Fl::visual(FL_RGB)` does to `fl_visual` and `fl_colormap` is not part of these files
and is left out. -/
def fl_open_display (USE_COLORMAP : Bool) (X : XServer) (s : DisplayState) :
    Option DisplayState :=
  if s.fl_display ≠ 0 then some s
  else
    let d := X.display
    if d = 0 then none
    else
      let screen := X.default_screen
      some
        { fl_display := d
          wm_delete_window := X.atom AtomName.WM_DELETE_WINDOW
          wm_protocols := X.atom AtomName.WM_PROTOCOLS
          fl_motif_wm_hints := X.atom AtomName.MOTIF_WM_HINTS
          fds := add_fd X.connection POLLIN fd_callback 0 s.fds
          fl_screen := screen
          -- construct an XVisualInfo that matches the default Visual:
          fl_visual := X.visual_info
          fl_colormap := X.default_colormap
          calls := s.calls ++
            [DisplayCall.XSetIOErrorHandler, DisplayCall.XSetErrorHandler,
             DisplayCall.XOpenDisplay,
             DisplayCall.XInternAtom d AtomName.WM_DELETE_WINDOW,
             DisplayCall.XInternAtom d AtomName.WM_PROTOCOLS,
             DisplayCall.XInternAtom d AtomName.MOTIF_WM_HINTS,
             DisplayCall.ConnectionNumber d,
             DisplayCall.DefaultScreen d,
             DisplayCall.DefaultVisual d screen,
             DisplayCall.XVisualIDFromVisual X.default_visual,
             DisplayCall.XGetVisualInfo d X.visualid,
             DisplayCall.DefaultColormap d screen] ++
            (if USE_COLORMAP then [] else [DisplayCall.Fl_visual_FL_RGB]) }

/-- Source: `void fl_close_display()`.  The function has no test of `fl_display` and does
not clear it. -/
def fl_close_display (X : XServer) (s : DisplayState) : DisplayState :=
  { s with
    fds := remove_fd_all X.connection s.fds
    calls := s.calls ++
      [DisplayCall.ConnectionNumber s.fl_display, DisplayCall.XCloseDisplay s.fl_display] }

/-- An example server: display 500 on descriptor 3. -/
def exampleServer : XServer :=
  { display := 500, connection := 3, atom := fun a => match a with
      | AtomName.WM_DELETE_WINDOW => 100
      | AtomName.WM_PROTOCOLS => 101
      | AtomName.MOTIF_WM_HINTS => 102,
    default_screen := 0, default_visual := 20, visualid := 33, visual_info := 21,
    default_colormap := 6 }

/-- The globals at program start. -/
def DisplayState.init : DisplayState :=
  { fl_display := 0, fl_screen := 0, fl_visual := 0, fl_colormap := 0, wm_delete_window := 0,
    wm_protocols := 0, fl_motif_wm_hints := 0, fds := FdState.init, calls := [] }

/-! ## The event handler (`Fl_x.cxx`: `fl_handle`) -/

/-! Event types of X11/X.h. -/

/-- X11 constant `KeyPress`. -/
def KeyPress : Nat := 2
/-- X11 constant `KeyRelease`. -/
def KeyRelease : Nat := 3
/-- X11 constant `ButtonPress`. -/
def ButtonPress : Nat := 4
/-- X11 constant `ButtonRelease`. -/
def ButtonRelease : Nat := 5
/-- X11 constant `MotionNotify`. -/
def MotionNotify : Nat := 6
/-- X11 constant `EnterNotify`. -/
def EnterNotify : Nat := 7
/-- X11 constant `LeaveNotify`. -/
def LeaveNotify : Nat := 8
/-- X11 constant `FocusIn`. -/
def FocusIn : Nat := 9
/-- X11 constant `FocusOut`. -/
def FocusOut : Nat := 10
/-- X11 constant `KeymapNotify`. -/
def KeymapNotify : Nat := 11
/-- X11 constant `Expose`. -/
def Expose : Nat := 12
/-- X11 constant `GraphicsExpose`. -/
def GraphicsExpose : Nat := 13
/-- X11 constant `CreateNotify`. -/
def CreateNotify : Nat := 16
/-- X11 constant `DestroyNotify`. -/
def DestroyNotify : Nat := 17
/-- X11 constant `UnmapNotify`. -/
def UnmapNotify : Nat := 18
/-- X11 constant `MapNotify`. -/
def MapNotify : Nat := 19
/-- X11 constant `MapRequest`. -/
def MapRequest : Nat := 20
/-- X11 constant `ReparentNotify`. -/
def ReparentNotify : Nat := 21
/-- X11 constant `ConfigureNotify`. -/
def ConfigureNotify : Nat := 22
/-- X11 constant `ConfigureRequest`. -/
def ConfigureRequest : Nat := 23
/-- X11 constant `GravityNotify`. -/
def GravityNotify : Nat := 24
/-- X11 constant `CirculateNotify`. -/
def CirculateNotify : Nat := 26
/-- X11 constant `CirculateRequest`. -/
def CirculateRequest : Nat := 27
/-- X11 constant `ClientMessage`. -/
def ClientMessage : Nat := 33
/-- X11 constant `MappingNotify`. -/
def MappingNotify : Nat := 34

/-- The constants of FL/Enumerations.H that the key arm of `fl_handle` uses. -/
structure Keys where
  FL_KP : Nat
  FL_KP_Last : Nat
  FL_F : Nat
  FL_Home : Nat
  FL_Left : Nat
  FL_Up : Nat
  FL_Right : Nat
  FL_Down : Nat
  FL_Page_Up : Nat
  FL_Page_Down : Nat
  FL_End : Nat
  FL_Insert : Nat
  FL_Delete : Nat
  FL_Tab : Nat
  FL_SHIFT : Nat
  FL_CTRL : Nat
deriving DecidableEq, Repr

/-- An `XEvent` as `fl_handle` reads it: `type`; `window` is `xany.window` and `window2`
is `xmaprequest.window`; `ptr` holds the members read through `xbutton` and
`xcrossing`; `client_data0` is `xclient.data.l[0]` converted to `Atom`; `key_vector` is
`xkeymap.key_vector`; `keycode` is `xkey.keycode`; then the members of `xexpose` and of
`xconfigure`. -/
structure NativeEvent where
  type : Nat
  window : Nat
  window2 : Nat
  ptr : XEvent
  client_data0 : Nat
  key_vector : List Nat
  keycode : Nat
  expose_x : Int
  expose_y : Int
  expose_width : Int
  expose_height : Int
  configure_width : Int
  configure_height : Int
deriving DecidableEq, Repr

/-- What the surroundings answer while `fl_handle` runs on one event: `fl_find`, the
value of `Fl::pushed() != 0`, the bytes and the keysym that `XLookupString` delivers,
`XKeycodeToKeysym(fl_display, keycode, 0)` and `(.., 1)`, the four coordinates that
`XQueryPointer` delivers, and whether `window->resize(...)` returns non-zero. -/
structure HandleEnv where
  fl_find : Nat → Nat
  pushed : Bool
  lookup : List Nat
  lookup_keysym : Nat
  keysym0 : Nat
  keysym1 : Nat
  pointer_X : Int
  pointer_Y : Int
  pointer_wX : Int
  pointer_wY : Int
  resized : Bool

/-- A call that `fl_handle` makes into Xlib or on the window, apart from the final
`Fl::handle`; `clear_wait_for_expose` is the store `Fl_X::i(window)->wait_for_expose = 0`. -/
inductive HandleCall where
  | XRefreshKeyboardMapping
  | clear_wait_for_expose (window : Nat)
  | damage (window : Nat) (x y w h : Int)
  | XLookupString (keycode : Nat)
  | XKeycodeToKeysym (keycode : Nat) (index : Nat)
  | XQueryPointer (window : Nat)
  | resize (window : Nat) (x y w h : Int)
deriving DecidableEq, Repr

/-- How `fl_handle` returns: with a constant, or with the value of
`Fl::handle(event, window)`. -/
inductive HandleResult where
  | returned (v : Int)
  | forwarded (event : FlEvent) (window : Nat)
deriving DecidableEq, Repr

/-- The statics that `fl_handle` reads and writes: those of `EventState`,
`fl_key_vector`, `Fl::e_text` (given as its first `e_length` bytes), `Fl::e_length`,
`resize_from_system`, `wm_delete_window`, and the calls made so far. -/
structure HandleState where
  ev : EventState
  fl_key_vector : Nat → Nat
  e_text : List Nat
  e_length : Int
  resize_from_system : Nat
  wm_delete_window : Nat
  calls : List HandleCall

/-- The table of the key arm: `static const unsigned short table[15]`. -/
def keypad_table (Q : Keys) : List Nat :=
  [(Q.FL_F + 1) % 65536, (Q.FL_F + 2) % 65536, (Q.FL_F + 3) % 65536, (Q.FL_F + 4) % 65536,
   Q.FL_Home % 65536, Q.FL_Left % 65536, Q.FL_Up % 65536, Q.FL_Right % 65536,
   Q.FL_Down % 65536, Q.FL_Page_Up % 65536, Q.FL_Page_Down % 65536, Q.FL_End % 65536,
   0xff0b, Q.FL_Insert % 65536, Q.FL_Delete % 65536]

/-- The arm `case KeyPress: case KeyRelease:` of `fl_handle`. -/
def fl_handle_Key (K : Platform) (Q : Keys) (env : HandleEnv) (xe : NativeEvent)
    (s : HandleState) : HandleState × FlEvent :=
  let keycode := xe.keycode
  let bit := 1 <<< (keycode % 8)
  let r1 : HandleState × Nat × FlEvent :=
    if xe.type = KeyPress then
      let kv := Function.update s.fl_key_vector (keycode / 8)
        ((s.fl_key_vector (keycode / 8) ||| bit) % 256)
      let latin : Bool := decide (env.lookup_keysym ≠ 0 ∧ env.lookup_keysym < 0x400)
      -- a character in latin-1,2,3,4 sets
      let buffer1 := if latin ∧ env.lookup.length = 0 then [env.lookup_keysym % 256]
                     else env.lookup
      let keysym := if latin then env.keysym0 else env.lookup_keysym
      let buffer2 := if s.ev.e_state &&& Q.FL_CTRL ≠ 0 ∧ keysym = 45
                     then buffer1.set 0 0x1f else buffer1
      ({ s with
          fl_key_vector := kv
          e_text := buffer2
          e_length := buffer2.length
          calls := s.calls ++ [HandleCall.XLookupString keycode] ++
            (if latin then [HandleCall.XKeycodeToKeysym keycode 0] else []) },
        keysym, FlEvent.FL_KEYBOARD)
    else
      let kv := Function.update s.fl_key_vector (keycode / 8)
        (s.fl_key_vector (keycode / 8) &&& (255 - bit))
      -- keyup events just get the unshifted keysym:
      ({ s with fl_key_vector := kv
                calls := s.calls ++ [HandleCall.XKeycodeToKeysym keycode 0] },
        env.keysym0, FlEvent.FL_KEYUP)
  let s1 := r1.1
  let keysym := r1.2.1
  let r2 : HandleState × Nat :=
    if 0xff91 ≤ keysym ∧ keysym ≤ 0xff9f then
      -- the XK_KP_function keys
      let keysym1 := env.keysym1
      let s2 := { s1 with calls := s1.calls ++ [HandleCall.XKeycodeToKeysym keycode 1] }
      if keysym1 ≤ 0x7f ∨ (keysym1 > 0xff9f ∧ keysym1 ≤ Q.FL_KP_Last) then
        let s3 := if xe.type = KeyPress
                  then { s2 with e_text := [(keysym1 % 256) &&& 0x7F], e_length := 1 }
                  else s2
        (s3, keysym1 ||| Q.FL_KP)
      else
        -- translate assuming PC keyboard layout:
        (s2, (keypad_table Q).getD (keysym - 0xff91) 0)
    else if keysym = 0xfe20 then
      -- Left_Tab
      ({ s1 with ev := { s1.ev with e_state := (s1.ev.e_state ||| Q.FL_SHIFT) % 4294967296 } },
        Q.FL_Tab)
    else (s1, keysym)
  let ev1 := { r2.1.ev with e_keysym := toInt32 r2.2 }
  ({ r2.1 with ev := checkdouble (set_event_xy K env.pushed xe.ptr ev1) }, r1.2.2)

/-- The window id that `fl_handle` looks up: `xevent.xany.window`, or for the events
where the interesting window id is in a different place `xevent.xmaprequest.window`. -/
def fl_handle_xid (xe : NativeEvent) : Nat :=
  if xe.type ∈ [CirculateNotify, CirculateRequest, ConfigureNotify, ConfigureRequest,
      CreateNotify, DestroyNotify, GravityNotify, MapNotify, MapRequest, ReparentNotify,
      UnmapNotify]
  then xe.window2 else xe.window

/-- Source: `int fl_handle(const XEvent& xevent)`: the statics after the call and the way
it returns. -/
def fl_handle (K : Platform) (Q : Keys) (env : HandleEnv) (xe : NativeEvent)
    (s : HandleState) : HandleState × HandleResult :=
  -- events where we do not care about window:
  if xe.type = KeymapNotify then
    ({ s with fl_key_vector := fun i => if i < 32 then xe.key_vector.getD i 0
                                        else s.fl_key_vector i },
      HandleResult.returned 0)
  else if xe.type = MappingNotify then
    ({ s with calls := s.calls ++ [HandleCall.XRefreshKeyboardMapping] },
      HandleResult.returned 0)
  else
    let xid := fl_handle_xid xe
    let window := env.fl_find xid
    if window ≠ 0 then
      if xe.type = ClientMessage then
        (s, HandleResult.forwarded
          (if xe.client_data0 = s.wm_delete_window then FlEvent.FL_CLOSE
           else FlEvent.NO_EVENT) window)
      else if xe.type = MapNotify then (s, HandleResult.forwarded FlEvent.FL_SHOW window)
      else if xe.type = UnmapNotify then (s, HandleResult.forwarded FlEvent.FL_HIDE window)
      else if xe.type = Expose then
        ({ s with calls := s.calls ++
            [HandleCall.clear_wait_for_expose window,
             HandleCall.damage window xe.expose_x xe.expose_y xe.expose_width
               xe.expose_height] },
          HandleResult.returned 1)
      else if xe.type = GraphicsExpose then
        ({ s with calls := s.calls ++
            [HandleCall.damage window xe.expose_x xe.expose_y xe.expose_width
               xe.expose_height] },
          HandleResult.returned 1)
      else if xe.type = ButtonPress then
        let r := fl_handle_ButtonPress K env.pushed xe.ptr s.ev
        ({ s with ev := r.1 }, HandleResult.forwarded r.2 window)
      else if xe.type = MotionNotify then
        let r := fl_handle_MotionNotify K env.pushed xe.ptr s.ev
        ({ s with ev := r.1 }, HandleResult.forwarded r.2 window)
      else if xe.type = ButtonRelease then
        let r := fl_handle_ButtonRelease K env.pushed xe.ptr s.ev
        ({ s with ev := r.1 }, HandleResult.forwarded r.2 window)
      else if xe.type = FocusIn then (s, HandleResult.forwarded FlEvent.FL_FOCUS window)
      else if xe.type = FocusOut then (s, HandleResult.forwarded FlEvent.FL_UNFOCUS window)
      else if xe.type = KeyPress ∨ xe.type = KeyRelease then
        let r := fl_handle_Key K Q env xe s
        (r.1, HandleResult.forwarded r.2 window)
      else if xe.type = EnterNotify then
        let r := fl_handle_EnterNotify K env.pushed xe.ptr s.ev
        ({ s with ev := r.1 }, HandleResult.forwarded r.2 window)
      else if xe.type = LeaveNotify then
        let r := fl_handle_LeaveNotify K env.pushed xe.ptr s.ev
        ({ s with ev := r.1 }, HandleResult.forwarded r.2 window)
      else if xe.type = ConfigureNotify then
        -- do a round trip to find the correct x,y:
        ({ s with
            resize_from_system := if env.resized then window else s.resize_from_system
            calls := s.calls ++
              [HandleCall.XQueryPointer window,
               HandleCall.resize window (env.pointer_X - env.pointer_wX)
                 (env.pointer_Y - env.pointer_wY) xe.configure_width xe.configure_height] },
          HandleResult.returned 1)
      else (s, HandleResult.forwarded FlEvent.NO_EVENT window)
    else (s, HandleResult.forwarded FlEvent.NO_EVENT window)

/-- Example values of the key constants (those that FLTK 1 gives them). -/
def exampleKeys : Keys :=
  { FL_KP := 0xff80, FL_KP_Last := 0xffbd, FL_F := 0xffbd, FL_Home := 0xff50,
    FL_Left := 0xff51, FL_Up := 0xff52, FL_Right := 0xff53, FL_Down := 0xff54,
    FL_Page_Up := 0xff55, FL_Page_Down := 0xff56, FL_End := 0xff57, FL_Insert := 0xff63,
    FL_Delete := 0xffff, FL_Tab := 0xff09, FL_SHIFT := 0x00010000, FL_CTRL := 0x00040000 }

/-- An example of the answers of the surroundings: every window id is the window 7. -/
def exampleEnv : HandleEnv :=
  { fl_find := fun _ => 7, pushed := false, lookup := [97], lookup_keysym := 97,
    keysym0 := 97, keysym1 := 65, pointer_X := 0, pointer_Y := 0, pointer_wX := 0,
    pointer_wY := 0, resized := false }

/-- An event of the type `t` on window 40 whose pointer members are those of `ev`. -/
def nativeEvent (t : Nat) (ev : XEvent) : NativeEvent :=
  { type := t, window := 40, window2 := 40, ptr := ev, client_data0 := 0, key_vector := [],
    keycode := 38, expose_x := 0, expose_y := 0, expose_width := 0, expose_height := 0,
    configure_width := 0, configure_height := 0 }

/-- The statics of `fl_handle` at program start, with the atom `wm_delete_window`. -/
def HandleState.init (wm_delete_window : Nat) : HandleState :=
  { ev := EventState.init, fl_key_vector := fun _ => 0, e_text := [], e_length := 0,
    resize_from_system := 0, wm_delete_window := wm_delete_window, calls := [] }

/-! ## The wait loop: `fl_elapsed`, `Fl::ready`, `do_queued_events`, `fl_wait`

The select() build (`HAVE_POLL` is 0) with `CONSOLIDATE_MOTION` 0, as the file defines it.
The timer list (`numtimeouts`, `timeout[]`, `initclock`) is declared outside this file, so
the type `double` of `timeout[i].time` and its arithmetic are parameters. -/

/-- C bitwise OR of two twos-complement integers: `a | b` is `~(~a & ~b)`. -/
def bitOr (a b : Int) : Int := bitNot (bitAnd (bitNot a) (bitNot b))

/-- The operations on `double` that the wait loop uses: `elapsed ds du` is
`ds + du/1000000.0`, `sub` is `-`, `zero` is `0.0`, `pos t` is `t > 0.0`, `nonpos t` is
`t <= 0`, `toInt t` is `int(t)` and `usec t sec` is `int(1000000 * (t-sec))`. -/
structure DoubleOps (D : Type) where
  elapsed : Int → Int → D
  sub : D → D → D
  zero : D
  pos : D → Bool
  nonpos : D → Bool
  toInt : D → Int
  usec : D → Int → Int

/-- C type `struct timeval`. -/
structure timeval where
  tv_sec : Int
  tv_usec : Int
deriving DecidableEq, Repr

/-- A call that the wait loop makes: `fl_handle(xevent)`, the two lock hooks,
`::select(nfds, r, w, e, t)` with the sets as passed in (`t` is `none` for the null
pointer), and a registered callback `cb(f, arg)`. -/
inductive WaitCall where
  | fl_handle (xevent : NativeEvent)
  | fl_unlock_function
  | select (nfds : Int) (r w e : FdSet) (t : Option timeval)
  | fl_lock_function
  | callback (cb : Nat) (f : Int) (arg : Nat)
deriving DecidableEq, Repr

/-- The calls through which `fl_wait` dispatches: `fl_handle` and the callbacks. -/
def WaitCall.isDispatch : WaitCall → Bool
  | WaitCall.fl_handle _ => true
  | WaitCall.callback _ _ _ => true
  | _ => false

/-- What `::select` delivers: its return value and the three sets as it leaves them. -/
structure SelectResult where
  n : Int
  fdt0 : FdSet
  fdt1 : FdSet
  fdt2 : FdSet
deriving DecidableEq, Repr

/-- What the surroundings answer during one call of the wait loop: the time that
`gettimeofday` delivers, the result of `::select` on its arguments, and the calls of the
descriptor interface that a registered callback `cb(f, arg)` makes (every callback other
than `fd_callback`, which is part of this file). -/
structure WaitEnv where
  newclock : timeval
  select : Int → FdSet → FdSet → FdSet → Option timeval → SelectResult
  cb : Nat → Int → Nat → List FdOp

/-- The statics and the connection that the wait loop works on: the descriptor table;
the events that Xlib has already read (`XQLength` counts them) and the batches that
further reads of the connection deliver, first read first; `initclock`, `prevclock`,
`numtimeouts` and `timeout[i].time`; and the calls made so far. -/
structure WaitState (D : Type) where
  fds : FdState
  queue : List NativeEvent
  incoming : List (List NativeEvent)
  initclock : Int
  prevclock : timeval
  numtimeouts : Nat
  timeout : Nat → D
  calls : List WaitCall

/-- Source: `static double fl_elapsed()` -/
def fl_elapsed {D : Type} (A : DoubleOps D) (newclock : timeval) (s : WaitState D) :
    WaitState D × D :=
  if s.initclock = 0 then
    ({ s with prevclock := newclock, initclock := 1 }, A.zero)
  else
    let t := A.elapsed (newclock.tv_sec - s.prevclock.tv_sec)
      (newclock.tv_usec - s.prevclock.tv_usec)
    let s1 := { s with prevclock := newclock }
    -- expire any timeouts:
    let s2 := if A.pos t then
        { s1 with timeout := fun i =>
            if i < s1.numtimeouts then A.sub (s1.timeout i) t else s1.timeout i }
      else s1
    (s2, t)

/-- Source: `int Fl::ready()` -/
def ready {D : Type} (A : DoubleOps D) (E : WaitEnv) (s : WaitState D) : WaitState D × Int :=
  let s1 := if s.numtimeouts ≠ 0 then (fl_elapsed A E.newclock s).1 else s
  if s.numtimeouts ≠ 0 ∧ A.nonpos (s1.timeout 0) = true then (s1, 1)
  else if s1.queue.length ≠ 0 then (s1, 1)
  else
    let t : timeval := { tv_sec := 0, tv_usec := 0 }
    let fdt0 := s1.fds.fdsets0
    let fdt1 := s1.fds.fdsets1
    let fdt2 := s1.fds.fdsets2
    let r := E.select (s1.fds.maxfd + 1) fdt0 fdt1 fdt2 (some t)
    ({ s1 with calls := s1.calls ++ [WaitCall.select (s1.fds.maxfd + 1) fdt0 fdt1 fdt2 (some t)] },
      r.n)

/-- Xlib `XEventsQueued(fl_display, QueuedAfterReading)`: the length of the queue when it
is not empty, else the number of events that one read of the connection adds to it. -/
def XEventsQueued_QueuedAfterReading {D : Type} (s : WaitState D) : WaitState D × Nat :=
  match s.queue with
  | _ :: _ => (s, s.queue.length)
  | [] =>
    match s.incoming with
    | [] => (s, 0)
    | b :: rest => ({ s with queue := b, incoming := rest }, b.length)

/-- Xlib `XNextEvent(fl_display, &xevent)` on a queue that is not empty. -/
def XNextEvent {D : Type} (s : WaitState D) : WaitState D × Option NativeEvent :=
  match s.queue with
  | [] => (s, none)
  | xevent :: q => ({ s with queue := q }, some xevent)

/-- The `while` loop of `do_queued_events`, run for at most `k` iterations. -/
def do_queued_events_loop {D : Type} : Nat → WaitState D → WaitState D
  | 0, s => s
  | k + 1, s =>
    let r := XEventsQueued_QueuedAfterReading s
    if r.2 = 0 then r.1
    else
      match XNextEvent r.1 with
      | (s2, some xevent) =>
        do_queued_events_loop k { s2 with calls := s2.calls ++ [WaitCall.fl_handle xevent] }
      | (s2, none) => s2

/-- The number of events that the queue holds and the reads deliver. -/
def WaitState.available {D : Type} (s : WaitState D) : Nat :=
  s.queue.length + (s.incoming.map List.length).sum

/-- Source: `static void do_queued_events()`.  Every iteration but the last takes one
event, so `available + 1` iterations end the loop. -/
def do_queued_events {D : Type} (s : WaitState D) : WaitState D :=
  do_queued_events_loop (s.available + 1) s

/-- The events that the reads of `do_queued_events` deliver: the batches up to the first
read that finds nothing. -/
def arriving : List (List NativeEvent) → List NativeEvent
  | [] => []
  | [] :: _ => []
  | (xevent :: b) :: rest => (xevent :: b) ++ arriving rest

/-- The call `fd[i].cb(f, fd[i].arg)` of `fl_wait` on the entry `x`: `fd_callback` runs
`do_queued_events`, any other callback makes its calls of the descriptor interface. -/
def call_cb {D : Type} (E : WaitEnv) (x : FD) (s : WaitState D) : WaitState D :=
  let s1 := { s with calls := s.calls ++ [WaitCall.callback x.cb x.fd x.arg] }
  if x.cb = fd_callback then do_queued_events s1
  else { s1 with fds := runOps (E.cb x.cb x.fd x.arg) s1.fds }

/-- The value of `revents` that `fl_wait` computes for the descriptor `f`. -/
def fl_wait_revents (r : SelectResult) (f : Int) : Int :=
  let revents : Int := 0
  let revents := if FD_ISSET f r.fdt0 then bitOr revents POLLIN else revents
  let revents := if FD_ISSET f r.fdt1 then bitOr revents POLLOUT else revents
  let revents := if FD_ISSET f r.fdt2 then bitOr revents POLLERR else revents
  toShort revents

/-- The loop `for (int i=0; i<nfds; i++)` of `fl_wait` from the index `i`, run for at
most `k` iterations; `nfds` and `fd[i]` are read anew in every iteration.  The flag tells
whether the loop ended (`i < nfds` failed). -/
def fl_wait_loop {D : Type} (E : WaitEnv) (r : SelectResult) :
    Nat → Nat → WaitState D → WaitState D × Bool
  | 0, i, s => (s, decide (¬ i < s.fds.nfds))
  | k + 1, i, s =>
    if i < s.fds.nfds then
      let x := s.fds.fd i
      let f := x.fd
      let revents := fl_wait_revents r f
      let s1 := if bitAnd x.events revents ≠ 0 then call_cb E x s else s
      fl_wait_loop E r k (i + 1) s1
    else (s, true)

/-- The last argument of `::select` in `fl_wait`: `timeout_flag ? &t : 0`, with `t` as
the `if (timeout_flag)` block fills it. -/
def fl_wait_timeout {D : Type} (A : DoubleOps D) (timeout_flag : Bool) (time : D) :
    Option timeval :=
  if timeout_flag = true then
    if A.nonpos time = true then some { tv_sec := 0, tv_usec := 0 }
    else some { tv_sec := A.toInt time, tv_usec := A.usec time (A.toInt time) }
  else none

/-- Source: `static double fl_wait(int timeout_flag, double time)`.  The value is `none`
when the dispatch loop was cut off after `fuel` iterations. -/
def fl_wait {D : Type} (A : DoubleOps D) (E : WaitEnv) (fuel : Nat) (timeout_flag : Bool)
    (time : D) (s : WaitState D) : WaitState D × Option D :=
  if s.queue.length ≠ 0 then (do_queued_events s, some time)
  else
    let fdt0 := s.fds.fdsets0
    let fdt1 := s.fds.fdsets1
    let fdt2 := s.fds.fdsets2
    let s1 := { s with calls := s.calls ++ [WaitCall.fl_unlock_function] }
    let tp := fl_wait_timeout A timeout_flag time
    let r := E.select (s1.fds.maxfd + 1) fdt0 fdt1 fdt2 tp
    let s2 := { s1 with calls := s1.calls ++ [WaitCall.select (s1.fds.maxfd + 1) fdt0 fdt1 fdt2 tp] }
    let s3 := { s2 with calls := s2.calls ++ [WaitCall.fl_lock_function] }
    if r.n > 0 then
      let d := fl_wait_loop E r fuel 0 s3
      (d.1, if d.2 = true then some time else none)
    else (s3, some time)

/-- An example of `double` arithmetic: times in whole microseconds. -/
def microseconds : DoubleOps Int :=
  { elapsed := fun ds du => ds * 1000000 + du, sub := fun a b => a - b, zero := 0,
    pos := fun t => decide (0 < t), nonpos := fun t => decide (t ≤ 0),
    toInt := fun t => t.tdiv 1000000, usec := fun t sec => t - sec * 1000000 }

/-- An example state: the table after `Fl::add_fd(3, cb 10)` and `Fl::add_fd(4, cb 11)`,
no event queued, no timer. -/
def exampleWait : WaitState Int :=
  { fds := add_fd_read 4 11 0 (add_fd_read 3 10 0 FdState.init), queue := [], incoming := [],
    initclock := 0, prevclock := { tv_sec := 0, tv_usec := 0 }, numtimeouts := 0,
    timeout := fun _ => 0, calls := [] }

/-- An example of the surroundings: `::select` reports both descriptors 3 and 4
readable, and the callback 10 calls `Fl::remove_fd` on its own descriptor. -/
def selfRemoving : WaitEnv :=
  { newclock := { tv_sec := 0, tv_usec := 0 },
    select := fun _ _ _ _ _ => { n := 2, fdt0 := [3, 4], fdt1 := [], fdt2 := [] },
    cb := fun cb f _ => if cb = 10 then [FdOp.remove f (-1)] else [] }

/-- The same surroundings with callbacks that leave the table alone. -/
def passive : WaitEnv :=
  { newclock := { tv_sec := 0, tv_usec := 0 },
    select := fun _ _ _ _ _ => { n := 2, fdt0 := [3, 4], fdt1 := [], fdt2 := [] },
    cb := fun _ _ _ => [] }
/-! ## Further members of the base graphics driver -/

/-- Source: `virtual int clip_box(int x, int y, int w, int h, int &X, int &Y, int &W, int &H)
{return 0;}`.  The reference arguments `X`, `Y`, `W`, `H` are given with the values that
the variables of the caller hold before the call; the result is their values after the
call, and the return value. -/
def Fl_Graphics_Driver.clip_box (_ : Fl_Graphics_Driver) (_ _ _ _ : Int) (X Y W H : Int) :
    (Int × Int × Int × Int) × Int :=
  ((X, Y, W, H), 0)

/-- Source: `virtual int not_clipped(int x, int y, int w, int h) {return 1;}` -/
def Fl_Graphics_Driver.not_clipped (_ : Fl_Graphics_Driver) (_ _ _ _ : Int) : Int := 1

/-- C conversion `(int)v` of a floating value whose integral part is an `int`: the
fractional part is discarded (truncation toward zero). -/
def truncToInt (v : ℚ) : Int := if 0 ≤ v then ⌊v⌋ else ⌈v⌉

/-- Source: `virtual void draw(const char *str, int n, float x, float y)
{ draw(str, n, (int)(x+0.5), (int)(y+0.5));}`: the arguments of the call of the integer
overload that it makes.  The floats are given by their values, and the `double` sums by
the exact sums. -/
def Fl_Graphics_Driver.draw_float (_ : Fl_Graphics_Driver) (str : List Nat) (n : Int)
    (x y : ℚ) : List Nat × Int × Int × Int :=
  (str, n, truncToInt (x + 0.5), truncToInt (y + 0.5))

/-- An example driver. -/
def exampleDriver : Fl_Graphics_Driver :=
  { fl_clip_state_number := 0, font_ := 0, size_ := 14, color_ := 5, sptr := 0, n := 0,
    gap_ := 0, what := 0, rstackptr := 0, font_descriptor_ := 0 }

/-! ## Pointers into a file name, size hints, reachable descriptor tables -/

/-- The loop of `filename_name` on addresses: `p` and `q` are the two pointers, `rest` the
bytes from `p` to the terminating NUL. -/
def filename_name_ptr_loop : List Nat → Nat → Nat → Nat
  | [], _, q => q
  | c :: rest, p, q =>
    if c = 47 then filename_name_ptr_loop rest (p + 1) (p + 1)
    else filename_name_ptr_loop rest (p + 1) q

/-- Source: `const char *filename_name(const char *name)` with the result as an address: the
string `bytes` lies at the address `name`; the null pointer is the address 0. -/
def filename_name_ptr (name : Nat) (bytes : List Nat) : Nat :=
  filename_name_ptr_loop bytes name name

/-- The hints of the `XSetWMNormalHints` calls of a trace. -/
def sentSizeHints (cs : List Call) : List XSizeHints :=
  cs.filterMap fun c => match c with
    | Call.XSetWMNormalHints _ hints => some hints
    | _ => none

/-- The data and the number of elements of the `XChangeProperty` calls of a trace on the
property `property`. -/
def sentProperty (property : Nat) (cs : List Call) : List (List Int × Int) :=
  cs.filterMap fun c => match c with
    | Call.XChangeProperty _ p _ _ _ data nelements =>
      if p = property then some (data, nelements) else none
    | _ => none

/-- The flags that the classification of the size hints asks for: those of a window
that is not resizable, or those of a resizable one, then the position flag. -/
def sizeHintFlags (K : Platform) (w : Fl_Window) : Nat :=
  (if w.minw = w.maxw ∧ w.minh = w.maxh then PMinSize ||| PMaxSize
   else (PMinSize ||| PWinGravity)
     ||| (if w.maxw ≥ w.minw ∨ w.maxh ≥ w.minh then PMaxSize else 0)
     ||| (if w.dw ≠ 0 ∧ w.dh ≠ 0 then PResizeInc else 0))
  ||| (if w.flags &&& K.FL_FORCE_POSITION ≠ 0 then USPosition else 0)

/-- The event mask that a call of the descriptor interface names. -/
def FdOp.events : FdOp → Int
  | FdOp.add _ events _ _ => events
  | FdOp.remove _ events => events

/-- Two entries of one descriptor have no event bit in common. -/
def disjointEntries (x y : FD) : Prop := x.fd = y.fd → bitAnd x.events y.events = 0

instance (x y : FD) : Decidable (disjointEntries x y) := by
  unfold disjointEntries
  infer_instance

/-- The calls of registered callbacks. -/
def WaitCall.isCallback : WaitCall → Bool
  | WaitCall.callback _ _ _ => true
  | _ => false

/-- The test `fd[i].events & revents` of the dispatch loop of `fl_wait` on an entry. -/
def isReady (r : SelectResult) (x : FD) : Bool :=
  decide (bitAnd x.events (fl_wait_revents r x.fd) ≠ 0)

/-- The entries that pass the test of the dispatch loop, in table order. -/
def dispatched (r : SelectResult) (t : List FD) : List FD := t.filter (isReady r)

/-- An example of the surroundings: `::select` reports descriptor 3 readable, and the
callback 10 registers the callback 12 for reading on its own descriptor. -/
def reRegistering : WaitEnv :=
  { newclock := { tv_sec := 0, tv_usec := 0 },
    select := fun _ _ _ _ _ => { n := 1, fdt0 := [3], fdt1 := [], fdt2 := [] },
    cb := fun cb f _ => if cb = 10 then [FdOp.add f POLLIN 12 0] else [] }

/-- An example window that has been created (native id 40), with a size range. -/
def rangedWindow (minw minh maxw maxh dw dh : Int) : Fl_Window :=
  { self := 7, x := 0, y := 0, w := 100, h := 50, ox := 0, oy := 0, ow := 100, oh := 50,
    parent := none, border := true, flags := 0, i := some ⟨40, 0, 0, 0⟩, label := some [97],
    iconlabel := none, xclass := some [120], icon := 0, minw := minw, minh := minh,
    maxw := maxw, maxh := maxh, dw := dw, dh := dh, size_range_set := 0 }

/-- An example state with two timers, 5000 and 10000 microseconds from now, whose clock
was last read at 10 s. -/
def timedWait : WaitState Int :=
  { fds := FdState.init, queue := [], incoming := [], initclock := 1,
    prevclock := { tv_sec := 10, tv_usec := 0 }, numtimeouts := 2,
    timeout := fun i => if i = 0 then 5000 else 10000, calls := [] }

/-! ## Further trace readers and examples -/

/-- The longest prefix of a class string made of alphanumeric or high-bit bytes: what
the first loop of the WM_CLASS block copies into `buffer`. -/
def classPrefix (xclass : List Nat) : List Nat :=
  xclass.takeWhile fun c => decide (isalnum c = true ∨ c &&& 128 ≠ 0)

/-- The windows of the `XMapWindow` calls of a trace. -/
def mappedWindows (cs : List Call) : List Nat :=
  cs.filterMap fun c => match c with
    | Call.XMapWindow w => some w
    | _ => none

/-- The `XSetWMHints` calls of a trace, as the windows they name. -/
def hintedWindows (cs : List Call) : List Nat :=
  cs.filterMap fun c => match c with
    | Call.XSetWMHints w _ => some w
    | _ => none

/-- An example window: the bordered top-level example window with a class of 512 times
the letter a. -/
def longClassWindow : Fl_Window :=
  { self := 7, x := 0, y := 0, w := 100, h := 50, ox := 0, oy := 0, ow := 100, oh := 50,
    parent := none, border := true, flags := 0, i := none, label := some [97],
    iconlabel := none, xclass := some (List.replicate 512 97), icon := 0, minw := 0,
    minh := 0, maxw := 0, maxh := 0, dw := 0, dh := 0, size_range_set := 0 }

/-- An example platform with a 32-bit `unsigned long`, and for the constants the values
that FLTK 1 gives them. -/
def ilp32 : Platform :=
  { ULONG_BITS := 32, FL_Button := 0xfee8, FL_BUTTON1 := 0x01000000,
    FL_FORCE_POSITION := 16 }

/-- An example of `::select` with the behaviour that POSIX describes, for surroundings in
which the descriptors of `rd`, `wr`, `ex` are ready for reading, for writing and with an
exceptional condition: only the descriptors from 0 to `nfds`-1 are examined, each set
keeps its ready descriptors among them, and the value is the number of bits left. -/
def readySelect (rd wr ex : FdSet) (nfds : Int) (r w e : FdSet) (_ : Option timeval) :
    SelectResult :=
  let keep := fun (ready set : FdSet) =>
    set.filter fun f => decide (0 ≤ f ∧ f < nfds ∧ f ∈ ready)
  { n := ((keep rd r).length + (keep wr w).length + (keep ex e).length : Nat),
    fdt0 := keep rd r, fdt1 := keep wr w, fdt2 := keep ex e }

/-- An example of the surroundings: descriptor 5 is readable, callbacks leave the table
alone. -/
def fiveReadable : WaitEnv :=
  { newclock := { tv_sec := 0, tv_usec := 0 }, select := readySelect [5] [] [],
    cb := fun _ _ _ => [] }

/-- An example state: the table after `Fl::add_fd(5, POLLIN|POLLOUT, 1, 2)` and
`Fl::remove_fd(5, POLLOUT)`, no event queued, no timer. -/
def partlyRemoved : WaitState Int :=
  { fds := runOps [FdOp.add 5 5 1 2, FdOp.remove 5 4] FdState.init, queue := [],
    incoming := [], initclock := 0, prevclock := { tv_sec := 0, tv_usec := 0 },
    numtimeouts := 0, timeout := fun _ => 0, calls := [] }

/-- An example state of the display: closed, with descriptor 3 registered for writing
with the callback 20. -/
def writerRegistered : DisplayState :=
  { DisplayState.init with fds := add_fd 3 POLLOUT 20 0 FdState.init }
/-! ## Theorems: machine integers -/

theorem ldiff_eq_xor_and (m n : Nat) : Nat.ldiff m n = m ^^^ (m &&& n) := by
  apply Nat.eq_of_testBit_eq
  intro i
  simp [Nat.testBit_ldiff, Nat.testBit_xor, Nat.testBit_and]
  cases m.testBit i <;> cases n.testBit i <;> rfl

/-- The operation `bitAnd` is the twos-complement AND of Mathlib. -/
theorem bitAnd_eq_land (a b : Int) : bitAnd a b = Int.land a b := by
  cases a <;> cases b <;> simp [bitAnd, Int.land, ldiff_eq_xor_and]

/-- The operation `bitNot` is the twos-complement complement of Mathlib. -/
theorem bitNot_eq_lnot (a : Int) : bitNot a = Int.lnot a := by
  cases a with
  | ofNat m => simp [bitNot, Int.lnot, Int.negSucc_eq]; omega
  | negSucc m => simp [bitNot, Int.lnot, Int.negSucc_eq]

theorem toShort_of_isShort {v : Int} (h : isShort v) : toShort v = v := by
  unfold isShort at h
  unfold toShort
  omega

theorem isShort_toShort (v : Int) : isShort (toShort v) := by
  unfold isShort toShort
  omega

theorem xor_and_lt {m n k : Nat} (hm : m < 2 ^ k) : m ^^^ (m &&& n) < 2 ^ k :=
  Nat.xor_lt_two_pow hm (lt_of_le_of_lt Nat.and_le_left hm)

/-- The value `m & ~e` of two `short` values is a `short`. -/
theorem isShort_bitAnd_bitNot {m e : Int} (hm : isShort m) (he : isShort e) :
    isShort (bitAnd m (bitNot e)) := by
  unfold isShort at *
  have p15 : (2 : Nat) ^ 15 = 32768 := by norm_num
  cases m with
  | ofNat a =>
    have ha : a < 2 ^ 15 := by rw [p15]; have := hm.2; simp at this; omega
    cases e with
    | ofNat b =>
      have hb : bitNot (Int.ofNat b) = Int.negSucc b := by
        simp [bitNot, Int.negSucc_eq]; omega
      rw [hb]
      have h := xor_and_lt (n := b) ha
      rw [p15] at h
      simp only [bitAnd]
      constructor
      · have : (0 : Int) ≤ Int.ofNat (a ^^^ (a &&& b)) := Int.ofNat_nonneg _
        omega
      · have : Int.ofNat (a ^^^ (a &&& b)) < Int.ofNat 32768 := Int.ofNat_lt.mpr h
        simpa using this
    | negSucc b =>
      have hb : bitNot (Int.negSucc b) = Int.ofNat b := by
        simp [bitNot, Int.negSucc_eq]
      rw [hb]
      have h : a &&& b < 2 ^ 15 := lt_of_le_of_lt Nat.and_le_left ha
      rw [p15] at h
      simp only [bitAnd]
      constructor
      · have : (0 : Int) ≤ Int.ofNat (a &&& b) := Int.ofNat_nonneg _
        omega
      · have : Int.ofNat (a &&& b) < Int.ofNat 32768 := Int.ofNat_lt.mpr h
        simpa using this
  | negSucc a =>
    have ha : a < 2 ^ 15 := by
      rw [p15]; have := hm.1; simp [Int.negSucc_eq] at this; omega
    cases e with
    | ofNat b =>
      have hb : bitNot (Int.ofNat b) = Int.negSucc b := by
        simp [bitNot, Int.negSucc_eq]; omega
      have hb2 : b < 2 ^ 15 := by rw [p15]; have := he.2; simp at this; omega
      rw [hb]
      have h := Nat.or_lt_two_pow ha hb2
      rw [p15] at h
      simp only [bitAnd, Int.negSucc_eq]
      constructor <;> omega
    | negSucc b =>
      have hb : bitNot (Int.negSucc b) = Int.ofNat b := by
        simp [bitNot, Int.negSucc_eq]
      have hb2 : b < 2 ^ 15 := by
        rw [p15]; have := he.1; simp [Int.negSucc_eq] at this; omega
      rw [hb]
      have h := xor_and_lt (n := a) hb2
      rw [p15] at h
      simp only [bitAnd]
      constructor
      · have : (0 : Int) ≤ Int.ofNat (b ^^^ (b &&& a)) := Int.ofNat_nonneg _
        omega
      · have : Int.ofNat (b ^^^ (b &&& a)) < Int.ofNat 32768 := Int.ofNat_lt.mpr h
        simpa using this

/-- Removing every bit leaves nothing: `m & ~(-1)` is 0. -/
theorem bitAnd_bitNot_neg_one (m : Int) : bitAnd m (bitNot (-1)) = 0 := by
  have h : bitNot (-1) = Int.ofNat 0 := by decide
  rw [h]
  cases m <;> simp [bitAnd]

/-! ## Theorems: the descriptor table -/

theorem seg_succ (fd : Nat → FD) (a len : Nat) :
    seg fd a (len + 1) = fd a :: seg fd (a + 1) len := by
  unfold seg
  rw [List.range_succ_eq_map]
  simp only [List.map_cons, List.map_map, Nat.add_zero]
  congr 1
  apply List.map_congr_left
  intro t _
  simp only [Function.comp]
  congr 1
  omega

theorem seg_congr {fd fd2 : Nat → FD} {a len : Nat}
    (h : ∀ t, a ≤ t → t < a + len → fd2 t = fd t) : seg fd2 a len = seg fd a len := by
  unfold seg
  apply List.map_congr_left
  intro t ht
  have := List.mem_range.mp ht
  exact h (a + t) (by omega) (by omega)

theorem range_map_congr {fd fd2 : Nat → FD} {len : Nat}
    (h : ∀ t, t < len → fd2 t = fd t) :
    (List.range len).map fd2 = (List.range len).map fd := by
  apply List.map_congr_left
  intro t ht
  exact h t (List.mem_range.mp ht)

/-- Loop invariant of `Fl::remove_fd`: the cells below the final `j` are the cells that
were below `j` followed by the surviving entries of the cells `i .. i+k-1`. -/
theorem remove_fd_loop_spec (n events : Int) :
    ∀ (k i j : Nat) (fd : Nat → FD), j ≤ i →
      (List.range (remove_fd_loop n events k i j fd).1).map (remove_fd_loop n events k i j fd).2
        = (List.range j).map fd ++ (seg fd i k).filterMap (remove_fd_entry n events) := by
  intro k
  induction k with
  | zero =>
    intro i j fd _
    simp [remove_fd_loop, seg]
  | succ k ih =>
    intro i j fd hji
    rw [seg_succ]
    by_cases hn : (fd i).fd = n
    · by_cases he : bitAnd (fd i).events (bitNot events) = 0
      · -- the entry is deleted
        have hstep : remove_fd_loop n events (k + 1) i j fd
            = remove_fd_loop n events k (i + 1) j fd := by
          simp [remove_fd_loop, hn, he]
        rw [hstep, ih (i + 1) j fd (by omega)]
        simp [List.filterMap_cons, remove_fd_entry, hn, he]
      · -- the entry is kept with its new mask
        let y : FD := { fd i with events := toShort (bitAnd (fd i).events (bitNot events)) }
        let fd1 := Function.update fd i y
        let fd2 := if j < i then Function.update fd1 j (fd1 i) else fd1
        have hstep : remove_fd_loop n events (k + 1) i j fd
            = remove_fd_loop n events k (i + 1) (j + 1) fd2 := by
          simp [remove_fd_loop, hn, he, fd2, fd1, y]
        have hfd2j : fd2 j = y := by
          by_cases h : j < i
          · simp [fd2, h, fd1]
          · have : j = i := by omega
            simp [fd2, h, fd1, this]
        have hfd2lo : ∀ t, t < j → fd2 t = fd t := by
          intro t ht
          by_cases h : j < i
          · simp only [fd2, h, if_true, fd1]
            rw [Function.update_noteq (by omega), Function.update_noteq (by omega)]
          · simp only [fd2, h, if_false, fd1]
            rw [Function.update_noteq (by omega)]
        have hfd2hi : ∀ t, i + 1 ≤ t → t < i + 1 + k → fd2 t = fd t := by
          intro t ht _
          by_cases h : j < i
          · simp only [fd2, h, if_true, fd1]
            rw [Function.update_noteq (by omega), Function.update_noteq (by omega)]
          · simp only [fd2, h, if_false, fd1]
            rw [Function.update_noteq (by omega)]
        rw [hstep, ih (i + 1) (j + 1) fd2 (by omega), seg_congr hfd2hi,
          List.range_succ, List.map_append, range_map_congr hfd2lo]
        simp [List.filterMap_cons, remove_fd_entry, hn, he, hfd2j, y]
    · -- an entry of another descriptor
      let fd2 := if j < i then Function.update fd j (fd i) else fd
      have hstep : remove_fd_loop n events (k + 1) i j fd
          = remove_fd_loop n events k (i + 1) (j + 1) fd2 := by
        simp [remove_fd_loop, hn, fd2]
      have hfd2j : fd2 j = fd i := by
        by_cases h : j < i
        · simp [fd2, h]
        · have : j = i := by omega
          simp [fd2, h, this]
      have hfd2lo : ∀ t, t < j → fd2 t = fd t := by
        intro t ht
        by_cases h : j < i
        · simp only [fd2, h, if_true]
          rw [Function.update_noteq (by omega)]
        · simp only [fd2, h, if_false]
      have hfd2hi : ∀ t, i + 1 ≤ t → t < i + 1 + k → fd2 t = fd t := by
        intro t ht _
        by_cases h : j < i
        · simp only [fd2, h, if_true]
          rw [Function.update_noteq (by omega)]
        · simp only [fd2, h, if_false]
      rw [hstep, ih (i + 1) (j + 1) fd2 (by omega), seg_congr hfd2hi,
        List.range_succ, List.map_append, range_map_congr hfd2lo]
      simp [List.filterMap_cons, remove_fd_entry, hn, hfd2j]

/-- The table after `Fl::remove_fd`, entry by entry. -/
theorem remove_fd_table (n events : Int) (s : FdState) :
    (remove_fd n events s).table = s.table.filterMap (remove_fd_entry n events) := by
  have h := remove_fd_loop_spec n events s.nfds 0 0 s.fd (le_refl 0)
  simp only [List.range_zero, List.map_nil, List.nil_append] at h
  have hseg : seg s.fd 0 s.nfds = s.table := by
    unfold seg FdState.table
    apply List.map_congr_left
    intro t _
    simp
  rw [hseg] at h
  simpa [FdState.table, remove_fd] using h

/-- The table after `Fl::add_fd`: what `remove_fd` leaves, then the new entry. -/
theorem add_fd_table (n events : Int) (cb v : Nat) (s : FdState) :
    (add_fd n events cb v s).table
      = s.table.filterMap (remove_fd_entry n events) ++ [⟨n, toShort events, cb, v⟩] := by
  rw [← remove_fd_table]
  simp only [FdState.table, add_fd, List.range_succ, List.map_append, List.map_cons,
    List.map_nil, Function.update_same]
  congr 1
  apply List.map_congr_left
  intro t ht
  have := List.mem_range.mp ht
  rw [Function.update_noteq (by omega)]

/-- On `short` masks the stored mask is `m & ~e` itself. -/
theorem filterMap_entry_eq_spec (n e : Int) (t : List FD)
    (ht : ∀ x ∈ t, isShort x.events) (he : isShort e) :
    t.filterMap (remove_fd_entry n e) = remove_fd_spec n e t := by
  unfold remove_fd_spec
  induction t with
  | nil => rfl
  | cons x t ih =>
    have hx : isShort x.events := ht x (List.mem_cons_self _ _)
    have ih2 := ih fun y hy => ht y (List.mem_cons_of_mem _ hy)
    have hfun : remove_fd_entry n e x =
        (if x.fd = n then
          if bitAnd x.events (bitNot e) = 0 then none
          else some { x with events := bitAnd x.events (bitNot e) }
        else some x) := by
      unfold remove_fd_entry
      rw [toShort_of_isShort (isShort_bitAnd_bitNot hx he)]
    simp only [List.filterMap_cons, hfun, ih2]

theorem mem_filterMap_entry {n e : Int} {t : List FD} {x : FD}
    (hx : x ∈ t.filterMap (remove_fd_entry n e)) :
    (x ∈ t ∧ x.fd ≠ n) ∨
    (∃ y ∈ t, y.fd = n ∧ bitAnd y.events (bitNot e) ≠ 0 ∧
      x = { y with events := toShort (bitAnd y.events (bitNot e)) }) := by
  obtain ⟨y, hy, hxy⟩ := List.mem_filterMap.mp hx
  unfold remove_fd_entry at hxy
  by_cases hn : y.fd = n
  · by_cases h0 : bitAnd y.events (bitNot e) = 0
    · simp [hn, h0] at hxy
    · rw [if_pos hn, if_neg h0] at hxy
      exact Or.inr ⟨y, hy, hn, h0, (Option.some.inj hxy).symm⟩
  · simp only [hn, if_false, Option.some.injEq] at hxy
    subst hxy
    exact Or.inl ⟨hy, hn⟩

theorem filterMap_entry_of_covered {n e : Int} {t : List FD}
    (h : ∀ x ∈ t, x.fd = n → bitAnd x.events (bitNot e) = 0) :
    t.filterMap (remove_fd_entry n e) = t.filter fun x => decide (x.fd ≠ n) := by
  induction t with
  | nil => rfl
  | cons x t ih =>
    have ih2 := ih fun y hy => h y (List.mem_cons_of_mem _ hy)
    by_cases hn : x.fd = n
    · have h0 := h x (List.mem_cons_self _ _) hn
      simp [List.filterMap_cons, List.filter_cons, remove_fd_entry, hn, h0, ih2]
    · simp [List.filterMap_cons, List.filter_cons, remove_fd_entry, hn, ih2]

theorem filterMap_entry_of_absent {n e : Int} {t : List FD}
    (h : ∀ x ∈ t, x.fd ≠ n) : t.filterMap (remove_fd_entry n e) = t := by
  induction t with
  | nil => rfl
  | cons x t ih =>
    have ih2 := ih fun y hy => h y (List.mem_cons_of_mem _ hy)
    have hn := h x (List.mem_cons_self _ _)
    simp [List.filterMap_cons, remove_fd_entry, hn, ih2]

theorem remove_fd_masksShort (n e : Int) (s : FdState) (hs : s.masksShort) :
    (remove_fd n e s).masksShort := by
  intro x hx
  rw [remove_fd_table] at hx
  rcases mem_filterMap_entry hx with ⟨h, _⟩ | ⟨y, _, _, _, rfl⟩
  · exact hs x h
  · exact isShort_toShort _

theorem add_fd_masksShort (n e : Int) (cb v : Nat) (s : FdState) (hs : s.masksShort) :
    (add_fd n e cb v s).masksShort := by
  intro x hx
  rw [add_fd_table, List.mem_append] at hx
  rcases hx with hx | hx
  · rw [← remove_fd_table] at hx
    exact remove_fd_masksShort n e s hs x hx
  · simp only [List.mem_singleton] at hx
    subst hx
    exact isShort_toShort _

theorem init_masksShort : FdState.init.masksShort := by
  intro x hx
  simp [FdState.table, FdState.init] at hx

theorem mem_filterMap_entry_of_kept {n e : Int} {t : List FD} {y : FD} (hy : y ∈ t)
    (hn : y.fd = n) (h0 : bitAnd y.events (bitNot e) ≠ 0) :
    ({ y with events := toShort (bitAnd y.events (bitNot e)) } : FD)
      ∈ t.filterMap (remove_fd_entry n e) := by
  apply List.mem_filterMap.mpr
  refine ⟨y, hy, ?_⟩
  unfold remove_fd_entry
  rw [if_pos hn, if_neg h0]

/-- C3, the code at the failing input: after `add_fd(5, READ|WRITE, 1, 2)` and
`remove_fd(5, WRITE)` from the empty table, descriptor 5 is still registered for READ
(in the table and in `fdsets[0]`), but `maxfd` is 4, so `select(maxfd+1, ...)` does not
examine descriptor 5. -/
theorem remove_fd_partial_drops_maxfd :
    (runOps [FdOp.add 5 5 1 2, FdOp.remove 5 4] FdState.init).table = [⟨5, 1, 1, 2⟩] ∧
    FD_ISSET 5 (runOps [FdOp.add 5 5 1 2, FdOp.remove 5 4] FdState.init).fdsets0 = true ∧
    (runOps [FdOp.add 5 5 1 2, FdOp.remove 5 4] FdState.init).maxfd = 4 ∧
    ¬ watched (runOps [FdOp.add 5 5 1 2, FdOp.remove 5 4] FdState.init) 5 := by
  refine ⟨by decide, by decide, by decide, ?_⟩
  unfold watched
  decide

/-! ## Theorems: click detection -/

/-- Summary of the `ButtonPress` arm: the remembered press and the click count. -/
theorem fl_handle_ButtonPress_clicks (K : Platform) (q : Bool) (ev : XEvent) (s : EventState) :
    (fl_handle_ButtonPress K q ev s).1.px = ev.x_root ∧
    (fl_handle_ButtonPress K q ev s).1.py = ev.y_root ∧
    (fl_handle_ButtonPress K q ev s).1.ptime = ev.time ∧
    (fl_handle_ButtonPress K q ev s).1.e_is_click = toInt32 (K.FL_Button + ev.button) ∧
    (fl_handle_ButtonPress K q ev s).1.e_clicks =
      if (if (ev.x_root - s.px).natAbs + (ev.y_root - s.py).natAbs > 3
            ∨ ev.time ≥ (s.ptime + (if q then 200 else 1000)) % K.ULONG_MOD
          then 0 else s.e_is_click) = toInt32 (K.FL_Button + ev.button)
      then s.e_clicks + 1 else 0 := by
  unfold fl_handle_ButtonPress checkdouble set_event_xy
  by_cases hreset : (ev.x_root - s.px).natAbs + (ev.y_root - s.py).natAbs > 3
      ∨ ev.time ≥ (s.ptime + (if q then 200 else 1000)) % K.ULONG_MOD
  · by_cases hk : (0 : Int) = toInt32 (K.FL_Button + ev.button)
    · simp only [hreset, if_true, ← hk]
      split_ifs <;> simp
    · simp only [hreset, if_true, hk, if_false]
      split_ifs <;> simp
  · by_cases hk : s.e_is_click = toInt32 (K.FL_Button + ev.button)
    · simp only [hreset, if_false, hk, if_true]
      split_ifs <;> simp
    · simp only [hreset, if_false, hk]
      split_ifs <;> simp

theorem set_event_xy_quiet (K : Platform) (q : Bool) (ev : XEvent) (s : EventState)
    (hq : (ev.x_root - s.px).natAbs + (ev.y_root - s.py).natAbs ≤ 3 ∧
      ev.time < (s.ptime + (if q then 200 else 1000)) % K.ULONG_MOD) :
    sameClickState (set_event_xy K q ev s) s := by
  have hno : ¬ ((ev.x_root - s.px).natAbs + (ev.y_root - s.py).natAbs > 3
      ∨ ev.time ≥ (s.ptime + (if q then 200 else 1000)) % K.ULONG_MOD) := by
    rintro (h | h) <;> omega
  unfold set_event_xy sameClickState
  simp only [if_neg hno, and_self]

/-- A quiet motion, release or crossing leaves the click statics as they are. -/
theorem fl_handle_pointer_quiet (K : Platform) (p : PointerEvent) (s : EventState)
    (hp : p.type ≠ PointerType.ButtonPress) (hq : quiet K s p) :
    sameClickState (fl_handle_pointer K p s).1 s := by
  unfold quiet at hq
  unfold fl_handle_pointer
  cases hty : p.type with
  | ButtonPress => exact absurd hty hp
  | MotionNotify =>
    rcases hq with ⟨h, _⟩ | h
    · rw [hty] at h; simp at h
    · exact set_event_xy_quiet K p.pushed p.ev s h
  | ButtonRelease =>
    rcases hq with ⟨h, _⟩ | h
    · rw [hty] at h; simp at h
    · have h2 : (p.ev.x_root - ({ s with e_keysym := toInt32 (K.FL_Button + p.ev.button) }
            : EventState).px).natAbs
          + (p.ev.y_root - ({ s with e_keysym := toInt32 (K.FL_Button + p.ev.button) }
            : EventState).py).natAbs ≤ 3 ∧
          p.ev.time < (({ s with e_keysym := toInt32 (K.FL_Button + p.ev.button) }
            : EventState).ptime + (if p.pushed then 200 else 1000)) % K.ULONG_MOD := h
      have h3 := set_event_xy_quiet K p.pushed p.ev _ h2
      simp only [fl_handle_ButtonRelease]
      split_ifs
      · exact h3
      · exact h3
  | EnterNotify =>
    simp only [fl_handle_EnterNotify]
    by_cases hd : p.ev.detail = NotifyInferior
    · rw [if_pos hd]
      exact ⟨rfl, rfl, rfl, rfl, rfl⟩
    · rw [if_neg hd]
      rcases hq with ⟨_, h⟩ | h
      · exact absurd h hd
      · obtain ⟨a1, a2, a3, a4, a5⟩ := set_event_xy_quiet K p.pushed p.ev s h
        exact ⟨a1, a2, a3, a4, a5⟩
  | LeaveNotify =>
    simp only [fl_handle_LeaveNotify]
    by_cases hd : p.ev.detail = NotifyInferior
    · rw [if_pos hd]
      exact ⟨rfl, rfl, rfl, rfl, rfl⟩
    · rw [if_neg hd]
      rcases hq with ⟨_, h⟩ | h
      · exact absurd h hd
      · obtain ⟨a1, a2, a3, a4, a5⟩ := set_event_xy_quiet K p.pushed p.ev s h
        exact ⟨a1, a2, a3, a4, a5⟩

theorem quiet_congr {K : Platform} {s s2 : EventState} {p : PointerEvent}
    (h : sameClickState s2 s) (hq : quiet K s p) : quiet K s2 p := by
  obtain ⟨hx, hy, ht, _, _⟩ := h
  unfold quiet at *
  rw [hx, hy, ht]
  exact hq

theorem runPointer_quiet (K : Platform) (ps : List PointerEvent) :
    ∀ s s2 : EventState, sameClickState s2 s →
      (∀ p ∈ ps, p.type ≠ PointerType.ButtonPress ∧ quiet K s p) →
      sameClickState (runPointer K ps s2) s := by
  induction ps with
  | nil => intro s s2 h _; exact h
  | cons p ps ih =>
    intro s s2 h hall
    have hp := hall p (List.mem_cons_self _ _)
    have h1 := fl_handle_pointer_quiet K p s2 hp.1 (quiet_congr h hp.2)
    have h2 : sameClickState (fl_handle_pointer K p s2).1 s := by
      obtain ⟨a1, a2, a3, a4, a5⟩ := h1
      obtain ⟨b1, b2, b3, b4, b5⟩ := h
      exact ⟨a1.trans b1, a2.trans b2, a3.trans b3, a4.trans b4, a5.trans b5⟩
    exact ih s _ h2 fun p2 hp2 => hall p2 (List.mem_cons_of_mem _ hp2)

theorem fl_handle_ButtonPress_congr (K : Platform) (q : Bool) (e : XEvent)
    {s s2 : EventState} (h : sameClickState s s2) :
    sameClickState (fl_handle_ButtonPress K q e s).1 (fl_handle_ButtonPress K q e s2).1 := by
  obtain ⟨hx, hy, ht, hc, hn⟩ := h
  obtain ⟨a1, a2, a3, a4, a5⟩ := fl_handle_ButtonPress_clicks K q e s
  obtain ⟨b1, b2, b3, b4, b5⟩ := fl_handle_ButtonPress_clicks K q e s2
  refine ⟨a1.trans b1.symm, a2.trans b2.symm, a3.trans b3.symm, a4.trans b4.symm, ?_⟩
  rw [a5, b5, hx, hy, ht, hc, hn]

theorem sameClickState_symm {s s2 : EventState} (h : sameClickState s s2) :
    sameClickState s2 s := by
  obtain ⟨a1, a2, a3, a4, a5⟩ := h
  exact ⟨a1.symm, a2.symm, a3.symm, a4.symm, a5.symm⟩

theorem sameClickState_trans {s s2 s3 : EventState} (h : sameClickState s s2)
    (h2 : sameClickState s2 s3) : sameClickState s s3 := by
  obtain ⟨a1, a2, a3, a4, a5⟩ := h
  obtain ⟨b1, b2, b3, b4, b5⟩ := h2
  exact ⟨a1.trans b1, a2.trans b2, a3.trans b3, a4.trans b4, a5.trans b5⟩

theorem quietRun_congr (K : Platform) (r : PressRun) :
    ∀ s s2 : EventState, sameClickState s s2 → quietRun K r s → quietRun K r s2 := by
  induction r with
  | nil => intro _ _ _ _; trivial
  | cons item rest ih =>
    intro s s2 h hq
    obtain ⟨gap, q, e⟩ := item
    obtain ⟨hgap, hrest⟩ := hq
    have hgap2 : ∀ p ∈ gap, p.type ≠ PointerType.ButtonPress ∧ quiet K s2 p :=
      fun p hp => ⟨(hgap p hp).1, quiet_congr (sameClickState_symm h) (hgap p hp).2⟩
    refine ⟨hgap2, ih _ _ ?_ hrest⟩
    apply fl_handle_ButtonPress_congr
    have g1 := runPointer_quiet K gap s s (⟨rfl, rfl, rfl, rfl, rfl⟩) hgap
    have g2 := runPointer_quiet K gap s2 s2 (⟨rfl, rfl, rfl, rfl, rfl⟩) hgap2
    exact sameClickState_trans g1 (sameClickState_trans h (sameClickState_symm g2))

theorem clickCounts_quiet (K : Platform) (r1 : PressRun) :
    ∀ (r2 : PressRun) (s s2 : EventState), sameClickState s s2 →
      r1.map Prod.snd = r2.map Prod.snd → quietRun K r1 s → quietRun K r2 s2 →
      clickCounts K r1 s = clickCounts K r2 s2 ∧
        sameClickState (runPresses K r1 s) (runPresses K r2 s2) := by
  induction r1 with
  | nil =>
    intro r2 s s2 h hmap _ _
    cases r2 with
    | nil => exact ⟨rfl, h⟩
    | cons _ _ => simp at hmap
  | cons item rest ih =>
    intro r2 s s2 h hmap hq1 hq2
    cases r2 with
    | nil => simp at hmap
    | cons item2 rest2 =>
      obtain ⟨gap, q, e⟩ := item
      obtain ⟨gap2, q2, e2⟩ := item2
      simp only [List.map_cons, List.cons.injEq, Prod.mk.injEq] at hmap
      obtain ⟨⟨hq, he⟩, hrest⟩ := hmap
      subst hq
      subst he
      obtain ⟨hgap1, hrest1⟩ := hq1
      obtain ⟨hgap2, hrest2⟩ := hq2
      have g1 := runPointer_quiet K gap s s (⟨rfl, rfl, rfl, rfl, rfl⟩) hgap1
      have g2 := runPointer_quiet K gap2 s2 s2 (⟨rfl, rfl, rfl, rfl, rfl⟩) hgap2
      have hsame : sameClickState (fl_handle_ButtonPress K q e (runPointer K gap s)).1
          (fl_handle_ButtonPress K q e (runPointer K gap2 s2)).1 :=
        fl_handle_ButtonPress_congr K q e
          (sameClickState_trans g1 (sameClickState_trans h (sameClickState_symm g2)))
      have hih := ih rest2 _ _ hsame hrest hrest1 hrest2
      simp only [clickCounts, runPresses]
      rw [hih.1, hsame.2.2.2.2]
      exact ⟨rfl, hih.2⟩

/-- C6, as amended: the click count of a press is decided by that press, the press
before it and the count before it, as long as no event in between turns off
`Fl::e_is_click`.  For every two event sequences, started in the same state, that
contain the same presses (with the same `Fl::pushed()` at each press) and differ only
in MotionNotify, ButtonRelease, EnterNotify or LeaveNotify events between presses,
`Fl::e_clicks` after every press, and after the last one, is the same, provided that
each of these events is quiet: it is a crossing with detail NotifyInferior, or its
root position is within 3 pixels of (`px`, `py`) (|dx| + |dy| <= 3) and its timestamp
is smaller than `(ptime + 1000) mod 2^N`, for an event at which `Fl::pushed()` is set
`(ptime + 200) mod 2^N`, N being the width of `unsigned long`; `px`, `py`, `ptime` are
those of the press before the event, and for the events before the first press those
of the start state.  When `ptime + 1000` (`ptime + 200`) does not wrap this says: less
than 1000 ms (200 ms) after that press. -/
theorem quiet_events_same_click_counts (K : Platform) (s : EventState) (r1 r2 : PressRun)
    (hsame : r1.map Prod.snd = r2.map Prod.snd)
    (h1 : quietRun K r1 s) (h2 : quietRun K r2 s) :
    clickCounts K r1 s = clickCounts K r2 s ∧
    (runPresses K r1 s).e_clicks = (runPresses K r2 s).e_clicks := by
  have h := clickCounts_quiet K r1 r2 s s ⟨rfl, rfl, rfl, rfl, rfl⟩ hsame h1 h2
  exact ⟨h.1, h.2.2.2.2.2⟩

/-- C6, the claim as stated fails: two presses of button 1 at (0, 0), 100 ms apart; with
nothing in between the second press gets the click count 1, with one MotionNotify at
(10, 0) in between it gets 0, because `set_event_xy` turns off `Fl::e_is_click` on
that motion. -/
theorem motion_between_presses_counterexample :
    clickCounts lp64 [([], false, press 1 0 0 5000), ([], false, press 1 0 0 5100)]
      EventState.init = [0, 1] ∧
    clickCounts lp64 [([], false, press 1 0 0 5000),
      ([motion 10 0 5050], false, press 1 0 0 5100)] EventState.init = [0, 0] ∧
    (runPresses lp64 [([], false, press 1 0 0 5000), ([], false, press 1 0 0 5100)]
      EventState.init).e_clicks ≠
    (runPresses lp64 [([], false, press 1 0 0 5000),
      ([motion 10 0 5050], false, press 1 0 0 5100)] EventState.init).e_clicks := by
  decide

/-- Two presses of button 1 at (0, 0) with a 32-bit `unsigned long`, the first at
2^32 - 150 and the second 200 ms later, after the wrap of the time, at 50: with nothing
in between the second press gets the click count 1; with a motion at the same place
50 ms after the first press it gets 0, because `ptime + 1000` wraps to 850 and the
timestamp of the motion is not below it.  That motion is not quiet. -/
theorem motion_before_wrap_example :
    clickCounts ilp32 [([], false, press 1 0 0 4294967146), ([], false, press 1 0 0 50)]
      EventState.init = [0, 1] ∧
    clickCounts ilp32 [([], false, press 1 0 0 4294967146),
      ([motion 0 0 4294967196], false, press 1 0 0 50)] EventState.init = [0, 0] ∧
    ¬ quiet ilp32 (fl_handle_ButtonPress ilp32 false (press 1 0 0 4294967146)
      EventState.init).1 (motion 0 0 4294967196) := by
  decide

/-- C6, witness: the same two presses with, in between, nothing in one sequence and a
motion by two pixels in the other. -/
theorem quiet_events_same_click_counts_witness :
    clickCounts lp64 [([], false, press 1 0 0 5000), ([], false, press 1 0 0 5100)]
      EventState.init =
    clickCounts lp64 [([], false, press 1 0 0 5000),
      ([motion 1 1 5050], false, press 1 0 0 5100)] EventState.init :=
  (quiet_events_same_click_counts lp64 EventState.init
    [([], false, press 1 0 0 5000), ([], false, press 1 0 0 5100)]
    [([], false, press 1 0 0 5000), ([motion 1 1 5050], false, press 1 0 0 5100)]
    (by decide) (by decide) (by decide)).1

/-! ## Theorems: window creation -/

theorem createdGeometry_append (a b : List Call) :
    createdGeometry (a ++ b) = createdGeometry a ++ createdGeometry b := by
  unfold createdGeometry
  exact List.filterMap_append _ _ _

theorem createdAttributes_append (a b : List Call) :
    createdAttributes (a ++ b) = createdAttributes a ++ createdAttributes b := by
  unfold createdAttributes
  exact List.filterMap_append _ _ _

theorem sendxjunk_no_create (K : Platform) (G : XGlobals) (w : Fl_Window) (xid : Nat) :
    createdGeometry (Fl_X.sendxjunk K G w xid) = [] ∧
    createdAttributes (Fl_X.sendxjunk K G w xid) = [] := by
  unfold Fl_X.sendxjunk
  split <;> exact ⟨rfl, rfl⟩

theorem setLabel_no_create (w : Fl_Window) (name iname : Option (List Nat)) :
    createdGeometry (Fl_Window.setLabel w name iname).2 = [] ∧
    createdAttributes (Fl_Window.setLabel w name iname).2 = [] := by
  unfold Fl_Window.setLabel
  simp only []
  split
  · split <;> exact ⟨rfl, rfl⟩
  · exact ⟨rfl, rfl⟩

theorem setLabel_geometry (w : Fl_Window) (name iname : Option (List Nat)) :
    (Fl_Window.setLabel w name iname).1.x = w.x ∧
    (Fl_Window.setLabel w name iname).1.y = w.y ∧
    (Fl_Window.setLabel w name iname).1.i = w.i := by
  unfold Fl_Window.setLabel
  simp only []
  split
  · split <;> exact ⟨rfl, rfl, rfl⟩
  · exact ⟨rfl, rfl, rfl⟩


/-- A byte that the first loop of the WM_CLASS block copies is not NUL. -/
theorem classByte_ne_zero {c : Nat} (h : isalnum c = true ∨ c &&& 128 ≠ 0) : c ≠ 0 := by
  intro h0
  subst h0
  rcases h with h | h
  · exact absurd h (by decide)
  · exact h (by decide)

/-- The first loop of the WM_CLASS block copies the class prefix to the cells from `p`
on: the cells it writes are not NUL, all other cells keep their value. -/
theorem copy_alnum_spec : ∀ (q : List Nat) (buffer : Nat → Nat) (p : Nat),
    (copy_alnum q buffer p).2 = p + (classPrefix q).length ∧
    (∀ k, k < p → (copy_alnum q buffer p).1 k = buffer k) ∧
    (∀ k, p + (classPrefix q).length ≤ k → (copy_alnum q buffer p).1 k = buffer k) ∧
    (∀ k, p ≤ k → k < p + (classPrefix q).length → (copy_alnum q buffer p).1 k ≠ 0) := by
  intro q
  induction q with
  | nil =>
    intro buffer p
    refine ⟨rfl, fun _ _ => rfl, fun _ _ => rfl, ?_⟩
    intro k h1 h2
    simp only [classPrefix, List.takeWhile_nil, List.length_nil] at h2
    omega
  | cons c q ih =>
    intro buffer p
    by_cases hc : isalnum c = true ∨ c &&& 128 ≠ 0
    · have hpre : classPrefix (c :: q) = c :: classPrefix q := by
        unfold classPrefix
        rw [List.takeWhile_cons_of_pos (by simpa using hc)]
      have hstep : copy_alnum (c :: q) buffer p
          = copy_alnum q (Function.update buffer p c) (p + 1) := by
        show (if isalnum c = true ∨ c &&& 128 ≠ 0 then _ else _) = _
        rw [if_pos hc]
      obtain ⟨i1, i2, i3, i4⟩ := ih (Function.update buffer p c) (p + 1)
      rw [hstep, hpre, List.length_cons]
      refine ⟨by rw [i1]; omega, ?_, ?_, ?_⟩
      · intro k hk
        rw [i2 k (by omega), Function.update_noteq (by omega)]
      · intro k hk
        rw [i3 k (by omega), Function.update_noteq (by omega)]
      · intro k h1 h2
        by_cases hkp : k = p
        · subst hkp
          rw [i2 k (by omega), Function.update_same]
          exact classByte_ne_zero hc
        · exact i4 k (by omega) (by omega)
    · have hpre : classPrefix (c :: q) = [] := by
        unfold classPrefix
        rw [List.takeWhile_cons_of_neg (by simpa using hc)]
      have hstep : copy_alnum (c :: q) buffer p = (buffer, p) := by
        show (if isalnum c = true ∨ c &&& 128 ≠ 0 then _ else _) = _
        rw [if_neg hc]
      rw [hstep, hpre]
      refine ⟨rfl, fun _ _ => rfl, fun _ _ => rfl, ?_⟩
      intro k h1 h2
      simp only [List.length_nil] at h2
      omega

/-- The copy loop stops at the latest when it reads a NUL that lies behind `q` and
before `p`. -/
theorem copy_string_upper : ∀ (fuel : Nat) (buffer : Nat → Nat) (p q m : Nat),
    q ≤ m → m < p → buffer m = 0 → m - q < fuel →
    (copy_string fuel buffer p q).2 ≤ p + (m - q) + 1 := by
  intro fuel
  induction fuel with
  | zero => intro buffer p q m _ _ _ h; omega
  | succ fuel ih =>
    intro buffer p q m h1 h2 h3 h4
    unfold copy_string
    simp only []
    by_cases hc : buffer q ≠ 0
    · rw [if_pos hc]
      have hqm : q ≠ m := by
        intro h; rw [h] at hc; exact hc h3
      have := ih (Function.update buffer p (buffer q)) (p + 1) (q + 1) m (by omega) (by omega)
        (by rw [Function.update_noteq (by omega)]; exact h3) (by omega)
      omega
    · rw [if_neg hc]
      show p + 1 ≤ _
      omega

/-- The copy loop does not stop before it has copied the bytes from `q` on that are
not NUL, and one more. -/
theorem copy_string_lower : ∀ (fuel : Nat) (buffer : Nat → Nat) (p q k : Nat),
    (∀ i, i < k → buffer (q + i) ≠ 0) →
    p + min (k + 1) fuel ≤ (copy_string fuel buffer p q).2 := by
  intro fuel
  induction fuel with
  | zero =>
    intro buffer p q k _
    show p + min (k + 1) 0 ≤ p
    simp
  | succ fuel ih =>
    intro buffer p q k h
    unfold copy_string
    simp only []
    by_cases hc : buffer q ≠ 0
    · rw [if_pos hc]
      cases k with
      | zero =>
        have := ih (Function.update buffer p (buffer q)) (p + 1) (q + 1) 0
          (fun i hi => absurd hi (by omega))
        have h1 : min (0 + 1) (fuel + 1) = 1 := by omega
        rw [h1]
        omega
      | succ k =>
        have := ih (Function.update buffer p (buffer q)) (p + 1) (q + 1) k (by
          intro i hi
          by_cases hp : q + 1 + i = p
          · rw [hp, Function.update_same]; exact hc
          · rw [Function.update_noteq hp]
            have := h (i + 1) (by omega)
            rw [show q + (i + 1) = q + 1 + i by omega] at this
            exact this)
        have h1 : min (k + 1 + 1) (fuel + 1) = min (k + 1) fuel + 1 := by omega
        rw [h1]
        omega
    · rw [if_neg hc]
      have h0 : k = 0 := by
        by_contra hk
        exact hc (by simpa using h 0 (by omega))
      subst h0
      show p + min (0 + 1) (fuel + 1) ≤ p + 1
      have h1 : min (0 + 1) (fuel + 1) = 1 := by omega
      rw [h1]

/-- The function `toupper` keeps NUL. -/
theorem toupper_zero : toupper 0 = 0 := by decide

/-- The function `toupper` gives NUL only for NUL. -/
theorem toupper_ne_zero {c : Nat} (h : c ≠ 0) : toupper c ≠ 0 := by
  unfold toupper
  split <;> omega

/-- The WM_CLASS block stays inside `char buffer[1024]` exactly when the class prefix
has fewer than 512 bytes. -/
theorem wm_class_data_eq_none_iff (xclass : List Nat) :
    wm_class_data xclass = none ↔ 512 ≤ (classPrefix xclass).length := by
  obtain ⟨a1, _, a3, a4⟩ := copy_alnum_spec xclass (fun _ => 0) 0
  simp only [Nat.zero_add] at a1 a3 a4
  -- the buffer after the first loop and the terminating NUL
  have hb1 : ∀ k, k < (classPrefix xclass).length →
      Function.update (copy_alnum xclass (fun _ => 0) 0).1
        (copy_alnum xclass (fun _ => 0) 0).2 0 k ≠ 0 := by
    intro k hk
    rw [a1, Function.update_noteq (by omega)]
    exact a4 k (by omega) hk
  have hb0 : ∀ k, (classPrefix xclass).length ≤ k →
      Function.update (copy_alnum xclass (fun _ => 0) 0).1
        (copy_alnum xclass (fun _ => 0) 0).2 0 k = 0 := by
    intro k hk
    rw [a1]
    by_cases h : k = (classPrefix xclass).length
    · rw [h, Function.update_same]
    · rw [Function.update_noteq h]
      exact a3 k hk
  unfold wm_class_data
  simp only []
  rw [a1] at hb1 hb0 ⊢
  generalize (classPrefix xclass).length = n at hb1 hb0 ⊢
  generalize Function.update (copy_alnum xclass (fun _ => 0) 0).1 n 0 = buffer1 at hb1 hb0 ⊢
  have hfirst : ∀ k, k ≠ n + 1 →
      Function.update buffer1 (n + 1) (toupper (buffer1 0)) k = buffer1 k := by
    intro k hk
    rw [Function.update_noteq hk]
  by_cases hX : Function.update buffer1 (n + 1) (toupper (buffer1 0)) (n + 1) = 88
  · rw [if_pos hX]
    simp only []
    have hn1 : 1 ≤ n := by
      by_contra h
      have h0 : n = 0 := by omega
      rw [Function.update_same, hb0 0 (by omega), toupper_zero] at hX
      exact absurd hX (by decide)
    have hsecond : ∀ k, k ≠ n + 1 → k ≠ n + 1 + 1 →
        Function.update (Function.update buffer1 (n + 1) (toupper (buffer1 0))) (n + 1 + 1)
          (toupper (Function.update buffer1 (n + 1) (toupper (buffer1 0)) 1)) k
          = buffer1 k := by
      intro k h1 h2
      rw [Function.update_noteq h2, Function.update_noteq h1]
    have hup := copy_string_upper 1024
      (Function.update (Function.update buffer1 (n + 1) (toupper (buffer1 0))) (n + 1 + 1)
        (toupper (Function.update buffer1 (n + 1) (toupper (buffer1 0)) 1)))
      (n + 1 + 2) (1 + 1)
    have hlow := copy_string_lower 1024
      (Function.update (Function.update buffer1 (n + 1) (toupper (buffer1 0))) (n + 1 + 1)
        (toupper (Function.update buffer1 (n + 1) (toupper (buffer1 0)) 1)))
      (n + 1 + 2) (1 + 1) (n - 2) (by
        intro i hi
        rw [hsecond _ (by omega) (by omega)]
        exact hb1 _ (by omega))
    constructor
    · intro hnone
      by_contra hlt
      have hle : n ≤ 511 := by omega
      have hbound : (copy_string 1024
          (Function.update (Function.update buffer1 (n + 1) (toupper (buffer1 0))) (n + 1 + 1)
            (toupper (Function.update buffer1 (n + 1) (toupper (buffer1 0)) 1)))
          (n + 1 + 2) (1 + 1)).2 ≤ 1024 := by
        by_cases h2 : 2 ≤ n
        · have := hup n (by omega) (by omega)
            (by rw [hsecond _ (by omega) (by omega)]; exact hb0 n (by omega)) (by omega)
          omega
        · have h1 : n = 1 := by omega
          have := hup (n + 2) (by omega) (by omega)
            (by
              rw [show n + 2 = n + 1 + 1 by omega, Function.update_same,
                hfirst 1 (by omega), hb0 1 (by omega), toupper_zero]) (by omega)
          omega
      rw [if_pos hbound] at hnone
      exact absurd hnone (by simp)
    · intro hge
      have hbig : ¬ (copy_string 1024
          (Function.update (Function.update buffer1 (n + 1) (toupper (buffer1 0))) (n + 1 + 1)
            (toupper (Function.update buffer1 (n + 1) (toupper (buffer1 0)) 1)))
          (n + 1 + 2) (1 + 1)).2 ≤ 1024 := by
        have h1 : min (n - 2 + 1) 1024 ≥ 511 := by omega
        omega
      rw [if_neg hbig]
  · rw [if_neg hX]
    simp only []
    have hup := copy_string_upper 1024
      (Function.update buffer1 (n + 1) (toupper (buffer1 0))) (n + 1 + 1) 1
    have hlow := copy_string_lower 1024
      (Function.update buffer1 (n + 1) (toupper (buffer1 0))) (n + 1 + 1) 1 (n - 1) (by
        intro i hi
        rw [hfirst _ (by omega)]
        exact hb1 _ (by omega))
    constructor
    · intro hnone
      by_contra hlt
      have hle : n ≤ 511 := by omega
      have hbound : (copy_string 1024
          (Function.update buffer1 (n + 1) (toupper (buffer1 0))) (n + 1 + 1) 1).2
            ≤ 1024 := by
        by_cases h1 : 1 ≤ n
        · have := hup n (by omega) (by omega)
            (by rw [hfirst _ (by omega)]; exact hb0 n (by omega)) (by omega)
          omega
        · have h0 : n = 0 := by omega
          have := hup 1 (by omega) (by omega)
            (by
              subst h0
              simp only [Nat.zero_add, Function.update_same]
              rw [hb0 0 (Nat.le_refl 0), toupper_zero]) (by omega)
          omega
      rw [if_pos hbound] at hnone
      exact absurd hnone (by simp)
    · intro hge
      have hbig : ¬ (copy_string 1024
          (Function.update buffer1 (n + 1) (toupper (buffer1 0))) (n + 1 + 1) 1).2
            ≤ 1024 := by
        have h1 : min (n - 1 + 1) 1024 ≥ 512 := by omega
        omega
      rw [if_neg hbig]

theorem mappedWindows_append (a b : List Call) :
    mappedWindows (a ++ b) = mappedWindows a ++ mappedWindows b := by
  unfold mappedWindows
  exact List.filterMap_append _ _ _

theorem sendxjunk_no_map (K : Platform) (G : XGlobals) (w : Fl_Window) (xid : Nat) :
    mappedWindows (Fl_X.sendxjunk K G w xid) = [] := by
  unfold Fl_X.sendxjunk
  split <;> rfl

theorem setLabel_no_map (w : Fl_Window) (name iname : Option (List Nat)) :
    mappedWindows (Fl_Window.setLabel w name iname).2 = [] ∧
    (Fl_Window.setLabel w name iname).1.xclass = w.xclass := by
  unfold Fl_Window.setLabel
  simp only []
  split
  · split <;> exact ⟨rfl, rfl⟩
  · exact ⟨rfl, rfl⟩

/-- The window-manager block creates no window, maps no window and leaves the geometry
alone; it runs to its end unless the WM_CLASS block overruns its buffer. -/
theorem create_wm_frame (K : Platform) (G : XGlobals) (w : Fl_Window) (x : Fl_X) :
    createdGeometry (Fl_X.create_wm K G w x).2.2.1 = [] ∧
    createdAttributes (Fl_X.create_wm K G w x).2.2.1 = [] ∧
    (Fl_X.create_wm K G w x).2.1.x = w.x ∧
    (Fl_X.create_wm K G w x).2.1.y = w.y ∧
    (Fl_X.create_wm K G w x).2.1.i = w.i ∧
    mappedWindows (Fl_X.create_wm K G w x).2.2.1 = [] ∧
    ((Fl_X.create_wm K G w x).2.2.2 = false ↔
      ∃ s, w.xclass = some s ∧ wm_class_data s = none) := by
  have hl := setLabel_no_create w w.label w.iconlabel
  have hg := setLabel_geometry w w.label w.iconlabel
  have hm := setLabel_no_map w w.label w.iconlabel
  have hj := sendxjunk_no_create K G (Fl_Window.setLabel w w.label w.iconlabel).1 x.xid
  have hjm := sendxjunk_no_map K G (Fl_Window.setLabel w w.label w.iconlabel).1 x.xid
  unfold Fl_X.create_wm
  simp only []
  rw [hm.2]
  cases hx : w.xclass with
  | none =>
    cases hmf : G.fl_modal_for with
    | none =>
      simp only [hmf, createdGeometry_append, createdAttributes_append, mappedWindows_append,
        hl.1, hl.2, hj.1, hj.2, hm.1, hjm, List.nil_append, List.append_nil]
      exact ⟨rfl, rfl, hg.1, hg.2.1, hg.2.2, rfl, by simp⟩
    | some m =>
      by_cases hdis : G.fl_disable_transient_for = 0
      · simp only [hmf, hdis, if_true, createdGeometry_append, createdAttributes_append,
          mappedWindows_append, hl.1, hl.2, hj.1, hj.2, hm.1, hjm, List.nil_append,
          List.append_nil]
        exact ⟨rfl, rfl, hg.1, hg.2.1, hg.2.2, rfl, by simp⟩
      · simp only [hmf, hdis, if_false, createdGeometry_append, createdAttributes_append,
          mappedWindows_append, hl.1, hl.2, hj.1, hj.2, hm.1, hjm, List.nil_append,
          List.append_nil]
        exact ⟨rfl, rfl, hg.1, hg.2.1, hg.2.2, rfl, by simp⟩
  | some s =>
    cases hd : wm_class_data s with
    | none =>
      simp only [hd, createdGeometry_append, createdAttributes_append, mappedWindows_append,
        hl.1, hl.2, hj.1, hj.2, hm.1, hjm, List.nil_append, List.append_nil]
      exact ⟨rfl, rfl, hg.1, hg.2.1, hg.2.2, rfl, by simp [hd]⟩
    | some d =>
      cases hmf : G.fl_modal_for with
      | none =>
        simp only [hd, hmf, createdGeometry_append, createdAttributes_append, mappedWindows_append,
          hl.1, hl.2, hj.1, hj.2, hm.1, hjm, List.nil_append, List.append_nil]
        exact ⟨rfl, rfl, hg.1, hg.2.1, hg.2.2, rfl, by simp [hd]⟩
      | some m =>
        by_cases hdis : G.fl_disable_transient_for = 0
        · simp only [hd, hmf, hdis, if_true, createdGeometry_append, createdAttributes_append,
            mappedWindows_append, hl.1, hl.2, hj.1, hj.2, hm.1, hjm, List.nil_append,
            List.append_nil]
          exact ⟨rfl, rfl, hg.1, hg.2.1, hg.2.2, rfl, by simp [hd]⟩
        · simp only [hd, hmf, hdis, if_false, createdGeometry_append, createdAttributes_append,
            mappedWindows_append, hl.1, hl.2, hj.1, hj.2, hm.1, hjm, List.nil_append,
            List.append_nil]
          exact ⟨rfl, rfl, hg.1, hg.2.1, hg.2.2, rfl, by simp [hd]⟩
theorem create_size_eq_max (v : Int) : Fl_X.create_size v = max v 1 := by
  unfold Fl_X.create_size
  split <;> omega

/-- The calls of `Fl_X::create`: `XCreateWindow`, `redraw`, then calls none of which is
`XCreateWindow`; and the position of the window.  The last call is `XMapWindow`, the
only one, unless the window is a bordered top-level window whose WM_CLASS block
overruns its buffer: then no window is mapped. -/
theorem create_calls (K : Platform) (G : XGlobals) (w : Fl_Window) (depth : Int)
    (visual colormap : Nat) (background : Int) (newxid : Nat) :
    ∃ wm : List Call,
      (Fl_X.create K G w depth visual colormap background newxid).2.2 =
        Call.XCreateWindow (Fl_X.create_attributes G w colormap background).1
          (Fl_X.create_center K G w (max w.w 1) (max w.h 1)).x
          (Fl_X.create_center K G w (max w.w 1) (max w.h 1)).y
          (max w.w 1) (max w.h 1) 0 depth InputOutput visual
          (Fl_X.create_attributes G w colormap background).2.1
          (Fl_X.create_attributes G w colormap background).2.2
        :: Call.redraw w.self :: wm ∧
      createdGeometry wm = [] ∧ createdAttributes wm = [] ∧
      (Fl_X.create K G w depth visual colormap background newxid).2.1.x =
        (Fl_X.create_center K G w (max w.w 1) (max w.h 1)).x ∧
      (Fl_X.create K G w depth visual colormap background newxid).2.1.y =
        (Fl_X.create_center K G w (max w.w 1) (max w.h 1)).y ∧
      (Fl_X.create K G w depth visual colormap background newxid).2.1.i =
        some ⟨newxid, 0, 0, 1⟩ ∧
      ((w.parent = none ∧ w.border = true ∧ ∃ s, w.xclass = some s ∧ wm_class_data s = none) →
        mappedWindows wm = []) ∧
      (¬ (w.parent = none ∧ w.border = true ∧
          ∃ s, w.xclass = some s ∧ wm_class_data s = none) →
        mappedWindows wm = [newxid] ∧ wm.getLast? = some (Call.XMapWindow newxid)) := by
  have hc : ∀ W H : Int, (Fl_X.create_center K G w W H).self = w.self ∧
      (Fl_X.create_center K G w W H).parent = w.parent ∧
      (Fl_X.create_center K G w W H).border = w.border ∧
      (Fl_X.create_center K G w W H).xclass = w.xclass := by
    intro W H; unfold Fl_X.create_center; split <;> exact ⟨rfl, rfl, rfl, rfl⟩
  obtain ⟨c1, c2, c3, c4⟩ := hc (max w.w 1) (max w.h 1)
  unfold Fl_X.create
  simp only [create_size_eq_max]
  by_cases hcond : w.parent.isNone = true ∧ w.border = true
  · have hcond2 : (Fl_X.create_center K G w (max w.w 1) (max w.h 1)).parent.isNone = true ∧
        (Fl_X.create_center K G w (max w.w 1) (max w.h 1)).border = true := by
      rw [c2, c3]; exact hcond
    rw [if_pos hcond2]
    obtain ⟨f1, f2, f3, f4, f5, f6, f7⟩ := create_wm_frame K
      { G with first := newxid :: G.first }
      { Fl_X.create_center K G w (max w.w 1) (max w.h 1) with
        i := some ⟨newxid, 0, 0, 1⟩ } ⟨newxid, 0, 0, 1⟩
    have f7b : (Fl_X.create_wm K { G with first := newxid :: G.first }
        { Fl_X.create_center K G w (max w.w 1) (max w.h 1) with
          i := some ⟨newxid, 0, 0, 1⟩ } ⟨newxid, 0, 0, 1⟩).2.2.2 = false ↔
        ∃ s, w.xclass = some s ∧ wm_class_data s = none := by
      rw [f7]
      show (∃ s, (Fl_X.create_center K G w (max w.w 1) (max w.h 1)).xclass = some s ∧ _) ↔ _
      rw [c4]
    have hpar : w.parent = none := Option.isNone_iff_eq_none.mp hcond.1
    generalize Fl_X.create_wm K { G with first := newxid :: G.first }
        { Fl_X.create_center K G w (max w.w 1) (max w.h 1) with
          i := some ⟨newxid, 0, 0, 1⟩ } ⟨newxid, 0, 0, 1⟩ = r at f1 f2 f3 f4 f5 f6 f7b ⊢
    by_cases hfl : r.2.2.2 = true
    · rw [if_pos hfl]
      have hno : ¬ (w.parent = none ∧ w.border = true ∧
          ∃ s, w.xclass = some s ∧ wm_class_data s = none) := by
        rintro ⟨_, _, h⟩
        rw [f7b.mpr h] at hfl
        exact absurd hfl (by decide)
      refine ⟨r.2.2.1 ++ [Call.XMapWindow newxid], ?_, ?_, ?_, f3, f4, f5,
        fun h => absurd h hno, fun _ => ⟨?_, ?_⟩⟩
      · simp [c1]
      · rw [createdGeometry_append, f1]; rfl
      · rw [createdAttributes_append, f2]; rfl
      · rw [mappedWindows_append, f6]; rfl
      · rw [List.getLast?_append]; rfl
    · rw [if_neg hfl]
      have hfl2 : r.2.2.2 = false := by simpa using hfl
      refine ⟨r.2.2.1, ?_, f1, f2, f3, f4, f5, fun _ => f6,
        fun h => absurd ⟨hpar, hcond.2, f7b.mp hfl2⟩ h⟩
      simp [c1]
  · have hcond2 : ¬ ((Fl_X.create_center K G w (max w.w 1) (max w.h 1)).parent.isNone = true ∧
        (Fl_X.create_center K G w (max w.w 1) (max w.h 1)).border = true) := by
      rw [c2, c3]; exact hcond
    rw [if_neg hcond2]
    have hno : ¬ (w.parent = none ∧ w.border = true ∧
        ∃ s, w.xclass = some s ∧ wm_class_data s = none) := by
      rintro ⟨h1, h2, _⟩
      exact hcond ⟨by rw [h1]; rfl, h2⟩
    refine ⟨[Call.XMapWindow newxid], ?_, rfl, rfl, rfl, rfl, rfl,
      fun h => absurd h hno, fun _ => ⟨rfl, rfl⟩⟩
    simp [c1]

theorem layout_resize (K : Platform) (G : XGlobals) (w : Fl_Window) :
    (∀ p ∈ resizedSize (Fl_Window.layout K G w).2.2, p = (max w.w 1, max w.h 1)) ∧
    (∀ x : Fl_X, w.i = some x → w.self ≠ G.resize_from_system → (w.ow ≠ w.w ∨ w.oh ≠ w.h) →
      resizedSize (Fl_Window.layout K G w).2.2 = [(max w.w 1, max w.h 1)]) := by
  have hw : (if w.w > 0 then w.w else 1) = max w.w 1 := by split <;> omega
  have hh : (if w.h > 0 then w.h else 1) = max w.h 1 := by split <;> omega
  -- setting FL_FORCE_POSITION changes only the flags
  obtain ⟨w1, hw1, e1, e2, e3, e4, e5, e6, e7, e8, e9⟩ :
      ∃ w1 : Fl_Window, w1 = (if w.ox ≠ w.x ∨ w.oy ≠ w.y
          then { w with flags := w.flags ||| K.FL_FORCE_POSITION } else w) ∧
        w1.w = w.w ∧ w1.h = w.h ∧ w1.ow = w.ow ∧ w1.oh = w.oh ∧ w1.i = w.i ∧
        w1.self = w.self ∧ w1.x = w.x ∧ w1.y = w.y ∧ w1.ox = w.ox := by
    refine ⟨_, rfl, ?_⟩
    split <;> exact ⟨rfl, rfl, rfl, rfl, rfl, rfl, rfl, rfl, rfl⟩
  unfold Fl_Window.layout
  simp only []
  rw [← hw1]
  rw [e1, e2, e3, e4, e5, e6]
  constructor
  · intro p hp
    by_cases hsz : w.ow = w.w ∧ w.oh = w.h
    · rw [if_pos hsz] at hp
      by_cases hr : w.self = G.resize_from_system
      · simp [hr, resizedSize] at hp
      · cases hi : w.i with
        | none => simp [hr, hi, resizedSize] at hp
        | some x =>
          simp only [hr, hi, if_false] at hp
          split at hp <;> simp [resizedSize] at hp
    · rw [if_neg hsz] at hp
      by_cases hr : w.self = G.resize_from_system
      · simp [hr, resizedSize] at hp
      · cases hi : w.i with
        | none => simp [hr, hi, resizedSize] at hp
        | some x =>
          simp only [hr, hi, if_false, e1, e2, hw, hh] at hp
          simp [resizedSize] at hp
          exact hp
  · intro x hi hr hsz
    have hsz2 : ¬ (w.ow = w.w ∧ w.oh = w.h) := by
      rintro ⟨a, b⟩
      rcases hsz with h | h
      · exact h a
      · exact h b
    rw [if_neg hsz2]
    simp only [hr, hi, if_false, e1, e2, hw, hh]
    simp [resizedSize]


/-- The class of `longClassWindow` is alphanumeric throughout, 512 bytes. -/
theorem classPrefix_longClass :
    (classPrefix (List.replicate 512 97)).length = 512 := by
  unfold classPrefix
  rw [List.takeWhile_replicate]
  have h : (decide (isalnum 97 = true ∨ 97 &&& 128 ≠ 0)) = true := by decide
  rw [h, if_pos rfl, List.length_replicate]

/-- The one `XCreateWindow` call of `Fl_X::create` carries the position of the window
and the clamped size; `XMapWindow` is called, last, unless the WM_CLASS block of a
bordered top-level window overruns its buffer, and then it is not called at all. -/
theorem create_geometry (K : Platform) (G : XGlobals) (w : Fl_Window) (depth : Int)
    (visual colormap : Nat) (background : Int) (newxid : Nat) :
    createdGeometry (Fl_X.create K G w depth visual colormap background newxid).2.2 =
      [((Fl_X.create K G w depth visual colormap background newxid).2.1.x,
        (Fl_X.create K G w depth visual colormap background newxid).2.1.y,
        max w.w 1, max w.h 1)] ∧
    ((w.parent = none ∧ w.border = true ∧
        ∃ s, w.xclass = some s ∧ 512 ≤ (classPrefix s).length) →
      mappedWindows (Fl_X.create K G w depth visual colormap background newxid).2.2 = []) ∧
    (¬ (w.parent = none ∧ w.border = true ∧
        ∃ s, w.xclass = some s ∧ 512 ≤ (classPrefix s).length) →
      mappedWindows (Fl_X.create K G w depth visual colormap background newxid).2.2 =
        [newxid] ∧
      (Fl_X.create K G w depth visual colormap background newxid).2.2.getLast? =
        some (Call.XMapWindow newxid)) := by
  obtain ⟨wm, hcalls, hg, _, hx, hy, _, ho, hn⟩ :=
    create_calls K G w depth visual colormap background newxid
  have hiff : (w.parent = none ∧ w.border = true ∧
        ∃ s, w.xclass = some s ∧ 512 ≤ (classPrefix s).length) ↔
      (w.parent = none ∧ w.border = true ∧
        ∃ s, w.xclass = some s ∧ wm_class_data s = none) := by
    constructor
    · rintro ⟨h1, h2, s, h3, h4⟩
      exact ⟨h1, h2, s, h3, (wm_class_data_eq_none_iff s).mpr h4⟩
    · rintro ⟨h1, h2, s, h3, h4⟩
      exact ⟨h1, h2, s, h3, (wm_class_data_eq_none_iff s).mp h4⟩
  have this : ∀ c1 c2 : Call, ∀ l : List Call, c1 :: c2 :: l = [c1] ++ ([c2] ++ l) := by
    intro _ _ _; rfl
  refine ⟨?_, ?_, ?_⟩
  · rw [hcalls, hx, hy]
    rw [this, createdGeometry_append, createdGeometry_append, hg]
    rfl
  · intro h
    rw [hcalls, this, mappedWindows_append, mappedWindows_append, ho (hiff.mp h)]
    rfl
  · intro h
    obtain ⟨hm, hl⟩ := hn (fun h2 => h (hiff.mpr h2))
    constructor
    · rw [hcalls, this, mappedWindows_append, mappedWindows_append, hm]
      rfl
    · rw [hcalls]
      cases wm with
      | nil => exact absurd hl (by simp)
      | cons c l =>
        rw [List.getLast?_cons_cons, List.getLast?_cons_cons]
        exact hl

/-- C7: for every requested size (w, h), zero and negative values included,
`Fl_X::create` calls `XCreateWindow` once, with the width max(w, 1) and the height
max(h, 1), and records the native side of the window; but it does not always go on to
map the window: `XMapWindow` is its last call exactly when the window is not a
bordered top-level window whose class starts with 512 or more alphanumeric or
high-bit bytes, and for such a window, whose WM_CLASS block writes behind the end of
`char buffer[1024]`, no `XMapWindow` call is made.  `Fl_Window::layout` passes the
same clamped size to every `XMoveResizeWindow` it issues, and it issues one when the
size of a created window changed (and the change did not come from the system). -/
theorem create_clamps_size (K : Platform) (G : XGlobals) (w : Fl_Window) (depth : Int)
    (visual colormap : Nat) (background : Int) (newxid : Nat) :
    createdGeometry (Fl_X.create K G w depth visual colormap background newxid).2.2 =
      [((Fl_X.create K G w depth visual colormap background newxid).2.1.x,
        (Fl_X.create K G w depth visual colormap background newxid).2.1.y,
        max w.w 1, max w.h 1)] ∧
    (Fl_X.create K G w depth visual colormap background newxid).2.1.i =
      some ⟨newxid, 0, 0, 1⟩ ∧
    ((Fl_X.create K G w depth visual colormap background newxid).2.2.getLast? =
        some (Call.XMapWindow newxid) ↔
      ¬ (w.parent = none ∧ w.border = true ∧
        ∃ s, w.xclass = some s ∧ 512 ≤ (classPrefix s).length)) ∧
    ((w.parent = none ∧ w.border = true ∧
        ∃ s, w.xclass = some s ∧ 512 ≤ (classPrefix s).length) →
      mappedWindows (Fl_X.create K G w depth visual colormap background newxid).2.2 = []) ∧
    (∀ p ∈ resizedSize (Fl_Window.layout K G w).2.2, p = (max w.w 1, max w.h 1)) ∧
    (∀ x : Fl_X, w.i = some x → w.self ≠ G.resize_from_system → (w.ow ≠ w.w ∨ w.oh ≠ w.h) →
      resizedSize (Fl_Window.layout K G w).2.2 = [(max w.w 1, max w.h 1)]) := by
  obtain ⟨_, _, _, _, _, _, hi, _⟩ :=
    create_calls K G w depth visual colormap background newxid
  obtain ⟨hg, ho, hn⟩ := create_geometry K G w depth visual colormap background newxid
  refine ⟨hg, hi, ⟨?_, fun h => (hn h).2⟩, ho, (layout_resize K G w).1,
    (layout_resize K G w).2⟩
  intro hl hov
  have hmem : Call.XMapWindow newxid ∈
      (Fl_X.create K G w depth visual colormap background newxid).2.2 :=
    List.mem_of_getLast?_eq_some hl
  have hmem2 : newxid ∈
      mappedWindows (Fl_X.create K G w depth visual colormap background newxid).2.2 := by
    unfold mappedWindows
    rw [List.mem_filterMap]
    exact ⟨_, hmem, rfl⟩
  rw [ho hov] at hmem2
  exact absurd hmem2 (by simp)

/-- C7, witness: a request of size (0, 0) on a 1280 x 1024 display creates a native
window of size (1, 1), and a created window resized to (0, -5) is resized to (1, 1);
the bordered top-level window with a class of 512 letters is created with its size
100 x 50, but it is not mapped. -/
theorem create_clamps_size_witness :
    createdGeometry (Fl_X.create lp64 exampleGlobals (exampleWindow 0 0) 24 5 6 (-1) 99).2.2
      = [(639, 511, 1, 1)] ∧
    resizedSize (Fl_Window.layout lp64 exampleGlobals
      { exampleWindow 0 (-5) with i := some ⟨99, 0, 0, 0⟩, ow := 3 }).2.2 = [(1, 1)] ∧
    longClassWindow.xclass = some (List.replicate 512 97) ∧
    mappedWindows (Fl_X.create lp64 exampleGlobals longClassWindow 24 5 6 (-1) 99).2.2
      = [] ∧
    (Fl_X.create lp64 exampleGlobals longClassWindow 24 5 6 (-1) 99).2.2.getLast? ≠
      some (Call.XMapWindow 99) := by
  have hov : longClassWindow.parent = none ∧ longClassWindow.border = true ∧
      ∃ s, longClassWindow.xclass = some s ∧ 512 ≤ (classPrefix s).length :=
    ⟨rfl, rfl, List.replicate 512 97, rfl, Nat.le_of_eq classPrefix_longClass.symm⟩
  refine ⟨?_, ?_, rfl, ?_, ?_⟩
  · rw [(create_clamps_size lp64 exampleGlobals (exampleWindow 0 0) 24 5 6 (-1) 99).1]
    decide
  · exact (create_clamps_size lp64 exampleGlobals
      { exampleWindow 0 (-5) with i := some ⟨99, 0, 0, 0⟩, ow := 3 } 24 5 6 (-1) 99).2.2.2.2.2
      ⟨99, 0, 0, 0⟩ rfl (by decide) (Or.inl (by decide))
  · exact (create_clamps_size lp64 exampleGlobals longClassWindow 24 5 6 (-1) 99).2.2.2.1 hov
  · intro h
    exact (create_clamps_size lp64 exampleGlobals longClassWindow 24 5 6 (-1) 99).2.2.1.mp
      h hov
/-- C division by 2 (rounding toward zero) is off by at most one half. -/
theorem tdiv_two_bound (a : Int) : |2 * a.tdiv 2 - a| ≤ 1 := by
  rw [abs_le]
  rcases le_or_lt 0 a with ha | ha
  · rw [Int.tdiv_eq_ediv ha (by norm_num)]
    omega
  · have h1 : a.tdiv 2 = -((-a) / 2) := by
      have h := Int.neg_tdiv (-a) 2
      rw [neg_neg] at h
      rw [h, Int.tdiv_eq_ediv (by omega) (by norm_num)]
    rw [h1]
    omega

/-- C8: `Fl_X::create` sets the position of a window exactly when the window is
top-level and FL_FORCE_POSITION is not set; it then sets x = (Fl::w() - W)/2 and
y = (Fl::h() - H)/2 with W, H the clamped size, which centres the window to within one
pixel for every screen and window size; every other window keeps its position; and
`XCreateWindow` is called with the resulting position. -/
theorem create_centers_window (K : Platform) (G : XGlobals) (w : Fl_Window) (depth : Int)
    (visual colormap : Nat) (background : Int) (newxid : Nat) :
    (w.parent = none ∧ w.flags &&& K.FL_FORCE_POSITION = 0 →
      (Fl_X.create K G w depth visual colormap background newxid).2.1.x
        = (G.screen_w - max w.w 1).tdiv 2 ∧
      (Fl_X.create K G w depth visual colormap background newxid).2.1.y
        = (G.screen_h - max w.h 1).tdiv 2 ∧
      |2 * (Fl_X.create K G w depth visual colormap background newxid).2.1.x
        + max w.w 1 - G.screen_w| ≤ 1 ∧
      |2 * (Fl_X.create K G w depth visual colormap background newxid).2.1.y
        + max w.h 1 - G.screen_h| ≤ 1) ∧
    (¬ (w.parent = none ∧ w.flags &&& K.FL_FORCE_POSITION = 0) →
      (Fl_X.create K G w depth visual colormap background newxid).2.1.x = w.x ∧
      (Fl_X.create K G w depth visual colormap background newxid).2.1.y = w.y) ∧
    createdGeometry (Fl_X.create K G w depth visual colormap background newxid).2.2 =
      [((Fl_X.create K G w depth visual colormap background newxid).2.1.x,
        (Fl_X.create K G w depth visual colormap background newxid).2.1.y,
        max w.w 1, max w.h 1)] := by
  obtain ⟨_, _, _, _, hx, hy, _⟩ := create_calls K G w depth visual colormap background newxid
  refine ⟨?_, ?_, (create_geometry K G w depth visual colormap background newxid).1⟩
  · rintro ⟨hp, hf⟩
    have hc : w.flags &&& K.FL_FORCE_POSITION = 0 ∧ w.parent.isNone = true := by
      rw [hp]; exact ⟨hf, rfl⟩
    have ex : (Fl_X.create_center K G w (max w.w 1) (max w.h 1)).x
        = (G.screen_w - max w.w 1).tdiv 2 := by
      unfold Fl_X.create_center; rw [if_pos hc]
    have ey : (Fl_X.create_center K G w (max w.w 1) (max w.h 1)).y
        = (G.screen_h - max w.h 1).tdiv 2 := by
      unfold Fl_X.create_center; rw [if_pos hc]
    rw [hx, hy, ex, ey]
    have bx := tdiv_two_bound (G.screen_w - max w.w 1)
    have bY := tdiv_two_bound (G.screen_h - max w.h 1)
    refine ⟨rfl, rfl, ?_, ?_⟩
    · have : 2 * (G.screen_w - max w.w 1).tdiv 2 + max w.w 1 - G.screen_w
          = 2 * (G.screen_w - max w.w 1).tdiv 2 - (G.screen_w - max w.w 1) := by ring
      rw [this]; exact bx
    · have : 2 * (G.screen_h - max w.h 1).tdiv 2 + max w.h 1 - G.screen_h
          = 2 * (G.screen_h - max w.h 1).tdiv 2 - (G.screen_h - max w.h 1) := by ring
      rw [this]; exact bY
  · intro hnot
    have hc : ¬ (w.flags &&& K.FL_FORCE_POSITION = 0 ∧ w.parent.isNone = true) := by
      rintro ⟨hf, hp⟩
      exact hnot ⟨Option.isNone_iff_eq_none.mp hp, hf⟩
    have ew : Fl_X.create_center K G w (max w.w 1) (max w.h 1) = w := by
      unfold Fl_X.create_center; rw [if_neg hc]
    rw [hx, hy, ew]
    exact ⟨rfl, rfl⟩

/-- C8, witness: a 101 x 2000 top-level window on a 1280 x 1024 display is created at
(589, -488); the same window with FL_FORCE_POSITION stays at (0, 0). -/
theorem create_centers_window_witness :
    (Fl_X.create lp64 exampleGlobals (exampleWindow 101 2000) 24 5 6 (-1) 99).2.1.x = 589 ∧
    (Fl_X.create lp64 exampleGlobals (exampleWindow 101 2000) 24 5 6 (-1) 99).2.1.y = -488 ∧
    (Fl_X.create lp64 exampleGlobals { exampleWindow 101 2000 with flags := 16 }
      24 5 6 (-1) 99).2.1.x = 0 := by
  have h := (create_centers_window lp64 exampleGlobals (exampleWindow 101 2000)
    24 5 6 (-1) 99).1 ⟨rfl, by decide⟩
  have h2 := (create_centers_window lp64 exampleGlobals
    { exampleWindow 101 2000 with flags := 16 } 24 5 6 (-1) 99).2.1 (by decide)
  refine ⟨?_, ?_, h2.1⟩
  · rw [h.1]; decide
  · rw [h.2.1]; decide

/-- The event mask of a top-level window selects each of the eleven event classes. -/
theorem toplevel_event_mask_bits :
    ∃ m, m = ExposureMask ||| StructureNotifyMask ||| KeyPressMask ||| KeyReleaseMask
          ||| KeymapStateMask ||| FocusChangeMask ||| ButtonPressMask ||| ButtonReleaseMask
          ||| EnterWindowMask ||| LeaveWindowMask ||| PointerMotionMask ∧
        m = 2277503 ∧
        m &&& ExposureMask ≠ 0 ∧ m &&& StructureNotifyMask ≠ 0 ∧
        m &&& KeyPressMask ≠ 0 ∧ m &&& KeyReleaseMask ≠ 0 ∧ m &&& KeymapStateMask ≠ 0 ∧
        m &&& FocusChangeMask ≠ 0 ∧ m &&& ButtonPressMask ≠ 0 ∧
        m &&& ButtonReleaseMask ≠ 0 ∧ m &&& EnterWindowMask ≠ 0 ∧
        m &&& LeaveWindowMask ≠ 0 ∧ m &&& PointerMotionMask ≠ 0 :=
  ⟨2277503, by decide, rfl, by decide, by decide, by decide, by decide, by decide, by decide,
    by decide, by decide, by decide, by decide, by decide⟩

/-- The value mask and the attributes of `Fl_X::create`, case by case. -/
theorem create_attributes_cases (G : XGlobals) (w : Fl_Window) (colormap : Nat)
    (background : Int) :
    ((Fl_X.create_attributes G w colormap background).2.1 &&& CWOverrideRedirect ≠ 0
      ↔ (w.parent = none ∧ w.border = false)) ∧
    ((Fl_X.create_attributes G w colormap background).2.2.override_redirect = some 1
      ↔ (w.parent = none ∧ w.border = false)) ∧
    ((Fl_X.create_attributes G w colormap background).2.1 &&& CWSaveUnder ≠ 0
      ↔ (w.parent = none ∧ w.border = false)) ∧
    ((Fl_X.create_attributes G w colormap background).2.2.save_under = some 1
      ↔ (w.parent = none ∧ w.border = false)) ∧
    (Fl_X.create_attributes G w colormap background).2.1 &&& CWEventMask ≠ 0 ∧
    (w.parent ≠ none →
      (Fl_X.create_attributes G w colormap background).2.2.event_mask = some ExposureMask) ∧
    (w.parent = none →
      (Fl_X.create_attributes G w colormap background).2.2.event_mask = some 2277503) := by
  unfold Fl_X.create_attributes
  cases hp : w.parent with
  | some pxid =>
    by_cases hb : background ≥ 0
    · simp only [hb, if_true, if_false, not_true_eq_false, not_false_eq_true, Bool.false_eq_true]
      refine ⟨?_, ?_, ?_, ?_, ?_, ?_, ?_⟩
      · have : (CWBorderPixel ||| CWColormap ||| CWEventMask ||| CWBitGravity ||| CWBackPixel)
            &&& CWOverrideRedirect = 0 := by decide
        simp [this]
      · simp
      · have : (CWBorderPixel ||| CWColormap ||| CWEventMask ||| CWBitGravity ||| CWBackPixel)
            &&& CWSaveUnder = 0 := by decide
        simp [this]
      · simp
      · decide
      · intro _; first | rfl | trivial
      · intro h; simp at h
    · simp only [hb, if_true, if_false, not_true_eq_false, not_false_eq_true, Bool.false_eq_true]
      refine ⟨?_, ?_, ?_, ?_, ?_, ?_, ?_⟩
      · have : (CWBorderPixel ||| CWColormap ||| CWEventMask ||| CWBitGravity)
            &&& CWOverrideRedirect = 0 := by decide
        simp [this]
      · simp
      · have : (CWBorderPixel ||| CWColormap ||| CWEventMask ||| CWBitGravity)
            &&& CWSaveUnder = 0 := by decide
        simp [this]
      · simp
      · decide
      · intro _; first | rfl | trivial
      · intro h; simp at h
  | none =>
    cases hbo : w.border with
    | true =>
      by_cases hb : background ≥ 0
      · simp only [hb, if_true, if_false, not_true_eq_false, not_false_eq_true, Bool.false_eq_true]
        refine ⟨?_, ?_, ?_, ?_, ?_, ?_, ?_⟩
        · have : (CWBorderPixel ||| CWColormap ||| CWEventMask ||| CWBitGravity
              ||| CWBackPixel) &&& CWOverrideRedirect = 0 := by decide
          simp [this]
        · simp
        · have : (CWBorderPixel ||| CWColormap ||| CWEventMask ||| CWBitGravity
              ||| CWBackPixel) &&& CWSaveUnder = 0 := by decide
          simp [this]
        · simp
        · decide
        · intro h; exact absurd rfl h
        · intro _; rfl
      · simp only [hb, if_true, if_false, not_true_eq_false, not_false_eq_true, Bool.false_eq_true]
        refine ⟨?_, ?_, ?_, ?_, ?_, ?_, ?_⟩
        · have : (CWBorderPixel ||| CWColormap ||| CWEventMask ||| CWBitGravity)
              &&& CWOverrideRedirect = 0 := by decide
          simp [this]
        · simp
        · have : (CWBorderPixel ||| CWColormap ||| CWEventMask ||| CWBitGravity)
              &&& CWSaveUnder = 0 := by decide
          simp [this]
        · simp
        · decide
        · intro h; exact absurd rfl h
        · intro _; rfl
    | false =>
      by_cases hb : background ≥ 0
      · simp only [hb, if_true, if_false, not_true_eq_false, not_false_eq_true, Bool.false_eq_true]
        refine ⟨?_, ?_, ?_, ?_, ?_, ?_, ?_⟩
        · have : (CWBorderPixel ||| CWColormap ||| CWEventMask ||| CWBitGravity
              ||| (CWOverrideRedirect ||| CWSaveUnder) ||| CWBackPixel)
              &&& CWOverrideRedirect ≠ 0 := by decide
          simp [this]
        · simp
        · have : (CWBorderPixel ||| CWColormap ||| CWEventMask ||| CWBitGravity
              ||| (CWOverrideRedirect ||| CWSaveUnder) ||| CWBackPixel)
              &&& CWSaveUnder ≠ 0 := by decide
          simp [this]
        · simp
        · decide
        · intro h; exact absurd rfl h
        · intro _; rfl
      · simp only [hb, if_true, if_false, not_true_eq_false, not_false_eq_true, Bool.false_eq_true]
        refine ⟨?_, ?_, ?_, ?_, ?_, ?_, ?_⟩
        · have : (CWBorderPixel ||| CWColormap ||| CWEventMask ||| CWBitGravity
              ||| (CWOverrideRedirect ||| CWSaveUnder)) &&& CWOverrideRedirect ≠ 0 := by
            decide
          simp [this]
        · simp
        · have : (CWBorderPixel ||| CWColormap ||| CWEventMask ||| CWBitGravity
              ||| (CWOverrideRedirect ||| CWSaveUnder)) &&& CWSaveUnder ≠ 0 := by decide
          simp [this]
        · simp
        · decide
        · intro h; exact absurd rfl h
        · intro _; rfl

/-- C9: `Fl_X::create` asks for override-redirect and save-under (the attribute set to
1 and its bit in the value mask) exactly when the window is top-level and has no
border; a child window gets the event mask ExposureMask, a top-level window the mask
that selects exposure, structure, key press and release, keymap, focus, button press
and release, enter, leave and pointer motion; the event mask is always passed on. -/
theorem create_attributes_by_kind (K : Platform) (G : XGlobals) (w : Fl_Window) (depth : Int)
    (visual colormap : Nat) (background : Int) (newxid : Nat) :
    (∃ mask attr,
      createdAttributes (Fl_X.create K G w depth visual colormap background newxid).2.2
        = [(mask, attr)] ∧
      (mask &&& CWOverrideRedirect ≠ 0 ↔ (w.parent = none ∧ w.border = false)) ∧
      (attr.override_redirect = some 1 ↔ (w.parent = none ∧ w.border = false)) ∧
      (mask &&& CWSaveUnder ≠ 0 ↔ (w.parent = none ∧ w.border = false)) ∧
      (attr.save_under = some 1 ↔ (w.parent = none ∧ w.border = false)) ∧
      mask &&& CWEventMask ≠ 0 ∧
      (w.parent ≠ none → attr.event_mask = some ExposureMask) ∧
      (w.parent = none → ∃ m, attr.event_mask = some m ∧
        m = ExposureMask ||| StructureNotifyMask ||| KeyPressMask ||| KeyReleaseMask
          ||| KeymapStateMask ||| FocusChangeMask ||| ButtonPressMask ||| ButtonReleaseMask
          ||| EnterWindowMask ||| LeaveWindowMask ||| PointerMotionMask ∧
        m &&& ExposureMask ≠ 0 ∧ m &&& StructureNotifyMask ≠ 0 ∧
        m &&& KeyPressMask ≠ 0 ∧ m &&& KeyReleaseMask ≠ 0 ∧ m &&& KeymapStateMask ≠ 0 ∧
        m &&& FocusChangeMask ≠ 0 ∧ m &&& ButtonPressMask ≠ 0 ∧
        m &&& ButtonReleaseMask ≠ 0 ∧ m &&& EnterWindowMask ≠ 0 ∧
        m &&& LeaveWindowMask ≠ 0 ∧ m &&& PointerMotionMask ≠ 0)) := by
  obtain ⟨wm, hcalls, _, ha, _, _, _⟩ :=
    create_calls K G w depth visual colormap background newxid
  refine ⟨(Fl_X.create_attributes G w colormap background).2.1,
    (Fl_X.create_attributes G w colormap background).2.2, ?_, ?_⟩
  · rw [hcalls]
    have : ∀ c1 c2 : Call, ∀ l : List Call, c1 :: c2 :: l = [c1] ++ ([c2] ++ l) := by
      intro _ _ _; rfl
    rw [this, createdAttributes_append, createdAttributes_append, ha]
    rfl
  · obtain ⟨h1, h2, h3, h4, h5, h6, h7⟩ := create_attributes_cases G w colormap background
    refine ⟨h1, h2, h3, h4, h5, h6, ?_⟩
    intro hp
    obtain ⟨m, hm, hv, hbits⟩ := toplevel_event_mask_bits
    refine ⟨m, ?_, hm, hbits⟩
    rw [h7 hp, hv]

/-- C9, witness: a top-level window without border asks for override-redirect, and its
event mask selects pointer motion. -/
theorem create_attributes_by_kind_witness :
    ∃ mask attr,
      createdAttributes (Fl_X.create lp64 exampleGlobals
        { exampleWindow 10 10 with border := false } 24 5 6 (-1) 99).2.2 = [(mask, attr)] ∧
      attr.override_redirect = some 1 ∧ mask &&& CWOverrideRedirect ≠ 0 ∧
      ∃ m, attr.event_mask = some m ∧ m &&& PointerMotionMask ≠ 0 := by
  obtain ⟨mask, attr, h, h1, h2, _, _, _, _, h7⟩ := create_attributes_by_kind lp64
    exampleGlobals { exampleWindow 10 10 with border := false } 24 5 6 (-1) 99
  obtain ⟨m, hm, _, hbits⟩ := h7 rfl
  exact ⟨mask, attr, h, h2.mpr ⟨rfl, rfl⟩, h1.mpr ⟨rfl, rfl⟩, m, hm,
    hbits.2.2.2.2.2.2.2.2.2.2⟩

/-! ## Theorems: grab -/

/-- C10: releasing a grab is idempotent.  `Fl::grab(0)` with no grab active changes
neither `grab_` nor `pushed_` and makes no call (no native ungrab, no `fl_fix_focus`);
so from every state a second `Fl::grab(0)` changes nothing after the first, and the
two together call `fl_fix_focus` at most once. -/
theorem grab_release_idempotent (first time first2 time2 : Nat) (s : GrabState) :
    (s.grab_ = 0 → grab first time 0 s = s) ∧
    grab first2 time2 0 (grab first time 0 s) = grab first time 0 s ∧
    countFixFocus (grab first2 time2 0 (grab first time 0 s)).calls
      ≤ countFixFocus s.calls + 1 ∧
    (grab first time 0 s).grab_ = 0 := by
  have h1 : ∀ (f t : Nat) (s : GrabState), s.grab_ = 0 → grab f t 0 s = s := by
    intro f t s h
    simp [grab, h]
  have h0 : (grab first time 0 s).grab_ = 0 := by
    by_cases h : s.grab_ = 0
    · rw [h1 first time s h]; exact h
    · simp [grab, h]
  refine ⟨h1 first time s, h1 first2 time2 _ h0, ?_, h0⟩
  rw [h1 first2 time2 _ h0]
  by_cases h : s.grab_ = 0
  · rw [h1 first time s h]; omega
  · simp [grab, h, countFixFocus, List.filter_append]

/-- C10, witness: a release in a state without grab, after one earlier call. -/
theorem grab_release_idempotent_witness :
    grab 3 1000 0 { grab_ := 0, pushed_ := 5, calls := [Call.XFlush] }
      = { grab_ := 0, pushed_ := 5, calls := [Call.XFlush] } :=
  (grab_release_idempotent 3 1000 3 1000
    { grab_ := 0, pushed_ := 5, calls := [Call.XFlush] }).1 rfl

/-- C11: for every non-null window w and every prior state, after `Fl::grab(w)` the grab
window is w; `XGrabPointer` and `XGrabKeyboard` are called exactly when no grab was
active before the call, and no call at all is made otherwise; `pushed_` becomes w when
it was non-null and stays null otherwise.  After `Fl::grab(0)` on an active grab both
`grab_` and `pushed_` are 0. -/
theorem grab_acquire_and_release (first time : Nat) (s : GrabState) :
    (∀ w : Nat, w ≠ 0 →
      (grab first time w s).grab_ = w ∧
      (s.grab_ = 0 → (grab first time w s).calls = s.calls ++
        [Call.XGrabPointer first 1
           (ButtonPressMask ||| ButtonReleaseMask ||| ButtonMotionMask ||| PointerMotionMask)
           GrabModeAsync GrabModeAsync 0 0 time,
         Call.XGrabKeyboard first 1 GrabModeAsync GrabModeAsync time]) ∧
      (s.grab_ ≠ 0 → (grab first time w s).calls = s.calls) ∧
      (s.pushed_ ≠ 0 → (grab first time w s).pushed_ = w) ∧
      (s.pushed_ = 0 → (grab first time w s).pushed_ = 0)) ∧
    (s.grab_ ≠ 0 →
      (grab first time 0 s).grab_ = 0 ∧ (grab first time 0 s).pushed_ = 0) := by
  constructor
  · intro w hw
    unfold grab
    rw [if_pos hw]
    by_cases hg : s.grab_ = 0 <;> by_cases hp : s.pushed_ = 0 <;> simp [hg, hp]
  · intro hg
    unfold grab
    simp [hg]

/-- C11, witness: window 9 grabs while window 4 is pushed and no grab is active, then
window 8 grabs, then the grab is released. -/
theorem grab_acquire_and_release_witness :
    (grab 3 1000 9 { grab_ := 0, pushed_ := 4, calls := [] }).grab_ = 9 ∧
    (grab 3 1000 9 { grab_ := 0, pushed_ := 4, calls := [] }).pushed_ = 9 ∧
    (grab 3 1001 8 (grab 3 1000 9 { grab_ := 0, pushed_ := 4, calls := [] })).calls
      = (grab 3 1000 9 { grab_ := 0, pushed_ := 4, calls := [] }).calls ∧
    (grab 3 1002 0 (grab 3 1000 9 { grab_ := 0, pushed_ := 4, calls := [] })).pushed_ = 0 := by
  have h1 := (grab_acquire_and_release 3 1000 { grab_ := 0, pushed_ := 4, calls := [] }).1 9
    (by decide)
  have h2 := (grab_acquire_and_release 3 1001
    (grab 3 1000 9 { grab_ := 0, pushed_ := 4, calls := [] })).1 8 (by decide)
  have h3 := (grab_acquire_and_release 3 1002
    (grab 3 1000 9 { grab_ := 0, pushed_ := 4, calls := [] })).2 (by decide)
  exact ⟨h1.1, h1.2.2.2.1 (by decide), h2.2.2.1 (by decide), h3.2⟩

/-! ## Theorems: the display connection -/

/-- C12, the code at the failing input: `fl_close_display` has no test of `fl_display`
and does not clear it, so the second of two consecutive calls calls
`ConnectionNumber` and `XCloseDisplay` again, on the display that the first call
closed (as does every later call). -/
theorem fl_close_display_twice (X : XServer) (s : DisplayState) :
    (fl_close_display X s).fl_display = s.fl_display ∧
    (fl_close_display X (fl_close_display X s)).calls =
      (fl_close_display X s).calls ++
        [DisplayCall.ConnectionNumber s.fl_display, DisplayCall.XCloseDisplay s.fl_display] ∧
    (fl_close_display X (fl_close_display X s)).calls ≠ (fl_close_display X s).calls ∧
    ((fl_open_display false exampleServer DisplayState.init).map fun s1 =>
        (fl_close_display exampleServer (fl_close_display exampleServer s1)).calls.drop
          (fl_close_display exampleServer s1).calls.length)
      = some [DisplayCall.ConnectionNumber 500, DisplayCall.XCloseDisplay 500] := by
  refine ⟨rfl, rfl, ?_, by decide⟩
  intro h
  have h2 : (fl_close_display X (fl_close_display X s)).calls.length
      = (fl_close_display X s).calls.length := by rw [h]
  simp [fl_close_display] at h2

/-- C13, as amended: `fl_open_display` called while `fl_display` is set returns the
state as it is: no call is made, no handler installed, no descriptor registered, and
`fl_display`, `fl_screen`, `fl_visual`, `fl_colormap` keep their values; so a second
open after a successful one changes nothing.  Two consecutive opens from a closed
display (`fl_display` is 0, `XOpenDisplay` succeeds) leave exactly one entry for the
connection descriptor, with mask POLLIN and `fd_callback`, provided that no entry
which the table held for that descriptor before the first open carries a bit outside
POLLIN. -/
theorem fl_open_display_idempotent (u u2 : Bool) (X X2 : XServer) (s : DisplayState) :
    (s.fl_display ≠ 0 → fl_open_display u X s = some s) ∧
    (∀ s1, fl_open_display u X s = some s1 → fl_open_display u2 X2 s1 = some s1) ∧
    (s.fl_display = 0 → X.display ≠ 0 →
      (∀ x ∈ s.fds.table, x.fd = X.connection → bitAnd x.events (bitNot POLLIN) = 0) →
      ∃ s1, fl_open_display u X s = some s1 ∧ fl_open_display u2 X2 s1 = some s1 ∧
        s1.fds.table.filter (fun x => decide (x.fd = X.connection))
          = [⟨X.connection, POLLIN, fd_callback, 0⟩]) := by
  have hset : ∀ (v : Bool) (Y : XServer) (t : DisplayState),
      t.fl_display ≠ 0 → fl_open_display v Y t = some t := by
    intro v Y t h
    unfold fl_open_display
    rw [if_pos h]
  have hopen : ∀ s1, fl_open_display u X s = some s1 → s1.fl_display ≠ 0 := by
    intro s1 h
    by_cases h0 : s.fl_display ≠ 0
    · rw [hset u X s h0] at h
      rw [← Option.some.inj h]
      exact h0
    · unfold fl_open_display at h
      rw [if_neg h0] at h
      by_cases hd : X.display = 0
      · simp [hd] at h
      · simp only [hd, if_false] at h
        rw [← Option.some.inj h]
        exact hd
  refine ⟨hset u X s, fun s1 h => hset u2 X2 s1 (hopen s1 h), ?_⟩
  intro h0 hd hcov
  have h0n : ¬ s.fl_display ≠ 0 := fun h => h h0
  obtain ⟨s1, hs1⟩ : ∃ s1, fl_open_display u X s = some s1 := by
    unfold fl_open_display
    rw [if_neg h0n]
    simp only [hd, if_false]
    exact ⟨_, rfl⟩
  refine ⟨s1, hs1, hset u2 X2 s1 (hopen s1 hs1), ?_⟩
  have hfds : s1.fds = add_fd X.connection POLLIN fd_callback 0 s.fds := by
    unfold fl_open_display at hs1
    rw [if_neg h0n] at hs1
    simp only [hd, if_false] at hs1
    rw [← Option.some.inj hs1]
  rw [hfds, add_fd_table, filterMap_entry_of_covered hcov, List.filter_append,
    List.filter_filter]
  have : toShort POLLIN = POLLIN := by decide
  simp [this]

/-- C13, the claim as stated fails: in the closed state in which descriptor 3 is
registered for writing (`Fl::add_fd(3, POLLOUT, cb)`), two consecutive opens of the
example server, whose connection is descriptor 3, leave two entries for that
descriptor: `Fl::add_fd` in `fl_open_display` removes only the POLLIN bit of the
older entry, which keeps its POLLOUT bit and its callback. -/
theorem fl_open_display_two_entries_counterexample :
    writerRegistered.fl_display = 0 ∧
    writerRegistered.fds.table = [⟨3, POLLOUT, 20, 0⟩] ∧
    ∃ s1, fl_open_display false exampleServer writerRegistered = some s1 ∧
      fl_open_display false exampleServer s1 = some s1 ∧
      s1.fds.table.filter (fun x => decide (x.fd = 3)) =
        [⟨3, POLLOUT, 20, 0⟩, ⟨3, POLLIN, fd_callback, 0⟩] :=
  ⟨rfl, by decide, _, rfl, rfl, by decide⟩

/-- C13, witness: two opens of the example server from the state at program start. -/
theorem fl_open_display_idempotent_witness :
    ∃ s1, fl_open_display false exampleServer DisplayState.init = some s1 ∧
      fl_open_display false exampleServer s1 = some s1 ∧
      s1.fds.table.filter (fun x => decide (x.fd = 3)) = [⟨3, POLLIN, fd_callback, 0⟩] :=
  (fl_open_display_idempotent false false exampleServer exampleServer DisplayState.init).2.2
    rfl (by decide) (by decide)

/-! ## Theorems: the wait loop -/

/-- The loop of `do_queued_events`, given enough iterations, passes the queued events and
then the arriving ones to `fl_handle`, in order, empties the queue and leaves the
descriptor table alone. -/
theorem do_queued_events_loop_spec {D : Type} : ∀ (k : Nat) (s : WaitState D),
    s.available + 1 ≤ k →
    (do_queued_events_loop k s).calls
      = s.calls ++ (s.queue ++ arriving s.incoming).map WaitCall.fl_handle ∧
    (do_queued_events_loop k s).fds = s.fds ∧
    (do_queued_events_loop k s).queue = [] := by
  intro k
  induction k with
  | zero => intro s h; omega
  | succ k ih =>
    intro s h
    obtain ⟨fds, queue, incoming, initclock, prevclock, numtimeouts, timeout, calls⟩ := s
    cases queue with
    | cons x q =>
      have h2 : (⟨fds, q, incoming, initclock, prevclock, numtimeouts, timeout,
          calls ++ [WaitCall.fl_handle x]⟩ : WaitState D).available + 1 ≤ k := by
        simp only [WaitState.available, List.length_cons] at h ⊢
        omega
      obtain ⟨i1, i2, i3⟩ := ih _ h2
      simp only [do_queued_events_loop, XEventsQueued_QueuedAfterReading, XNextEvent,
        List.length_cons, Nat.succ_ne_zero, if_false]
      refine ⟨?_, i2, i3⟩
      rw [i1]
      simp
    | nil =>
      cases incoming with
      | nil =>
        simp [do_queued_events_loop, XEventsQueued_QueuedAfterReading, arriving]
      | cons b rest =>
        cases b with
        | nil =>
          simp [do_queued_events_loop, XEventsQueued_QueuedAfterReading, arriving]
        | cons x b =>
          have h2 : (⟨fds, b, rest, initclock, prevclock, numtimeouts, timeout,
              calls ++ [WaitCall.fl_handle x]⟩ : WaitState D).available + 1 ≤ k := by
            simp only [WaitState.available, List.length_cons, List.map_cons, List.sum_cons,
              List.length_nil] at h ⊢
            omega
          obtain ⟨i1, i2, i3⟩ := ih _ h2
          simp only [do_queued_events_loop, XEventsQueued_QueuedAfterReading, XNextEvent,
            List.length_cons, Nat.succ_ne_zero, if_false]
          refine ⟨?_, i2, i3⟩
          rw [i1]
          simp [arriving]

/-- The function `do_queued_events` passes the queued events and then the arriving ones
to `fl_handle`, in order, and does nothing else. -/
theorem do_queued_events_spec {D : Type} (s : WaitState D) :
    (do_queued_events s).calls
      = s.calls ++ (s.queue ++ arriving s.incoming).map WaitCall.fl_handle ∧
    (do_queued_events s).fds = s.fds ∧ (do_queued_events s).queue = [] :=
  do_queued_events_loop_spec (s.available + 1) s (Nat.le_refl _)

/-- Every call that `call_cb` adds is a dispatch, the first one the callback itself. -/
theorem call_cb_calls {D : Type} (E : WaitEnv) (x : FD) (s : WaitState D) :
    ∃ L, (call_cb E x s).calls = s.calls ++ WaitCall.callback x.cb x.fd x.arg :: L ∧
      L.all WaitCall.isDispatch = true := by
  unfold call_cb
  simp only []
  by_cases h : x.cb = fd_callback
  · rw [if_pos h]
    refine ⟨(s.queue ++ arriving s.incoming).map WaitCall.fl_handle, ?_, ?_⟩
    · rw [(do_queued_events_spec _).1]
      simp only [List.append_assoc, List.singleton_append]
    · simp [List.all_eq_true, WaitCall.isDispatch]
  · rw [if_neg h]
    exact ⟨[], by simp, rfl⟩

/-- Every call that the dispatch loop of `fl_wait` adds is a dispatch. -/
theorem fl_wait_loop_calls {D : Type} (E : WaitEnv) (r : SelectResult) :
    ∀ (k i : Nat) (s : WaitState D),
    ∃ L, (fl_wait_loop E r k i s).1.calls = s.calls ++ L ∧
      L.all WaitCall.isDispatch = true := by
  intro k
  induction k with
  | zero => intro i s; exact ⟨[], by simp [fl_wait_loop], rfl⟩
  | succ k ih =>
    intro i s
    unfold fl_wait_loop
    by_cases hi : i < s.fds.nfds
    · rw [if_pos hi]
      simp only []
      by_cases hc : bitAnd (s.fds.fd i).events (fl_wait_revents r (s.fds.fd i).fd) ≠ 0
      · rw [if_pos hc]
        obtain ⟨L1, h1, a1⟩ := call_cb_calls E (s.fds.fd i) s
        obtain ⟨L2, h2, a2⟩ := ih (i + 1) (call_cb E (s.fds.fd i) s)
        refine ⟨WaitCall.callback (s.fds.fd i).cb (s.fds.fd i).fd (s.fds.fd i).arg
          :: L1 ++ L2, ?_, ?_⟩
        · rw [h2, h1]; simp
        · simp only [List.all_append, List.all_cons, a1, a2, WaitCall.isDispatch,
            Bool.and_self]
      · rw [if_neg hc]
        exact ih (i + 1) s
    · rw [if_neg hi]
      exact ⟨[], by simp, rfl⟩

/-- The function `fl_elapsed` touches only the clock and the timers. -/
theorem fl_elapsed_frame {D : Type} (A : DoubleOps D) (newclock : timeval)
    (s : WaitState D) :
    (fl_elapsed A newclock s).1.fds = s.fds ∧ (fl_elapsed A newclock s).1.queue = s.queue ∧
    (fl_elapsed A newclock s).1.incoming = s.incoming ∧
    (fl_elapsed A newclock s).1.calls = s.calls := by
  unfold fl_elapsed
  by_cases h : s.initclock = 0
  · rw [if_pos h]
    exact ⟨rfl, rfl, rfl, rfl⟩
  · rw [if_neg h]
    simp only []
    by_cases hp : A.pos (A.elapsed (newclock.tv_sec - s.prevclock.tv_sec)
        (newclock.tv_usec - s.prevclock.tv_usec)) = true
    · rw [if_pos hp]
      exact ⟨rfl, rfl, rfl, rfl⟩
    · rw [if_neg hp]
      exact ⟨rfl, rfl, rfl, rfl⟩

/-- C14, the code at the failing input: the table holds (3, POLLIN, callback 10) and
(4, POLLIN, callback 11), `::select` returns 2 with both descriptors readable, and
callback 10 calls `Fl::remove_fd(3)`.  Then `fl_wait` returns after it has invoked
callback 10 only: the entry of descriptor 4 is ready and still registered, and its
callback 11 is not invoked.  With callbacks that leave the table alone both callbacks
are invoked, in table order. -/
theorem fl_wait_skips_entry_after_self_removal :
    exampleWait.fds.table = [⟨3, 1, 10, 0⟩, ⟨4, 1, 11, 0⟩] ∧
    (fl_wait microseconds selfRemoving 8 false 0 exampleWait).2 = some 0 ∧
    (fl_wait microseconds selfRemoving 8 false 0 exampleWait).1.calls =
      [WaitCall.fl_unlock_function, WaitCall.select 5 [4, 3] [] [] none,
        WaitCall.fl_lock_function, WaitCall.callback 10 3 0] ∧
    (fl_wait microseconds selfRemoving 8 false 0 exampleWait).1.fds.table
      = [⟨4, 1, 11, 0⟩] ∧
    bitAnd 1 (fl_wait_revents (selfRemoving.select 5 [4, 3] [] [] none) 4) ≠ 0 ∧
    (fl_wait microseconds passive 8 false 0 exampleWait).2 = some 0 ∧
    (fl_wait microseconds passive 8 false 0 exampleWait).1.calls =
      [WaitCall.fl_unlock_function, WaitCall.select 5 [4, 3] [] [] none,
        WaitCall.fl_lock_function, WaitCall.callback 10 3 0, WaitCall.callback 11 4 0] := by
  refine ⟨by decide, by decide, by decide, by decide, by decide, by decide, by decide⟩

/-- C15: whenever the native queue is not empty at entry, `fl_wait` returns `time`
after `do_queued_events` has passed the queued events, and then the events that its
reads deliver, to `fl_handle` in queue order; it makes no other call (no `::select`, no
lock hook, no callback), leaves the descriptor table alone and the queue empty. -/
theorem fl_wait_queued_events_first {D : Type} (A : DoubleOps D) (E : WaitEnv) (fuel : Nat)
    (timeout_flag : Bool) (time : D) (s : WaitState D) (hq : s.queue.length ≠ 0) :
    (fl_wait A E fuel timeout_flag time s).2 = some time ∧
    (fl_wait A E fuel timeout_flag time s).1.calls
      = s.calls ++ s.queue.map WaitCall.fl_handle
          ++ (arriving s.incoming).map WaitCall.fl_handle ∧
    (fl_wait A E fuel timeout_flag time s).1.fds = s.fds ∧
    (fl_wait A E fuel timeout_flag time s).1.queue = [] := by
  unfold fl_wait
  rw [if_pos hq]
  obtain ⟨h1, h2, h3⟩ := do_queued_events_spec s
  refine ⟨rfl, ?_, h2, h3⟩
  show (do_queued_events s).calls = _
  rw [h1]
  simp

/-- C15, witness: with two events queued and both
descriptors registered, `fl_wait` hands the two events to `fl_handle` and returns. -/
theorem fl_wait_queued_events_first_witness :
    ({ exampleWait with queue := [nativeEvent MapNotify (press 1 0 0 5000),
        nativeEvent Expose (press 1 0 0 5000)] } : WaitState Int).queue.length ≠ 0 ∧
    (fl_wait microseconds selfRemoving 8 false 0
      { exampleWait with queue := [nativeEvent MapNotify (press 1 0 0 5000),
        nativeEvent Expose (press 1 0 0 5000)] }).1.calls
      = [WaitCall.fl_handle (nativeEvent MapNotify (press 1 0 0 5000)),
         WaitCall.fl_handle (nativeEvent Expose (press 1 0 0 5000))] :=
  ⟨by decide,
   (fl_wait_queued_events_first microseconds selfRemoving 8 false 0
      { exampleWait with queue := [nativeEvent MapNotify (press 1 0 0 5000),
        nativeEvent Expose (press 1 0 0 5000)] } (by decide)).2.1⟩

/-- C16: the calls of every execution of `fl_wait`, cut off or not, are either
dispatches only (no lock hook is called), or `fl_unlock_function`, `::select`,
`fl_lock_function` in direct succession followed by dispatches only: the unlock hook is
called at most once, directly before `::select`, the lock hook directly after it, and no
callback and no `fl_handle` lies between the two. -/
theorem fl_wait_lock_discipline {D : Type} (A : DoubleOps D) (E : WaitEnv) (fuel : Nat)
    (timeout_flag : Bool) (time : D) (s : WaitState D) :
    ∃ L, L.all WaitCall.isDispatch = true ∧
      ((fl_wait A E fuel timeout_flag time s).1.calls = s.calls ++ L ∨
       ∃ t, (fl_wait A E fuel timeout_flag time s).1.calls
         = s.calls ++ [WaitCall.fl_unlock_function,
             WaitCall.select (s.fds.maxfd + 1) s.fds.fdsets0 s.fds.fdsets1 s.fds.fdsets2 t,
             WaitCall.fl_lock_function] ++ L) := by
  unfold fl_wait
  by_cases hq : s.queue.length ≠ 0
  · rw [if_pos hq]
    refine ⟨(s.queue ++ arriving s.incoming).map WaitCall.fl_handle, ?_, Or.inl ?_⟩
    · simp [List.all_eq_true, WaitCall.isDispatch]
    · exact (do_queued_events_spec s).1
  · rw [if_neg hq]
    simp only []
    by_cases hn : (E.select (s.fds.maxfd + 1) s.fds.fdsets0 s.fds.fdsets1 s.fds.fdsets2
        (fl_wait_timeout A timeout_flag time)).n > 0
    · rw [if_pos hn]
      obtain ⟨L, h1, a1⟩ := fl_wait_loop_calls E
        (E.select (s.fds.maxfd + 1) s.fds.fdsets0 s.fds.fdsets1 s.fds.fdsets2
          (fl_wait_timeout A timeout_flag time)) fuel 0
        { s with calls := s.calls ++ [WaitCall.fl_unlock_function]
            ++ [WaitCall.select (s.fds.maxfd + 1) s.fds.fdsets0 s.fds.fdsets1 s.fds.fdsets2
              (fl_wait_timeout A timeout_flag time)] ++ [WaitCall.fl_lock_function] }
      refine ⟨L, a1, Or.inr ⟨fl_wait_timeout A timeout_flag time, ?_⟩⟩
      show (fl_wait_loop E _ fuel 0 _).1.calls = _
      rw [h1]
      simp
    · rw [if_neg hn]
      exact ⟨[], rfl, Or.inr ⟨fl_wait_timeout A timeout_flag time, by simp⟩⟩

/-- For every state, `Fl::ready` leaves the descriptor table and the native queue
unchanged and calls neither `fl_handle` nor a callback; it returns 1 without calling
`::select` when a timer exists and the time of the first timer is `<= 0` after
`fl_elapsed`, or when the queue is not empty; otherwise its only call is
`::select(maxfd+1, ...)` on copies of the three sets with a zero timeout and it returns
the value of that call, which examines the descriptors up to `maxfd` only. -/
theorem ready_checks_without_dispatch {D : Type} (A : DoubleOps D) (E : WaitEnv)
    (s : WaitState D) :
    (ready A E s).1.fds = s.fds ∧ (ready A E s).1.queue = s.queue ∧
    (ready A E s).1.incoming = s.incoming ∧
    ((ready A E s).1.calls = s.calls ∨
     (ready A E s).1.calls = s.calls ++ [WaitCall.select (s.fds.maxfd + 1) s.fds.fdsets0
        s.fds.fdsets1 s.fds.fdsets2 (some { tv_sec := 0, tv_usec := 0 })]) ∧
    (s.numtimeouts ≠ 0 → A.nonpos ((fl_elapsed A E.newclock s).1.timeout 0) = true →
      (ready A E s).2 = 1 ∧ (ready A E s).1.calls = s.calls) ∧
    (s.queue.length ≠ 0 → (ready A E s).2 = 1 ∧ (ready A E s).1.calls = s.calls) ∧
    (¬ (s.numtimeouts ≠ 0 ∧ A.nonpos ((fl_elapsed A E.newclock s).1.timeout 0) = true) →
      s.queue.length = 0 →
      (ready A E s).2 = (E.select (s.fds.maxfd + 1) s.fds.fdsets0 s.fds.fdsets1
        s.fds.fdsets2 (some { tv_sec := 0, tv_usec := 0 })).n ∧
      (ready A E s).1.calls = s.calls ++ [WaitCall.select (s.fds.maxfd + 1) s.fds.fdsets0
        s.fds.fdsets1 s.fds.fdsets2 (some { tv_sec := 0, tv_usec := 0 })]) ∧
    (s.numtimeouts = 0 → (ready A E s).1.timeout = s.timeout ∧
      (ready A E s).1.initclock = s.initclock ∧ (ready A E s).1.prevclock = s.prevclock) := by
  obtain ⟨f1, f2, f3, f4⟩ := fl_elapsed_frame A E.newclock s
  by_cases hn : s.numtimeouts ≠ 0
  · have hs1 : (if s.numtimeouts ≠ 0 then (fl_elapsed A E.newclock s).1 else s)
        = (fl_elapsed A E.newclock s).1 := if_pos hn
    by_cases ht : A.nonpos ((fl_elapsed A E.newclock s).1.timeout 0) = true
    · have hr : ready A E s = ((fl_elapsed A E.newclock s).1, 1) := by
        unfold ready
        simp only []
        rw [hs1, if_pos ⟨hn, ht⟩]
      rw [hr]
      refine ⟨f1, f2, f3, Or.inl f4, fun _ _ => ⟨rfl, f4⟩, fun _ => ⟨rfl, f4⟩, ?_, ?_⟩
      · intro h; exact absurd ⟨hn, ht⟩ h
      · intro h; exact absurd h hn
    · by_cases hq : s.queue.length ≠ 0
      · have hr : ready A E s = ((fl_elapsed A E.newclock s).1, 1) := by
          unfold ready
          simp only []
          rw [hs1, if_neg (fun h => ht h.2), f2, if_pos hq]
        rw [hr]
        refine ⟨f1, f2, f3, Or.inl f4, fun _ _ => ⟨rfl, f4⟩, fun _ => ⟨rfl, f4⟩, ?_, ?_⟩
        · intro _ h; exact absurd h hq
        · intro h; exact absurd h hn
      · have hr : ready A E s =
            ({ (fl_elapsed A E.newclock s).1 with
                calls := s.calls ++ [WaitCall.select (s.fds.maxfd + 1) s.fds.fdsets0
                  s.fds.fdsets1 s.fds.fdsets2 (some { tv_sec := 0, tv_usec := 0 })] },
              (E.select (s.fds.maxfd + 1) s.fds.fdsets0 s.fds.fdsets1
                s.fds.fdsets2 (some { tv_sec := 0, tv_usec := 0 })).n) := by
          unfold ready
          simp only []
          rw [hs1, if_neg (fun h => ht h.2), f2, if_neg hq, f1, f4]
        rw [hr]
        refine ⟨f1, f2, f3, Or.inr rfl, fun _ h => absurd h ht, fun h => absurd h hq,
          fun _ _ => ⟨rfl, rfl⟩, ?_⟩
        intro h; exact absurd h hn
  · have hs1 : (if s.numtimeouts ≠ 0 then (fl_elapsed A E.newclock s).1 else s) = s :=
      if_neg hn
    by_cases hq : s.queue.length ≠ 0
    · have hr : ready A E s = (s, 1) := by
        unfold ready
        simp only []
        rw [hs1, if_neg (fun h => hn h.1), if_pos hq]
      rw [hr]
      refine ⟨rfl, rfl, rfl, Or.inl rfl, fun h => absurd h hn, fun _ => ⟨rfl, rfl⟩, ?_,
        fun _ => ⟨rfl, rfl, rfl⟩⟩
      intro _ h; exact absurd h hq
    · have hr : ready A E s =
          ({ s with
              calls := s.calls ++ [WaitCall.select (s.fds.maxfd + 1) s.fds.fdsets0
                s.fds.fdsets1 s.fds.fdsets2 (some { tv_sec := 0, tv_usec := 0 })] },
            (E.select (s.fds.maxfd + 1) s.fds.fdsets0 s.fds.fdsets1
              s.fds.fdsets2 (some { tv_sec := 0, tv_usec := 0 })).n) := by
        unfold ready
        simp only []
        rw [hs1, if_neg (fun h => hn h.1), if_neg hq]
      rw [hr]
      exact ⟨rfl, rfl, rfl, Or.inr rfl, fun h => absurd h hn, fun h => absurd h hq,
        fun _ _ => ⟨rfl, rfl⟩, fun _ => ⟨rfl, rfl, rfl⟩⟩

/-- Example: with no timer and an empty queue, `Fl::ready` returns what `::select`
reports for the two registered descriptors, 2. -/
theorem ready_checks_without_dispatch_witness :
    ¬ (exampleWait.numtimeouts ≠ 0 ∧
        microseconds.nonpos ((fl_elapsed microseconds passive.newclock exampleWait).1.timeout 0)
          = true) ∧
    exampleWait.queue.length = 0 ∧
    (ready microseconds passive exampleWait).2 = 2 ∧
    (ready microseconds passive exampleWait).1.calls
      = [WaitCall.select 5 [4, 3] [] [] (some { tv_sec := 0, tv_usec := 0 })] :=
  ⟨by decide, by decide,
   ((ready_checks_without_dispatch microseconds passive exampleWait).2.2.2.2.2.2.1
      (by decide) (by decide)).1,
   ((ready_checks_without_dispatch microseconds passive exampleWait).2.2.2.2.2.2.1
      (by decide) (by decide)).2⟩

/-- C17, the code at the failing input: after `Fl::add_fd(5, POLLIN|POLLOUT, cb, v)` and
`Fl::remove_fd(5, POLLOUT)` descriptor 5 is still registered for reading (it has its
entry in the table and its bit in `fdsets[0]`), but `maxfd` is 4.  With no timer, an
empty queue and descriptor 5 readable, `Fl::ready` calls `::select(5, ...)`, which
examines the descriptors 0 to 4 only, and returns 0; a zero-timeout `::select` over
the registered descriptor, `::select(6, ...)`, returns 1. -/
theorem ready_misses_registered_descriptor :
    partlyRemoved.fds.table = [⟨5, 1, 1, 2⟩] ∧
    partlyRemoved.fds.fdsets0 = [5] ∧
    partlyRemoved.fds.maxfd = 4 ∧
    partlyRemoved.numtimeouts = 0 ∧ partlyRemoved.queue = [] ∧
    (ready microseconds fiveReadable partlyRemoved).2 = 0 ∧
    (ready microseconds fiveReadable partlyRemoved).1.calls =
      [WaitCall.select 5 [5] [] [] (some { tv_sec := 0, tv_usec := 0 })] ∧
    (fiveReadable.select 5 [5] [] [] (some { tv_sec := 0, tv_usec := 0 })).n = 0 ∧
    (fiveReadable.select 6 [5] [] [] (some { tv_sec := 0, tv_usec := 0 })).n = 1 := by
  decide

/-! ## Theorems: the event handler -/

/-- The event code of the key arm. -/
theorem fl_handle_Key_event (K : Platform) (Q : Keys) (env : HandleEnv) (xe : NativeEvent)
    (s : HandleState) :
    (fl_handle_Key K Q env xe s).2 =
      if xe.type = KeyPress then FlEvent.FL_KEYBOARD else FlEvent.FL_KEYUP := by
  unfold fl_handle_Key
  simp only []
  split <;> rfl

/-- The way `fl_handle` returns, arm by arm. -/
theorem fl_handle_result (K : Platform) (Q : Keys) (env : HandleEnv) (xe : NativeEvent)
    (s : HandleState) :
    (fl_handle K Q env xe s).2 =
      if xe.type = KeymapNotify then HandleResult.returned 0
      else if xe.type = MappingNotify then HandleResult.returned 0
      else if env.fl_find (fl_handle_xid xe) ≠ 0 then
        if xe.type = ClientMessage then
          HandleResult.forwarded
            (if xe.client_data0 = s.wm_delete_window then FlEvent.FL_CLOSE
             else FlEvent.NO_EVENT) (env.fl_find (fl_handle_xid xe))
        else if xe.type = MapNotify then
          HandleResult.forwarded FlEvent.FL_SHOW (env.fl_find (fl_handle_xid xe))
        else if xe.type = UnmapNotify then
          HandleResult.forwarded FlEvent.FL_HIDE (env.fl_find (fl_handle_xid xe))
        else if xe.type = Expose then HandleResult.returned 1
        else if xe.type = GraphicsExpose then HandleResult.returned 1
        else if xe.type = ButtonPress then
          HandleResult.forwarded (fl_handle_ButtonPress K env.pushed xe.ptr s.ev).2
            (env.fl_find (fl_handle_xid xe))
        else if xe.type = MotionNotify then
          HandleResult.forwarded FlEvent.FL_MOVE (env.fl_find (fl_handle_xid xe))
        else if xe.type = ButtonRelease then
          HandleResult.forwarded (fl_handle_ButtonRelease K env.pushed xe.ptr s.ev).2
            (env.fl_find (fl_handle_xid xe))
        else if xe.type = FocusIn then
          HandleResult.forwarded FlEvent.FL_FOCUS (env.fl_find (fl_handle_xid xe))
        else if xe.type = FocusOut then
          HandleResult.forwarded FlEvent.FL_UNFOCUS (env.fl_find (fl_handle_xid xe))
        else if xe.type = KeyPress ∨ xe.type = KeyRelease then
          HandleResult.forwarded
            (if xe.type = KeyPress then FlEvent.FL_KEYBOARD else FlEvent.FL_KEYUP)
            (env.fl_find (fl_handle_xid xe))
        else if xe.type = EnterNotify then
          HandleResult.forwarded
            (if xe.ptr.detail = NotifyInferior then FlEvent.NO_EVENT else FlEvent.FL_ENTER)
            (env.fl_find (fl_handle_xid xe))
        else if xe.type = LeaveNotify then
          HandleResult.forwarded
            (if xe.ptr.detail = NotifyInferior then FlEvent.NO_EVENT else FlEvent.FL_LEAVE)
            (env.fl_find (fl_handle_xid xe))
        else if xe.type = ConfigureNotify then HandleResult.returned 1
        else HandleResult.forwarded FlEvent.NO_EVENT (env.fl_find (fl_handle_xid xe))
      else HandleResult.forwarded FlEvent.NO_EVENT (env.fl_find (fl_handle_xid xe)) := by
  unfold fl_handle
  simp only []
  by_cases h1 : xe.type = KeymapNotify
  · rw [if_pos h1, if_pos h1]
  rw [if_neg h1, if_neg h1]
  by_cases h2 : xe.type = MappingNotify
  · rw [if_pos h2, if_pos h2]
  rw [if_neg h2, if_neg h2]
  by_cases hw : env.fl_find (fl_handle_xid xe) ≠ 0
  swap
  · rw [if_neg hw, if_neg hw]
  rw [if_pos hw, if_pos hw]
  by_cases h3 : xe.type = ClientMessage
  · rw [if_pos h3, if_pos h3]
  rw [if_neg h3, if_neg h3]
  by_cases h4 : xe.type = MapNotify
  · rw [if_pos h4, if_pos h4]
  rw [if_neg h4, if_neg h4]
  by_cases h5 : xe.type = UnmapNotify
  · rw [if_pos h5, if_pos h5]
  rw [if_neg h5, if_neg h5]
  by_cases h6 : xe.type = Expose
  · rw [if_pos h6, if_pos h6]
  rw [if_neg h6, if_neg h6]
  by_cases h7 : xe.type = GraphicsExpose
  · rw [if_pos h7, if_pos h7]
  rw [if_neg h7, if_neg h7]
  by_cases h8 : xe.type = ButtonPress
  · rw [if_pos h8, if_pos h8]
  rw [if_neg h8, if_neg h8]
  by_cases h9 : xe.type = MotionNotify
  · rw [if_pos h9, if_pos h9]
    rfl
  rw [if_neg h9, if_neg h9]
  by_cases h10 : xe.type = ButtonRelease
  · rw [if_pos h10, if_pos h10]
  rw [if_neg h10, if_neg h10]
  by_cases h11 : xe.type = FocusIn
  · rw [if_pos h11, if_pos h11]
  rw [if_neg h11, if_neg h11]
  by_cases h12 : xe.type = FocusOut
  · rw [if_pos h12, if_pos h12]
  rw [if_neg h12, if_neg h12]
  by_cases h13 : xe.type = KeyPress ∨ xe.type = KeyRelease
  · rw [if_pos h13, if_pos h13, fl_handle_Key_event]
  rw [if_neg h13, if_neg h13]
  by_cases h14 : xe.type = EnterNotify
  · rw [if_pos h14, if_pos h14]
    unfold fl_handle_EnterNotify
    split <;> rfl
  rw [if_neg h14, if_neg h14]
  by_cases h15 : xe.type = LeaveNotify
  · rw [if_pos h15, if_pos h15]
    unfold fl_handle_LeaveNotify
    split <;> rfl
  rw [if_neg h15, if_neg h15]
  by_cases h16 : xe.type = ConfigureNotify
  · rw [if_pos h16, if_pos h16]
  rw [if_neg h16, if_neg h16]

/-- C18: for every native event, `KeymapNotify` and `MappingNotify` make `fl_handle`
return 0; for an event whose window is known, `Expose`, `GraphicsExpose` and
`ConfigureNotify` make it return 1 without calling `Fl::handle`, and the code
forwarded to `Fl::handle` is FL_SHOW for MapNotify, FL_HIDE for UnmapNotify, FL_FOCUS
for FocusIn, FL_UNFOCUS for FocusOut, FL_MOVE for MotionNotify, FL_KEYBOARD for
KeyPress, FL_KEYUP for KeyRelease, FL_ENTER for EnterNotify and FL_LEAVE for
LeaveNotify (0 when the crossing detail is NotifyInferior), and for ClientMessage
FL_CLOSE exactly when the first data word is the WM_DELETE_WINDOW atom (0 otherwise);
every forwarded code is 0 or one of the thirteen codes. -/
theorem fl_handle_event_codes (K : Platform) (Q : Keys) (env : HandleEnv) (xe : NativeEvent)
    (s : HandleState) :
    (xe.type = KeymapNotify ∨ xe.type = MappingNotify →
      (fl_handle K Q env xe s).2 = HandleResult.returned 0) ∧
    (env.fl_find (fl_handle_xid xe) ≠ 0 →
      (xe.type = Expose ∨ xe.type = GraphicsExpose ∨ xe.type = ConfigureNotify →
        (fl_handle K Q env xe s).2 = HandleResult.returned 1) ∧
      (xe.type = MapNotify → (fl_handle K Q env xe s).2 =
        HandleResult.forwarded FlEvent.FL_SHOW (env.fl_find (fl_handle_xid xe))) ∧
      (xe.type = UnmapNotify → (fl_handle K Q env xe s).2 =
        HandleResult.forwarded FlEvent.FL_HIDE (env.fl_find (fl_handle_xid xe))) ∧
      (xe.type = FocusIn → (fl_handle K Q env xe s).2 =
        HandleResult.forwarded FlEvent.FL_FOCUS (env.fl_find (fl_handle_xid xe))) ∧
      (xe.type = FocusOut → (fl_handle K Q env xe s).2 =
        HandleResult.forwarded FlEvent.FL_UNFOCUS (env.fl_find (fl_handle_xid xe))) ∧
      (xe.type = MotionNotify → (fl_handle K Q env xe s).2 =
        HandleResult.forwarded FlEvent.FL_MOVE (env.fl_find (fl_handle_xid xe))) ∧
      (xe.type = KeyPress → (fl_handle K Q env xe s).2 =
        HandleResult.forwarded FlEvent.FL_KEYBOARD (env.fl_find (fl_handle_xid xe))) ∧
      (xe.type = KeyRelease → (fl_handle K Q env xe s).2 =
        HandleResult.forwarded FlEvent.FL_KEYUP (env.fl_find (fl_handle_xid xe))) ∧
      (xe.type = EnterNotify → (fl_handle K Q env xe s).2 =
        HandleResult.forwarded
          (if xe.ptr.detail = NotifyInferior then FlEvent.NO_EVENT else FlEvent.FL_ENTER)
          (env.fl_find (fl_handle_xid xe))) ∧
      (xe.type = LeaveNotify → (fl_handle K Q env xe s).2 =
        HandleResult.forwarded
          (if xe.ptr.detail = NotifyInferior then FlEvent.NO_EVENT else FlEvent.FL_LEAVE)
          (env.fl_find (fl_handle_xid xe))) ∧
      (xe.type = ClientMessage → (fl_handle K Q env xe s).2 =
        HandleResult.forwarded
          (if xe.client_data0 = s.wm_delete_window then FlEvent.FL_CLOSE
           else FlEvent.NO_EVENT)
          (env.fl_find (fl_handle_xid xe)))) ∧
    (∀ e w, (fl_handle K Q env xe s).2 = HandleResult.forwarded e w →
      e ∈ [FlEvent.NO_EVENT, FlEvent.FL_PUSH, FlEvent.FL_RELEASE, FlEvent.FL_MOVE,
        FlEvent.FL_ENTER, FlEvent.FL_LEAVE, FlEvent.FL_FOCUS, FlEvent.FL_UNFOCUS,
        FlEvent.FL_KEYBOARD, FlEvent.FL_KEYUP, FlEvent.FL_SHOW, FlEvent.FL_HIDE,
        FlEvent.FL_CLOSE, FlEvent.FL_VIEWCHANGE]) := by
  have hr := fl_handle_result K Q env xe s
  refine ⟨?_, ?_, ?_⟩
  · rintro (h | h) <;> rw [hr] <;> simp [h, KeymapNotify, MappingNotify]
  · intro hw
    refine ⟨?_, ?_, ?_, ?_, ?_, ?_, ?_, ?_, ?_, ?_, ?_⟩
    · rintro (h | h | h) <;> rw [hr] <;>
        simp [h, hw, KeymapNotify, MappingNotify, ClientMessage, MapNotify,
          UnmapNotify, Expose, GraphicsExpose, ButtonPress, MotionNotify, ButtonRelease,
          FocusIn, FocusOut, KeyPress, KeyRelease, EnterNotify, LeaveNotify, ConfigureNotify]
    all_goals
      intro h
      rw [hr]
      simp [h, hw, KeymapNotify, MappingNotify, ClientMessage, MapNotify,
        UnmapNotify, Expose, GraphicsExpose, ButtonPress, MotionNotify, ButtonRelease,
        FocusIn, FocusOut, KeyPress, KeyRelease, EnterNotify, LeaveNotify, ConfigureNotify]
  · intro e w _
    cases e <;> simp

/-- C18, witness: on the example surroundings a `MapNotify` is
forwarded to `Fl::handle` as FL_SHOW for window 7. -/
theorem fl_handle_event_codes_witness :
    exampleEnv.fl_find (fl_handle_xid (nativeEvent MapNotify (press 1 0 0 5000))) ≠ 0 ∧
    (fl_handle lp64 exampleKeys exampleEnv (nativeEvent MapNotify (press 1 0 0 5000))
      (HandleState.init 100)).2 = HandleResult.forwarded FlEvent.FL_SHOW 7 :=
  ⟨by decide,
   ((fl_handle_event_codes lp64 exampleKeys exampleEnv
      (nativeEvent MapNotify (press 1 0 0 5000)) (HandleState.init 100)).2.1
        (by decide)).2.1 rfl⟩

theorem nat_or_and_self (a b : Nat) : (a ||| b) &&& b = b := by
  apply Nat.eq_of_testBit_eq
  intro i
  simp only [Nat.testBit_and, Nat.testBit_or]
  cases a.testBit i <;> cases b.testBit i <;> rfl

theorem nat_and_compl_and_self (a b : Nat) (hb : b < 4294967296) :
    (a &&& (4294967295 - b)) &&& b = 0 := by
  have h32 : (4294967296 : Nat) = 2 ^ 32 := by norm_num
  have hsub : 4294967295 - b = 2 ^ 32 - (b + 1) := by omega
  apply Nat.eq_of_testBit_eq
  intro i
  rw [hsub]
  rw [h32] at hb
  simp only [Nat.testBit_and, Nat.testBit_two_pow_sub_succ hb, Nat.zero_testBit]
  cases a.testBit i <;> cases b.testBit i <;> simp

/-- The statics after `fl_handle` on a `ButtonPress` or `ButtonRelease` of a known
window are those of the arm. -/
theorem fl_handle_button_state (K : Platform) (Q : Keys) (env : HandleEnv) (xe : NativeEvent)
    (s : HandleState) (hw : env.fl_find (fl_handle_xid xe) ≠ 0) :
    (xe.type = ButtonPress →
      (fl_handle K Q env xe s).1.ev = (fl_handle_ButtonPress K env.pushed xe.ptr s.ev).1) ∧
    (xe.type = ButtonRelease →
      (fl_handle K Q env xe s).1.ev = (fl_handle_ButtonRelease K env.pushed xe.ptr s.ev).1) := by
  constructor
  · intro h
    unfold fl_handle
    simp only []
    rw [if_neg (by rw [h]; decide), if_neg (by rw [h]; decide), if_pos hw,
      if_neg (by rw [h]; decide), if_neg (by rw [h]; decide), if_neg (by rw [h]; decide),
      if_neg (by rw [h]; decide), if_neg (by rw [h]; decide), if_pos h]
  · intro h
    unfold fl_handle
    simp only []
    rw [if_neg (by rw [h]; decide), if_neg (by rw [h]; decide), if_pos hw,
      if_neg (by rw [h]; decide), if_neg (by rw [h]; decide), if_neg (by rw [h]; decide),
      if_neg (by rw [h]; decide), if_neg (by rw [h]; decide), if_neg (by rw [h]; decide),
      if_neg (by rw [h]; decide), if_pos h]

/-- The state word after `set_event_xy` and `checkdouble`. -/
theorem checkdouble_set_event_xy_state (K : Platform) (q : Bool) (ev : XEvent)
    (s : EventState) :
    (checkdouble (set_event_xy K q ev s)).e_state = (ev.state <<< 16) % 4294967296 ∧
    (set_event_xy K q ev s).e_state = (ev.state <<< 16) % 4294967296 := by
  unfold checkdouble set_event_xy
  simp only []
  constructor <;> split_ifs <;> rfl

/-- The `ButtonPress` arm, button by button. -/
theorem fl_handle_ButtonPress_arm (K : Platform) (q : Bool) (ev : XEvent) (s : EventState) :
    (ev.button = fl_mousewheel_up →
      (fl_handle_ButtonPress K q ev s).2 = FlEvent.FL_VIEWCHANGE ∧
      (fl_handle_ButtonPress K q ev s).1.e_dy = -42 ∧
      (fl_handle_ButtonPress K q ev s).1.e_state = (ev.state <<< 16) % 4294967296) ∧
    (ev.button = fl_mousewheel_down →
      (fl_handle_ButtonPress K q ev s).2 = FlEvent.FL_VIEWCHANGE ∧
      (fl_handle_ButtonPress K q ev s).1.e_dy = 42 ∧
      (fl_handle_ButtonPress K q ev s).1.e_state = (ev.state <<< 16) % 4294967296) ∧
    (ev.button ≠ fl_mousewheel_up → ev.button ≠ fl_mousewheel_down →
      (fl_handle_ButtonPress K q ev s).2 = FlEvent.FL_PUSH ∧
      (fl_handle_ButtonPress K q ev s).1.e_state =
        (ev.state <<< 16) % 4294967296 ||| (K.FL_BUTTON1 <<< (ev.button - 1)) % 4294967296) := by
  have hst := fun e => (checkdouble_set_event_xy_state K q ev e).1
  refine ⟨?_, ?_, ?_⟩
  · intro hb
    unfold fl_handle_ButtonPress
    simp only []
    rw [if_pos hb]
    exact ⟨rfl, rfl, hst _⟩
  · intro hb
    have hne : ¬ ev.button = fl_mousewheel_up := by rw [hb]; decide
    unfold fl_handle_ButtonPress
    simp only []
    rw [if_neg hne, if_pos hb]
    exact ⟨rfl, rfl, hst _⟩
  · intro hu hd
    unfold fl_handle_ButtonPress
    simp only []
    rw [if_neg hu, if_neg hd]
    refine ⟨rfl, ?_⟩
    show (checkdouble _).e_state ||| _ = _
    rw [hst]

/-- The `ButtonRelease` arm, button by button. -/
theorem fl_handle_ButtonRelease_arm (K : Platform) (q : Bool) (ev : XEvent) (s : EventState) :
    (ev.button = fl_mousewheel_up ∨ ev.button = fl_mousewheel_down →
      (fl_handle_ButtonRelease K q ev s).2 = FlEvent.NO_EVENT ∧
      (fl_handle_ButtonRelease K q ev s).1.e_state = (ev.state <<< 16) % 4294967296) ∧
    (ev.button ≠ fl_mousewheel_up → ev.button ≠ fl_mousewheel_down →
      (fl_handle_ButtonRelease K q ev s).2 = FlEvent.FL_RELEASE ∧
      (fl_handle_ButtonRelease K q ev s).1.e_state =
        (ev.state <<< 16) % 4294967296
          &&& (4294967295 - (K.FL_BUTTON1 <<< (ev.button - 1)) % 4294967296)) := by
  have hst := fun e => (checkdouble_set_event_xy_state K q ev e).2
  constructor
  · intro hb
    unfold fl_handle_ButtonRelease
    simp only []
    rw [if_pos hb]
    exact ⟨rfl, hst _⟩
  · intro hu hd
    have hb : ¬ (ev.button = fl_mousewheel_up ∨ ev.button = fl_mousewheel_down) := by
      rintro (h1 | h1)
      · exact hu h1
      · exact hd h1
    unfold fl_handle_ButtonRelease
    simp only []
    rw [if_neg hb]
    refine ⟨rfl, ?_⟩
    show (set_event_xy _ _ _ _).e_state &&& _ = _
    rw [hst]

/-- C19: for every `ButtonPress` on a known window, button `fl_mousewheel_up` (4)
dispatches FL_VIEWCHANGE with `Fl::e_dy` = -42, button `fl_mousewheel_down` (5)
FL_VIEWCHANGE with `Fl::e_dy` = +42, in both cases with `Fl::e_state` the shifted
event state and no button bit added; any other button b dispatches FL_PUSH with the
bit `FL_BUTTON1 << (b-1)` set in `Fl::e_state`.  For every `ButtonRelease` a wheel
button dispatches the code 0, any other button b dispatches FL_RELEASE with that bit
cleared in `Fl::e_state`. -/
theorem fl_handle_buttons (K : Platform) (Q : Keys) (env : HandleEnv) (xe : NativeEvent)
    (s : HandleState) (hw : env.fl_find (fl_handle_xid xe) ≠ 0) :
    (xe.type = ButtonPress →
      (xe.ptr.button = fl_mousewheel_up →
        (fl_handle K Q env xe s).2 =
          HandleResult.forwarded FlEvent.FL_VIEWCHANGE (env.fl_find (fl_handle_xid xe)) ∧
        (fl_handle K Q env xe s).1.ev.e_dy = -42 ∧
        (fl_handle K Q env xe s).1.ev.e_state = (xe.ptr.state <<< 16) % 4294967296) ∧
      (xe.ptr.button = fl_mousewheel_down →
        (fl_handle K Q env xe s).2 =
          HandleResult.forwarded FlEvent.FL_VIEWCHANGE (env.fl_find (fl_handle_xid xe)) ∧
        (fl_handle K Q env xe s).1.ev.e_dy = 42 ∧
        (fl_handle K Q env xe s).1.ev.e_state = (xe.ptr.state <<< 16) % 4294967296) ∧
      (xe.ptr.button ≠ fl_mousewheel_up → xe.ptr.button ≠ fl_mousewheel_down →
        (fl_handle K Q env xe s).2 =
          HandleResult.forwarded FlEvent.FL_PUSH (env.fl_find (fl_handle_xid xe)) ∧
        (fl_handle K Q env xe s).1.ev.e_state =
          (xe.ptr.state <<< 16) % 4294967296
            ||| (K.FL_BUTTON1 <<< (xe.ptr.button - 1)) % 4294967296 ∧
        (fl_handle K Q env xe s).1.ev.e_state
            &&& (K.FL_BUTTON1 <<< (xe.ptr.button - 1)) % 4294967296
          = (K.FL_BUTTON1 <<< (xe.ptr.button - 1)) % 4294967296)) ∧
    (xe.type = ButtonRelease →
      (xe.ptr.button = fl_mousewheel_up ∨ xe.ptr.button = fl_mousewheel_down →
        (fl_handle K Q env xe s).2 =
          HandleResult.forwarded FlEvent.NO_EVENT (env.fl_find (fl_handle_xid xe)) ∧
        (fl_handle K Q env xe s).1.ev.e_state = (xe.ptr.state <<< 16) % 4294967296) ∧
      (xe.ptr.button ≠ fl_mousewheel_up → xe.ptr.button ≠ fl_mousewheel_down →
        (fl_handle K Q env xe s).2 =
          HandleResult.forwarded FlEvent.FL_RELEASE (env.fl_find (fl_handle_xid xe)) ∧
        (fl_handle K Q env xe s).1.ev.e_state =
          (xe.ptr.state <<< 16) % 4294967296
            &&& (4294967295 - (K.FL_BUTTON1 <<< (xe.ptr.button - 1)) % 4294967296) ∧
        (fl_handle K Q env xe s).1.ev.e_state
            &&& (K.FL_BUTTON1 <<< (xe.ptr.button - 1)) % 4294967296 = 0)) := by
  have hr := fl_handle_result K Q env xe s
  obtain ⟨hsp, hsr⟩ := fl_handle_button_state K Q env xe s hw
  constructor
  · intro h
    have hres : (fl_handle K Q env xe s).2 = HandleResult.forwarded
        (fl_handle_ButtonPress K env.pushed xe.ptr s.ev).2
        (env.fl_find (fl_handle_xid xe)) := by
      rw [hr]
      simp [h, hw, KeymapNotify, MappingNotify, ClientMessage, MapNotify, UnmapNotify,
        Expose, GraphicsExpose, ButtonPress]
    obtain ⟨a1, a2, a3⟩ := fl_handle_ButtonPress_arm K env.pushed xe.ptr s.ev
    rw [hres, hsp h]
    refine ⟨?_, ?_, ?_⟩
    · intro hb
      obtain ⟨b1, b2, b3⟩ := a1 hb
      exact ⟨by rw [b1], b2, b3⟩
    · intro hb
      obtain ⟨b1, b2, b3⟩ := a2 hb
      exact ⟨by rw [b1], b2, b3⟩
    · intro hu hd
      obtain ⟨b1, b2⟩ := a3 hu hd
      refine ⟨by rw [b1], b2, ?_⟩
      rw [b2]
      exact nat_or_and_self _ _
  · intro h
    have hres : (fl_handle K Q env xe s).2 = HandleResult.forwarded
        (fl_handle_ButtonRelease K env.pushed xe.ptr s.ev).2
        (env.fl_find (fl_handle_xid xe)) := by
      rw [hr]
      simp [h, hw, KeymapNotify, MappingNotify, ClientMessage, MapNotify, UnmapNotify,
        Expose, GraphicsExpose, ButtonPress, MotionNotify, ButtonRelease]
    obtain ⟨a1, a2⟩ := fl_handle_ButtonRelease_arm K env.pushed xe.ptr s.ev
    rw [hres, hsr h]
    constructor
    · intro hb
      obtain ⟨b1, b2⟩ := a1 hb
      exact ⟨by rw [b1], b2⟩
    · intro hu hd
      obtain ⟨b1, b2⟩ := a2 hu hd
      refine ⟨by rw [b1], b2, ?_⟩
      rw [b2]
      exact nat_and_compl_and_self _ _ (Nat.mod_lt _ (by norm_num))

/-- C19, witness: on the example surroundings a press of button 1
is forwarded as FL_PUSH and a press of the wheel button 4 as FL_VIEWCHANGE. -/
theorem fl_handle_buttons_witness :
    exampleEnv.fl_find (fl_handle_xid (nativeEvent ButtonPress (press 1 0 0 5000))) ≠ 0 ∧
    (fl_handle lp64 exampleKeys exampleEnv (nativeEvent ButtonPress (press 1 0 0 5000))
      (HandleState.init 100)).2 = HandleResult.forwarded FlEvent.FL_PUSH 7 ∧
    (fl_handle lp64 exampleKeys exampleEnv (nativeEvent ButtonPress (press 4 0 0 5000))
      (HandleState.init 100)).1.ev.e_dy = -42 :=
  ⟨by decide,
   ((fl_handle_buttons lp64 exampleKeys exampleEnv
      (nativeEvent ButtonPress (press 1 0 0 5000)) (HandleState.init 100)
        (by decide)).1 rfl).2.2 (by decide) (by decide) |>.1,
   ((fl_handle_buttons lp64 exampleKeys exampleEnv
      (nativeEvent ButtonPress (press 4 0 0 5000)) (HandleState.init 100)
        (by decide)).1 rfl).1 rfl |>.2.1⟩

/-! ## Theorems: the base graphics driver -/

/-- C20: on the base `Fl_Graphics_Driver` each of point, rect, rectf, line, xyline,
yxline, loop, polygon, push_clip, push_no_clip, pop_clip, vertex, transformed_vertex,
gap, begin_complex_polygon and the end operations returns, for every argument, and
leaves the driver unchanged; of the operations considered only `color(c)` and
`font(face, size)` change it: `color(c)` sets `color_` alone, after which `color()`
is c, and `font(face, size)` sets `font_` and `size_` alone, after which `font()` is
face, `size()` is size and `height()` equals `size()`. -/
theorem base_driver_primitives_are_noops {D : Type} (d : Fl_Graphics_Driver) :
    (∀ op : DriverOp D, op.isPrimitive = true → Fl_Graphics_Driver.run op d = d) ∧
    (∀ op : DriverOp D, Fl_Graphics_Driver.run op d ≠ d →
      (∃ c, op = DriverOp.color c) ∨ (∃ face fsize, op = DriverOp.font face fsize)) ∧
    (∀ c : Nat,
      Fl_Graphics_Driver.run (DriverOp.color c : DriverOp D) d = { d with color_ := c } ∧
      (Fl_Graphics_Driver.run (DriverOp.color c : DriverOp D) d).color = c) ∧
    (∀ face fsize : Int,
      Fl_Graphics_Driver.run (DriverOp.font face fsize : DriverOp D) d
        = { d with font_ := face, size_ := fsize } ∧
      (Fl_Graphics_Driver.run (DriverOp.font face fsize : DriverOp D) d).font = face ∧
      (Fl_Graphics_Driver.run (DriverOp.font face fsize : DriverOp D) d).size = fsize ∧
      (Fl_Graphics_Driver.run (DriverOp.font face fsize : DriverOp D) d).height
        = (Fl_Graphics_Driver.run (DriverOp.font face fsize : DriverOp D) d).size) := by
  refine ⟨?_, ?_, fun c => ⟨rfl, rfl⟩, fun face fsize => ⟨rfl, rfl, rfl, rfl⟩⟩
  · intro op hop
    cases op <;> first | rfl | exact absurd hop (by simp [DriverOp.isPrimitive])
  · intro op hne
    cases op with
    | color c => exact Or.inl ⟨c, rfl⟩
    | font face fsize => exact Or.inr ⟨face, fsize, rfl⟩
    | _ => exact absurd rfl hne

/-- C20, witness: `rectf(1, 2, 3, 4)` and `vertex(1, 2)` on a driver with color 5. -/
theorem base_driver_primitives_are_noops_witness :
    Fl_Graphics_Driver.run (DriverOp.rectf 1 2 3 4 : DriverOp Int)
      { fl_clip_state_number := 0, font_ := 1, size_ := 14, color_ := 5, sptr := 0, n := 0,
        gap_ := 0, what := 0, rstackptr := 0, font_descriptor_ := 77 }
      = { fl_clip_state_number := 0, font_ := 1, size_ := 14, color_ := 5, sptr := 0, n := 0,
          gap_ := 0, what := 0, rstackptr := 0, font_descriptor_ := 77 } ∧
    Fl_Graphics_Driver.run (DriverOp.vertex 1 2 : DriverOp Int)
      { fl_clip_state_number := 0, font_ := 1, size_ := 14, color_ := 5, sptr := 0, n := 0,
        gap_ := 0, what := 0, rstackptr := 0, font_descriptor_ := 77 }
      = { fl_clip_state_number := 0, font_ := 1, size_ := 14, color_ := 5, sptr := 0, n := 0,
          gap_ := 0, what := 0, rstackptr := 0, font_descriptor_ := 77 } :=
  ⟨(base_driver_primitives_are_noops _).1 _ rfl, (base_driver_primitives_are_noops _).1 _ rfl⟩

/-! ## Theorems: clipping and text position on the base driver -/

/-- C21, the code at the failing input: for every driver and all arguments, `clip_box`
of the base class returns 0 and leaves `X`, `Y`, `W`, `H` as they were before the call
(it never assigns them), while `not_clipped` returns 1.  For the rectangle
(10, 20, 30, 40) and variables that hold 0 the caller is left with (0, 0, 0, 0), not
with the rectangle. -/
theorem clip_box_leaves_outputs_unset :
    (∀ (d : Fl_Graphics_Driver) (x y w h X Y W H : Int),
      d.clip_box x y w h X Y W H = ((X, Y, W, H), 0) ∧ d.not_clipped x y w h = 1) ∧
    exampleDriver.clip_box 10 20 30 40 0 0 0 0 = ((0, 0, 0, 0), 0) ∧
    (exampleDriver.clip_box 10 20 30 40 0 0 0 0).1 ≠ (10, 20, 30, 40) ∧
    exampleDriver.not_clipped 10 20 30 40 = 1 := by
  refine ⟨fun d x y w h X Y W H => ⟨rfl, rfl⟩, rfl, by decide, rfl⟩

/-- The conversion `(int)(x+0.5)` in closed form. -/
theorem truncToInt_add_half (x : ℚ) :
    truncToInt (x + 0.5) = if -1 / 2 ≤ x then ⌊x + 1 / 2⌋ else ⌈x + 1 / 2⌉ := by
  unfold truncToInt
  have h5 : (0.5 : ℚ) = 1 / 2 := by norm_num
  rw [h5]
  by_cases h : -1 / 2 ≤ x
  · rw [if_pos (by linarith), if_pos h]
  · rw [if_neg (by intro h2; apply h; linarith), if_neg h]

/-- C26, the code at the failing input: for all arguments the float overload forwards
`str` and `n` unchanged and the coordinates `(int)(x+0.5)`, `(int)(y+0.5)`, which is
floor(x + 1/2) only for x >= -1/2 and is ceil(x + 1/2) below.  At x = -1.75 the
forwarded coordinate is -1 while floor(x + 1/2) is -2, and the points -1.25 and -0.25,
one pixel apart, are both forwarded as 0. -/
theorem draw_float_truncates_toward_zero :
    (∀ (d : Fl_Graphics_Driver) (str : List Nat) (n : Int) (x y : ℚ),
      d.draw_float str n x y =
        (str, n, (if -1 / 2 ≤ x then ⌊x + 1 / 2⌋ else ⌈x + 1 / 2⌉),
          (if -1 / 2 ≤ y then ⌊y + 1 / 2⌋ else ⌈y + 1 / 2⌉))) ∧
    exampleDriver.draw_float [97] 1 (-7 / 4) 0 = ([97], 1, -1, 0) ∧
    ⌊(-7 / 4 : ℚ) + 1 / 2⌋ = -2 ∧
    exampleDriver.draw_float [97] 1 (-5 / 4) (-1 / 4) = ([97], 1, 0, 0) := by
  have hgen : ∀ (d : Fl_Graphics_Driver) (str : List Nat) (n : Int) (x y : ℚ),
      d.draw_float str n x y =
        (str, n, (if -1 / 2 ≤ x then ⌊x + 1 / 2⌋ else ⌈x + 1 / 2⌉),
          (if -1 / 2 ≤ y then ⌊y + 1 / 2⌋ else ⌈y + 1 / 2⌉)) := by
    intro d str n x y
    unfold Fl_Graphics_Driver.draw_float
    rw [truncToInt_add_half, truncToInt_add_half]
  refine ⟨hgen, ?_, ?_, ?_⟩
  · rw [hgen]
    have h1 : ¬ ((-1 / 2 : ℚ) ≤ -7 / 4) := by norm_num
    have h2 : ((-1 / 2 : ℚ) ≤ 0) := by norm_num
    rw [if_neg h1, if_pos h2]
    have c1 : ⌈(-7 / 4 : ℚ) + 1 / 2⌉ = -1 := by rw [Int.ceil_eq_iff]; norm_num
    have c2 : ⌊(0 : ℚ) + 1 / 2⌋ = 0 := by rw [Int.floor_eq_iff]; norm_num
    rw [c1, c2]
  · rw [Int.floor_eq_iff]; norm_num
  · rw [hgen]
    have h1 : ¬ ((-1 / 2 : ℚ) ≤ -5 / 4) := by norm_num
    have h2 : ((-1 / 2 : ℚ) ≤ -1 / 4) := by norm_num
    rw [if_neg h1, if_pos h2]
    have c1 : ⌈(-5 / 4 : ℚ) + 1 / 2⌉ = 0 := by rw [Int.ceil_eq_iff]; norm_num
    have c2 : ⌊(-1 / 4 : ℚ) + 1 / 2⌋ = 0 := by rw [Int.floor_eq_iff]; norm_num
    rw [c1, c2]

/-! ## Theorems: file names -/

/-- The loop of `filename_name` returns `q` when no slash is left, and otherwise what
follows the last slash of `p`. -/
theorem filename_name_loop_spec : ∀ (p q : List Nat),
    (47 ∉ p → filename_name_loop p q = q) ∧
    (47 ∈ p → 47 ∉ filename_name_loop p q ∧
      ∃ pre, p = pre ++ filename_name_loop p q ∧ pre.getLast? = some 47) := by
  intro p
  induction p with
  | nil => intro q; simp [filename_name_loop]
  | cons c p ih =>
    intro q
    by_cases hc : c = 47
    · subst hc
      have hl : filename_name_loop (47 :: p) q = filename_name_loop p p := by
        simp [filename_name_loop]
      rw [hl]
      refine ⟨fun h => absurd (List.mem_cons_self _ _) h, fun _ => ?_⟩
      by_cases hp : 47 ∈ p
      · obtain ⟨h1, pre, h2, h3⟩ := (ih p).2 hp
        refine ⟨h1, 47 :: pre, by rw [List.cons_append, ← h2], ?_⟩
        cases pre with
        | nil => simp at h3
        | cons a pre => rw [List.getLast?_cons_cons]; exact h3
      · have h1 := (ih p).1 hp
        rw [h1]
        exact ⟨hp, [47], rfl, rfl⟩
    · have hl : filename_name_loop (c :: p) q = filename_name_loop p q := by
        simp [filename_name_loop, hc]
      rw [hl]
      constructor
      · intro h
        exact (ih q).1 fun hp => h (List.mem_cons_of_mem _ hp)
      · intro h
        have hp : 47 ∈ p := by
          rcases List.mem_cons.mp h with h | h
          · exact absurd h.symm hc
          · exact h
        obtain ⟨h1, pre, h2, h3⟩ := (ih q).2 hp
        refine ⟨h1, c :: pre, by rw [List.cons_append, ← h2], ?_⟩
        cases pre with
        | nil => simp at h3
        | cons a pre => rw [List.getLast?_cons_cons]; exact h3

/-- The result of `filename_name` holds no slash and is what follows a prefix of the
name that is empty or ends in a slash. -/
theorem filename_name_suffix (name : List Nat) :
    47 ∉ filename_name name ∧
    ∃ pre, name = pre ++ filename_name name ∧ (pre = [] ∨ pre.getLast? = some 47) := by
  unfold filename_name
  by_cases h : 47 ∈ name
  · obtain ⟨h1, pre, h2, h3⟩ := (filename_name_loop_spec name name).2 h
    exact ⟨h1, pre, h2, Or.inr h3⟩
  · have h1 := (filename_name_loop_spec name name).1 h
    rw [h1]
    exact ⟨h, [], rfl, Or.inl rfl⟩

/-- The pointer that the loop of `filename_name` returns lies before the end of the
string by the length of the string it points to. -/
theorem filename_name_ptr_loop_spec : ∀ (rest qb : List Nat) (p q : Nat),
    q + qb.length = p + rest.length →
    filename_name_ptr_loop rest p q + (filename_name_loop rest qb).length
      = p + rest.length := by
  intro rest
  induction rest with
  | nil => intro qb p q h; simpa [filename_name_ptr_loop, filename_name_loop] using h
  | cons c rest ih =>
    intro qb p q h
    by_cases hc : c = 47
    · subst hc
      have h1 := ih rest (p + 1) (p + 1) rfl
      simp only [filename_name_ptr_loop, filename_name_loop, if_true, List.length_cons]
      omega
    · have h1 := ih qb (p + 1) q (by simp only [List.length_cons] at h; omega)
      simp only [filename_name_ptr_loop, filename_name_loop, hc, if_false, List.length_cons]
      omega

/-- C22: for every string, the result of `filename_name` contains no slash, and the
name is a prefix that is empty or ends in a slash, followed by the result: the result
is what follows the last slash, or the whole name when it holds no slash. -/
theorem filename_name_is_last_component (name : List Nat) :
    47 ∉ filename_name name ∧
    (∃ pre, name = pre ++ filename_name name ∧ (pre = [] ∨ pre.getLast? = some 47)) ∧
    (47 ∉ name ↔ filename_name name = name) := by
  obtain ⟨h1, h2⟩ := filename_name_suffix name
  refine ⟨h1, h2, ?_⟩
  constructor
  · intro h
    exact (filename_name_loop_spec name name).1 h
  · intro h
    rw [← h]
    exact h1

/-- The two calls of `Fl_X::sendxjunk` on a top-level window: the hints, member by
member, and the Motif property. -/
theorem sendxjunk_toplevel (K : Platform) (G : XGlobals) (w : Fl_Window) (xid : Nat)
    (hp : w.parent = none) :
    Fl_X.sendxjunk K G w xid =
      [Call.XSetWMNormalHints xid
        { flags := sizeHintFlags K w,
          x := if w.flags &&& K.FL_FORCE_POSITION ≠ 0 then some w.x else none,
          y := if w.flags &&& K.FL_FORCE_POSITION ≠ 0 then some w.y else none,
          min_width := w.minw, min_height := w.minh,
          max_width :=
            if (w.minw ≠ w.maxw ∨ w.minh ≠ w.maxh) ∧ w.maxh ≥ w.minh ∧ w.maxw < w.minw
            then G.screen_w else w.maxw,
          max_height :=
            if (w.minw ≠ w.maxw ∨ w.minh ≠ w.maxh) ∧ w.maxw ≥ w.minw ∧ w.maxh < w.minh
            then G.screen_h else w.maxh,
          width_inc := w.dw, height_inc := w.dh, win_gravity := StaticGravity },
       Call.XChangeProperty xid G.fl_motif_wm_hints G.fl_motif_wm_hints 32 0
         (if w.minw = w.maxw ∧ w.minh = w.maxh then [1, 19, 1, 0, 0] else [0, 1, 1, 0, 0])
         5] := by
  have hp2 : w.parent.isSome = false := by rw [hp]; rfl
  have hw2 : (w.maxw ≥ w.minw) = ¬ w.maxw < w.minw := by
    apply propext; constructor <;> intro h <;> omega
  have hh2 : (w.maxh ≥ w.minh) = ¬ w.maxh < w.minh := by
    apply propext; constructor <;> intro h <;> omega
  by_cases hr0 : w.minw ≠ w.maxw ∨ w.minh ≠ w.maxh
  · have hr := eq_true hr0
    have hnr : (w.minw = w.maxw ∧ w.minh = w.maxh) = False := by
      apply eq_false
      rintro ⟨a, b⟩
      rcases hr0 with h | h
      · exact h a
      · exact h b
    rcases Classical.propComplete (w.maxw < w.minw) with hw | hw <;>
      rcases Classical.propComplete (w.maxh < w.minh) with hh | hh <;>
      rcases Classical.propComplete (w.dw ≠ 0 ∧ w.dh ≠ 0) with hi | hi <;>
      rcases Classical.propComplete (w.flags &&& K.FL_FORCE_POSITION ≠ 0) with hf | hf <;>
      (simp only [Fl_X.sendxjunk, sizeHintFlags, hp2, hr, hnr, hw2, hh2, hw, hh, hi, hf,
         Bool.false_eq_true, if_true, if_false, and_self, true_and, and_true, false_and,
         and_false, or_self, true_or, or_true, false_or, or_false, not_true_eq_false,
         not_false_eq_true]
       rfl)
  · have hr := eq_false hr0
    have hnr : (w.minw = w.maxw ∧ w.minh = w.maxh) = True := by
      apply eq_true
      constructor
      · by_contra h; exact hr0 (Or.inl h)
      · by_contra h; exact hr0 (Or.inr h)
    rcases Classical.propComplete (w.flags &&& K.FL_FORCE_POSITION ≠ 0) with hf | hf
    · simp only [Fl_X.sendxjunk, sizeHintFlags, hp2, hr, hnr, hf,
        Bool.false_eq_true, if_true, if_false, and_self, true_and, and_true, false_and,
        and_false, not_true_eq_false, not_false_eq_true]
    · simp only [Fl_X.sendxjunk, sizeHintFlags, hp2, hr, hnr, hf,
        Bool.false_eq_true, if_true, if_false, and_self, true_and, and_true, false_and,
        and_false, not_true_eq_false, not_false_eq_true]
      rfl

/-- C25: `Fl_Window::size_range_` calls `Fl_X::sendxjunk` (on the window with
`size_range_set` = 1) exactly when the window has its native side, and `sendxjunk` makes
no call for a child window.  For a top-level window it sends the hints and the Motif
property: with minw = maxw and minh = maxh the flags PMinSize|PMaxSize and the property
(1, 1|2|16 = 19, 1, 0, 0); otherwise PMinSize|PWinGravity, plus PMaxSize iff maxw >= minw
or maxh >= minh, plus PResizeInc iff dw and dh are both non-zero, with the property
(0, 1, 1, 0, 0); in both cases USPosition and the position of the window are added iff
`flags() & FL_FORCE_POSITION` is non-zero. -/
theorem size_hints_classified (K : Platform) (G : XGlobals) (w : Fl_Window) :
    (w.i = none → (w.size_range_ K G).2 = []) ∧
    (∀ x, w.i = some x →
      (w.size_range_ K G).2 = Fl_X.sendxjunk K G { w with size_range_set := 1 } x.xid) ∧
    (∀ xid, w.parent.isSome = true → Fl_X.sendxjunk K G w xid = []) ∧
    (∀ xid, w.parent = none →
      sentProperty G.fl_motif_wm_hints (Fl_X.sendxjunk K G w xid)
        = [(if w.minw = w.maxw ∧ w.minh = w.maxh then [1, 19, 1, 0, 0]
            else [0, 1, 1, 0, 0], 5)] ∧
      ∃ hints, sentSizeHints (Fl_X.sendxjunk K G w xid) = [hints] ∧
        hints.flags =
          ((if w.minw = w.maxw ∧ w.minh = w.maxh then PMinSize ||| PMaxSize
            else (PMinSize ||| PWinGravity)
              ||| (if w.maxw ≥ w.minw ∨ w.maxh ≥ w.minh then PMaxSize else 0)
              ||| (if w.dw ≠ 0 ∧ w.dh ≠ 0 then PResizeInc else 0))
           ||| (if w.flags &&& K.FL_FORCE_POSITION ≠ 0 then USPosition else 0)) ∧
        hints.x = (if w.flags &&& K.FL_FORCE_POSITION ≠ 0 then some w.x else none) ∧
        hints.y = (if w.flags &&& K.FL_FORCE_POSITION ≠ 0 then some w.y else none) ∧
        hints.min_width = w.minw ∧ hints.min_height = w.minh ∧
        hints.width_inc = w.dw ∧ hints.height_inc = w.dh) := by
  refine ⟨?_, ?_, ?_, ?_⟩
  · intro h
    simp only [Fl_Window.size_range_, h]
  · intro x h
    simp only [Fl_Window.size_range_, h]
  · intro xid h
    unfold Fl_X.sendxjunk
    rw [if_pos h]
  · intro xid hp
    rw [sendxjunk_toplevel K G w xid hp]
    refine ⟨?_, _, rfl, rfl, rfl, rfl, rfl, rfl, rfl, rfl⟩
    simp [sentProperty]

/-- C25, witness: a created top-level window with the size range 100..100 x 50..50 is
sent the flags PMinSize|PMaxSize (48); with the maximum 400 x 300 and the increment
10 x 10 it is sent the flags PMinSize|PMaxSize|PResizeInc|PWinGravity (624). -/
theorem size_hints_classified_witness :
    (rangedWindow 100 50 100 50 0 0).i = some ⟨40, 0, 0, 0⟩ ∧
    sentSizeHints ((rangedWindow 100 50 100 50 0 0).size_range_ lp64 exampleGlobals).2
      = [{ flags := 48, x := none, y := none, min_width := 100, min_height := 50,
           max_width := 100, max_height := 50, width_inc := 0, height_inc := 0,
           win_gravity := 10 }] ∧
    sentSizeHints ((rangedWindow 100 50 400 300 10 10).size_range_ lp64 exampleGlobals).2
      = [{ flags := 624, x := none, y := none, min_width := 100, min_height := 50,
           max_width := 400, max_height := 300, width_inc := 10, height_inc := 10,
           win_gravity := 10 }] :=
  ⟨rfl,
   by
    rw [(size_hints_classified lp64 exampleGlobals _).2.1 ⟨40, 0, 0, 0⟩ rfl]
    decide,
   by
    rw [(size_hints_classified lp64 exampleGlobals _).2.1 ⟨40, 0, 0, 0⟩ rfl]
    decide⟩

/-- C28, counterexample: a top-level window with the minimum size 2000 x 100 and the
maximum size 0 x 200 on a display of 1280 x 1024 is sent the flag PMaxSize with
max_width = 1280, below min_width = 2000. -/
theorem size_hints_max_below_min_counterexample :
    sentSizeHints (Fl_X.sendxjunk lp64 exampleGlobals
      (rangedWindow 2000 100 0 200 0 0) 40)
      = [{ flags := PMinSize ||| PMaxSize ||| PWinGravity, x := none, y := none,
           min_width := 2000, min_height := 100, max_width := 1280, max_height := 200,
           width_inc := 0, height_inc := 0, win_gravity := StaticGravity }] ∧
    (PMinSize ||| PMaxSize ||| PWinGravity) &&& PMaxSize ≠ 0 ∧ (1280 : Int) < 2000 := by
  decide

/-- C28, as amended: whenever `Fl_X::sendxjunk` sends the flag PMaxSize for a top-level
window, it sends the minimum size of the window, and as each maximum the maximum of the
window when that is not below the minimum and the size of the screen otherwise; so
max_width >= min_width holds iff maxw >= minw or `Fl::w()` >= minw, and max_height >=
min_height iff maxh >= minh or `Fl::h()` >= minh, and both hold whenever the minimum
size is not larger than the screen. -/
theorem size_hints_max_not_below_min (K : Platform) (G : XGlobals) (w : Fl_Window)
    (xid : Nat) (hp : w.parent = none) :
    ∃ hints, sentSizeHints (Fl_X.sendxjunk K G w xid) = [hints] ∧
      (hints.flags &&& PMaxSize ≠ 0 →
        hints.min_width = w.minw ∧ hints.min_height = w.minh ∧
        hints.max_width = (if w.maxw < w.minw then G.screen_w else w.maxw) ∧
        hints.max_height = (if w.maxh < w.minh then G.screen_h else w.maxh) ∧
        (hints.max_width ≥ hints.min_width ↔ w.maxw ≥ w.minw ∨ G.screen_w ≥ w.minw) ∧
        (hints.max_height ≥ hints.min_height ↔ w.maxh ≥ w.minh ∨ G.screen_h ≥ w.minh) ∧
        (w.minw ≤ G.screen_w → w.minh ≤ G.screen_h →
          hints.max_width ≥ hints.min_width ∧ hints.max_height ≥ hints.min_height)) := by
  rw [sendxjunk_toplevel K G w xid hp]
  refine ⟨_, rfl, ?_⟩
  simp only []
  intro hflag
  have hmax : (w.minw = w.maxw ∧ w.minh = w.maxh) ∨ w.maxw ≥ w.minw ∨ w.maxh ≥ w.minh := by
    by_contra hcon
    apply hflag
    have h1 : ¬ (w.minw = w.maxw ∧ w.minh = w.maxh) := fun h => hcon (Or.inl h)
    have h2 : ¬ (w.maxw ≥ w.minw ∨ w.maxh ≥ w.minh) := fun h => hcon (Or.inr h)
    unfold sizeHintFlags
    rw [if_neg h1, if_neg h2]
    by_cases hi : w.dw ≠ 0 ∧ w.dh ≠ 0 <;>
      by_cases hf : w.flags &&& K.FL_FORCE_POSITION ≠ 0
    · rw [if_pos hi, if_pos hf]; decide
    · rw [if_pos hi, if_neg hf]; decide
    · rw [if_neg hi, if_pos hf]; decide
    · rw [if_neg hi, if_neg hf]; decide
  have hw : (if (w.minw ≠ w.maxw ∨ w.minh ≠ w.maxh) ∧ w.maxh ≥ w.minh ∧ w.maxw < w.minw
      then G.screen_w else w.maxw) = (if w.maxw < w.minw then G.screen_w else w.maxw) := by
    by_cases h : w.maxw < w.minw
    · have hc : (w.minw ≠ w.maxw ∨ w.minh ≠ w.maxh) ∧ w.maxh ≥ w.minh ∧ w.maxw < w.minw := by
        refine ⟨Or.inl (by omega), ?_, h⟩
        rcases hmax with h1 | h1 | h1
        · omega
        · omega
        · exact h1
      rw [if_pos hc, if_pos h]
    · rw [if_neg (fun hc => h hc.2.2), if_neg h]
  have hh : (if (w.minw ≠ w.maxw ∨ w.minh ≠ w.maxh) ∧ w.maxw ≥ w.minw ∧ w.maxh < w.minh
      then G.screen_h else w.maxh) = (if w.maxh < w.minh then G.screen_h else w.maxh) := by
    by_cases h : w.maxh < w.minh
    · have hc : (w.minw ≠ w.maxw ∨ w.minh ≠ w.maxh) ∧ w.maxw ≥ w.minw ∧ w.maxh < w.minh := by
        refine ⟨Or.inr (by omega), ?_, h⟩
        rcases hmax with h1 | h1 | h1
        · omega
        · exact h1
        · omega
      rw [if_pos hc, if_pos h]
    · rw [if_neg (fun hc => h hc.2.2), if_neg h]
  rw [hw, hh]
  refine ⟨trivial, trivial, rfl, rfl, ?_, ?_, ?_⟩
  · by_cases h : w.maxw < w.minw
    · rw [if_pos h]; constructor
      · intro h2; exact Or.inr h2
      · rintro (h2 | h2)
        · omega
        · exact h2
    · rw [if_neg h]; constructor
      · intro h2; exact Or.inl h2
      · intro _; omega
  · by_cases h : w.maxh < w.minh
    · rw [if_pos h]; constructor
      · intro h2; exact Or.inr h2
      · rintro (h2 | h2)
        · omega
        · exact h2
    · rw [if_neg h]; constructor
      · intro h2; exact Or.inl h2
      · intro _; omega
  · intro h1 h2
    constructor
    · by_cases h : w.maxw < w.minw
      · rw [if_pos h]; exact h1
      · rw [if_neg h]; omega
    · by_cases h : w.maxh < w.minh
      · rw [if_pos h]; exact h2
      · rw [if_neg h]; omega

/-- C28, witness: a top-level window with the minimum size 200 x 100 and the maximum
size 0 x 200 on a display of 1280 x 1024 is sent max_width = 1280 and max_height = 200. -/
theorem size_hints_max_not_below_min_witness :
    (rangedWindow 200 100 0 200 0 0).parent = none ∧
    ∃ hints, sentSizeHints (Fl_X.sendxjunk lp64 exampleGlobals
        (rangedWindow 200 100 0 200 0 0) 40)
        = [hints] ∧
      (hints.flags &&& PMaxSize ≠ 0 → hints.max_width = 1280 ∧ hints.max_height = 200) :=
  ⟨rfl, by
    obtain ⟨hints, h1, h2⟩ := size_hints_max_not_below_min lp64 exampleGlobals
      (rangedWindow 200 100 0 200 0 0) 40 rfl
    exact ⟨hints, h1, fun hf => ⟨(h2 hf).2.2.1, (h2 hf).2.2.2.1⟩⟩⟩

/-! ## Theorems: timers -/

/-- C27: let `le` be the order of the `double` values, for which subtracting one amount
from two values keeps their order and subtracting a positive amount does not increase a
value.  The first call of `fl_elapsed` after `initclock` was reset returns 0, sets
`initclock` and changes no timer.  Every later call returns the time t since the
previous call and, when t > 0, subtracts t from the time of every timer; when t <= 0 it
changes no timer.  So no call increases the time of a timer, and a timer list that is
ordered by time stays ordered. -/
theorem fl_elapsed_keeps_order {D : Type} (A : DoubleOps D) (le : D → D → Prop)
    (hrefl : ∀ a, le a a)
    (hmono : ∀ a b t, le a b → le (A.sub a t) (A.sub b t))
    (hdec : ∀ a t, A.pos t = true → le (A.sub a t) a)
    (newclock : timeval) (s : WaitState D) :
    (s.initclock = 0 →
      (fl_elapsed A newclock s).2 = A.zero ∧
      (fl_elapsed A newclock s).1.timeout = s.timeout ∧
      (fl_elapsed A newclock s).1.initclock = 1) ∧
    (s.initclock ≠ 0 →
      (fl_elapsed A newclock s).2 = A.elapsed (newclock.tv_sec - s.prevclock.tv_sec)
        (newclock.tv_usec - s.prevclock.tv_usec) ∧
      (A.pos (fl_elapsed A newclock s).2 = true → ∀ i, i < s.numtimeouts →
        (fl_elapsed A newclock s).1.timeout i
          = A.sub (s.timeout i) (fl_elapsed A newclock s).2) ∧
      (A.pos (fl_elapsed A newclock s).2 = false →
        (fl_elapsed A newclock s).1.timeout = s.timeout)) ∧
    (fl_elapsed A newclock s).1.numtimeouts = s.numtimeouts ∧
    (fl_elapsed A newclock s).1.prevclock = newclock ∧
    (∀ i, le ((fl_elapsed A newclock s).1.timeout i) (s.timeout i)) ∧
    ((∀ i j, i ≤ j → j < s.numtimeouts → le (s.timeout i) (s.timeout j)) →
      ∀ i j, i ≤ j → j < s.numtimeouts →
        le ((fl_elapsed A newclock s).1.timeout i) ((fl_elapsed A newclock s).1.timeout j)) := by
  by_cases h0 : s.initclock = 0
  · have hr : fl_elapsed A newclock s
        = ({ s with prevclock := newclock, initclock := 1 }, A.zero) := by
      unfold fl_elapsed
      rw [if_pos h0]
    rw [hr]
    exact ⟨fun _ => ⟨rfl, rfl, rfl⟩, fun h => absurd h0 h, rfl, rfl, fun i => hrefl _,
      fun h => h⟩
  · by_cases hp : A.pos (A.elapsed (newclock.tv_sec - s.prevclock.tv_sec)
        (newclock.tv_usec - s.prevclock.tv_usec)) = true
    · have hr : fl_elapsed A newclock s
          = ({ s with prevclock := newclock,
                      timeout := fun i =>
                        if i < s.numtimeouts then
                          A.sub (s.timeout i) (A.elapsed (newclock.tv_sec - s.prevclock.tv_sec)
                            (newclock.tv_usec - s.prevclock.tv_usec))
                        else s.timeout i },
             A.elapsed (newclock.tv_sec - s.prevclock.tv_sec)
               (newclock.tv_usec - s.prevclock.tv_usec)) := by
        unfold fl_elapsed
        rw [if_neg h0]
        simp only []
        rw [if_pos hp]
      rw [hr]
      refine ⟨fun h => absurd h h0, fun _ => ⟨rfl, ?_, ?_⟩, rfl, rfl, ?_, ?_⟩
      · intro _ i hi
        show (if i < s.numtimeouts then _ else _) = _
        rw [if_pos hi]
      · intro hf
        rw [hp] at hf
        exact absurd hf (by decide)
      · intro i
        show le (if i < s.numtimeouts then _ else _) _
        by_cases hi : i < s.numtimeouts
        · rw [if_pos hi]; exact hdec _ _ hp
        · rw [if_neg hi]; exact hrefl _
      · intro hs i j hij hj
        show le (if i < s.numtimeouts then _ else _) (if j < s.numtimeouts then _ else _)
        rw [if_pos (by omega), if_pos hj]
        exact hmono _ _ _ (hs i j hij hj)
    · have hr : fl_elapsed A newclock s
          = ({ s with prevclock := newclock },
             A.elapsed (newclock.tv_sec - s.prevclock.tv_sec)
               (newclock.tv_usec - s.prevclock.tv_usec)) := by
        unfold fl_elapsed
        rw [if_neg h0]
        simp only []
        rw [if_neg hp]
      rw [hr]
      refine ⟨fun h => absurd h h0, fun _ => ⟨rfl, ?_, fun _ => rfl⟩, rfl, rfl,
        fun i => hrefl _, fun h => h⟩
      intro ht
      exact absurd ht hp

/-- C27, witness: two timers at 5000 and 10000 microseconds and a clock that advanced by
2000 microseconds; the timers become 3000 and 8000, in the same order. -/
theorem fl_elapsed_keeps_order_witness :
    timedWait.initclock ≠ 0 ∧
    (∀ i j, i ≤ j → j < timedWait.numtimeouts → timedWait.timeout i ≤ timedWait.timeout j) ∧
    (fl_elapsed microseconds { tv_sec := 10, tv_usec := 2000 } timedWait).1.timeout 0
      ≤ (fl_elapsed microseconds { tv_sec := 10, tv_usec := 2000 } timedWait).1.timeout 1 ∧
    (fl_elapsed microseconds { tv_sec := 10, tv_usec := 2000 } timedWait).2 = 2000 ∧
    (fl_elapsed microseconds { tv_sec := 10, tv_usec := 2000 } timedWait).1.timeout 0 = 3000 ∧
    (fl_elapsed microseconds { tv_sec := 10, tv_usec := 2000 } timedWait).1.timeout 1 = 8000 :=
  have hs : ∀ i j, i ≤ j → j < timedWait.numtimeouts →
      timedWait.timeout i ≤ timedWait.timeout j := by
    intro i j hij hj
    have h2 : j < 2 := hj
    have hi : i = 0 ∨ i = 1 := by omega
    have hj2 : j = 0 ∨ j = 1 := by omega
    rcases hi with rfl | rfl <;> rcases hj2 with rfl | rfl <;> first | decide | omega
  ⟨by decide, hs,
   (fl_elapsed_keeps_order microseconds (fun a b => a ≤ b) (fun a => Int.le_refl a)
      (fun a b t h => Int.sub_le_sub_right h t)
      (fun a t h => by
        have h2 : 0 < t := of_decide_eq_true h
        show a - t ≤ a
        omega)
      { tv_sec := 10, tv_usec := 2000 } timedWait).2.2.2.2.2 hs 0 1 (by decide) (by decide),
   by decide, by decide, by decide⟩

/-! ## Theorems: the storage of the descriptor table -/

/-- The number of entries is the length of the table. -/
theorem table_length (s : FdState) : s.table.length = s.nfds := by
  simp [FdState.table]

/-- The function `Fl::remove_fd` does not add entries and leaves the array size alone. -/
theorem remove_fd_nfds_le (n events : Int) (s : FdState) :
    (remove_fd n events s).nfds ≤ s.nfds ∧
    (remove_fd n events s).fd_array_size = s.fd_array_size := by
  constructor
  · rw [← table_length, ← table_length s, remove_fd_table]
    exact List.length_filterMap_le _ _
  · rfl

/-- The counters after `Fl::add_fd`. -/
theorem add_fd_counters (n events : Int) (cb v : Nat) (s : FdState) :
    (add_fd n events cb v s).nfds = (remove_fd n events s).nfds + 1 ∧
    (add_fd n events cb v s).fd_array_size
      = (if (remove_fd n events s).nfds ≥ s.fd_array_size then 2 * s.fd_array_size + 1
         else s.fd_array_size) ∧
    (add_fd n events cb v s).fd (remove_fd n events s).nfds = ⟨n, toShort events, cb, v⟩ := by
  refine ⟨rfl, rfl, ?_⟩
  simp [add_fd]

/-- The counters of the table after a sequence of calls that starts in a state with
`nfds <= fd_array_size`, `nfds <= k` and `fd_array_size <= 2k`. -/
theorem runOps_counters : ∀ (ops : List FdOp) (s : FdState) (k : Nat),
    s.nfds ≤ s.fd_array_size → s.nfds ≤ k → s.fd_array_size ≤ 2 * k →
    (runOps ops s).nfds ≤ (runOps ops s).fd_array_size ∧
    (runOps ops s).nfds ≤ k + ops.length ∧
    (runOps ops s).fd_array_size ≤ 2 * (k + ops.length) := by
  intro ops
  induction ops with
  | nil => intro s k h1 h2 h3; exact ⟨h1, h2, h3⟩
  | cons op ops ih =>
    intro s k h1 h2 h3
    have hstep : (op.run s).nfds ≤ (op.run s).fd_array_size ∧ (op.run s).nfds ≤ k + 1 ∧
        (op.run s).fd_array_size ≤ 2 * (k + 1) := by
      cases op with
      | add n events cb v =>
        obtain ⟨a1, a2, _⟩ := add_fd_counters n events cb v s
        obtain ⟨r1, _⟩ := remove_fd_nfds_le n events s
        show (add_fd n events cb v s).nfds ≤ (add_fd n events cb v s).fd_array_size ∧
          (add_fd n events cb v s).nfds ≤ k + 1 ∧
          (add_fd n events cb v s).fd_array_size ≤ 2 * (k + 1)
        rw [a1, a2]
        by_cases hg : (remove_fd n events s).nfds ≥ s.fd_array_size
        · rw [if_pos hg]; omega
        · rw [if_neg hg]; omega
      | remove n events =>
        obtain ⟨r1, r2⟩ := remove_fd_nfds_le n events s
        show (remove_fd n events s).nfds ≤ (remove_fd n events s).fd_array_size ∧
          (remove_fd n events s).nfds ≤ k + 1 ∧
          (remove_fd n events s).fd_array_size ≤ 2 * (k + 1)
        rw [r2]; omega
    obtain ⟨i1, i2, i3⟩ := ih (op.run s) (k + 1) hstep.1 hstep.2.1 hstep.2.2
    have hl : (op :: ops).length = ops.length + 1 := rfl
    have hrun : runOps (op :: ops) s = runOps ops (op.run s) := rfl
    rw [hrun, hl]
    refine ⟨i1, by omega, by omega⟩

/-- Two integers with the same bits are equal. -/
theorem int_eq_of_testBit_eq {a b : Int} (h : ∀ k, Int.testBit a k = Int.testBit b k) :
    a = b := by
  have hbig : ∀ m n : Nat, m.testBit (m + n) = false ∧ n.testBit (m + n) = false := by
    intro m n
    constructor
    · exact Nat.testBit_lt_two_pow
        (lt_of_lt_of_le (Nat.lt_two_pow m) (Nat.pow_le_pow_right (by decide) (by omega)))
    · exact Nat.testBit_lt_two_pow
        (lt_of_lt_of_le (Nat.lt_two_pow n) (Nat.pow_le_pow_right (by decide) (by omega)))
  cases a with
  | ofNat m =>
    cases b with
    | ofNat n =>
      have : m = n := Nat.eq_of_testBit_eq h
      rw [this]
    | negSucc n =>
      exfalso
      have h1 := h (m + n)
      simp only [Int.testBit] at h1
      rw [(hbig m n).1, (hbig m n).2] at h1
      exact absurd h1 (by decide)
  | negSucc m =>
    cases b with
    | ofNat n =>
      exfalso
      have h1 := h (m + n)
      simp only [Int.testBit] at h1
      rw [(hbig m n).1, (hbig m n).2] at h1
      exact absurd h1 (by decide)
    | negSucc n =>
      have : m = n := by
        apply Nat.eq_of_testBit_eq
        intro k
        have h1 := h k
        simp only [Int.testBit] at h1
        cases hm : m.testBit k <;> cases hn : n.testBit k <;> simp [hm, hn] at h1 <;> rfl
      rw [this]

/-- The bits of `bitAnd`. -/
theorem testBit_bitAnd (a b : Int) (k : Nat) :
    Int.testBit (bitAnd a b) k = (Int.testBit a k && Int.testBit b k) := by
  rw [bitAnd_eq_land, Int.testBit_land]

/-- The bits of `bitNot`. -/
theorem testBit_bitNot (a : Int) (k : Nat) :
    Int.testBit (bitNot a) k = !Int.testBit a k := by
  rw [bitNot_eq_lnot, Int.testBit_lnot]

/-- An integer is 0 exactly when it has no bit. -/
theorem eq_zero_iff_testBit (a : Int) : a = 0 ↔ ∀ k, Int.testBit a k = false := by
  constructor
  · intro h k
    rw [h]
    show Nat.testBit 0 k = false
    exact Nat.zero_testBit k
  · intro h
    apply int_eq_of_testBit_eq
    intro k
    rw [h k]
    show false = Nat.testBit 0 k
    exact (Nat.zero_testBit k).symm

/-- The bits that `m & ~e` keeps are not in `e`. -/
theorem bitAnd_bitNot_disjoint (m e : Int) : bitAnd (bitAnd m (bitNot e)) e = 0 := by
  rw [eq_zero_iff_testBit]
  intro k
  rw [testBit_bitAnd, testBit_bitAnd, testBit_bitNot]
  cases Int.testBit m k <;> cases Int.testBit e k <;> rfl

/-- Clearing bits keeps two masks disjoint. -/
theorem bitAnd_disjoint_of_disjoint {m1 m2 : Int} (c1 c2 : Int) (h : bitAnd m1 m2 = 0) :
    bitAnd (bitAnd m1 c1) (bitAnd m2 c2) = 0 ∧ bitAnd (bitAnd m1 c1) m2 = 0 ∧
    bitAnd m1 (bitAnd m2 c2) = 0 := by
  rw [eq_zero_iff_testBit] at h
  refine ⟨?_, ?_, ?_⟩ <;>
  · rw [eq_zero_iff_testBit]
    intro k
    have hk := h k
    rw [testBit_bitAnd] at hk
    simp only [testBit_bitAnd]
    cases h1 : Int.testBit m1 k <;> cases h2 : Int.testBit m2 k <;>
      cases Int.testBit c1 k <;> cases Int.testBit c2 k <;> simp [h1, h2] at hk ⊢

/-- Two masks that both hold the one bit of `2^j` are not disjoint. -/
theorem bitAnd_ne_zero_of_common_bit {m1 m2 : Int} (j : Nat)
    (h1 : bitAnd m1 ((2 ^ j : Nat) : Int) ≠ 0) (h2 : bitAnd m2 ((2 ^ j : Nat) : Int) ≠ 0) :
    bitAnd m1 m2 ≠ 0 := by
  have hbit : ∀ m : Int, bitAnd m ((2 ^ j : Nat) : Int) ≠ 0 → Int.testBit m j = true := by
    intro m hm
    by_contra hf
    apply hm
    rw [eq_zero_iff_testBit]
    intro k
    rw [testBit_bitAnd]
    have hp : Int.testBit ((2 ^ j : Nat) : Int) k = decide (j = k) := by
      show Nat.testBit (2 ^ j) k = _
      exact Nat.testBit_two_pow
    rw [hp]
    by_cases hjk : j = k
    · subst hjk
      simp only [Bool.not_eq_true] at hf
      rw [hf]; rfl
    · simp [hjk]
  intro h0
  rw [eq_zero_iff_testBit] at h0
  have := h0 j
  rw [testBit_bitAnd, hbit m1 h1, hbit m2 h2] at this
  exact absurd this (by decide)

/-! ## Theorems: reachable descriptor tables -/

/-- What `Fl::remove_fd(n, e)` does to one entry with a `short` mask: the entry of
another descriptor is kept as it is, an entry of `n` keeps descriptor, callback and
argument and gets the mask `m & ~e`, which is not 0. -/
theorem remove_fd_entry_short {n e : Int} {x y : FD} (hx : isShort x.events)
    (he : isShort e) (h : remove_fd_entry n e x = some y) :
    y.fd = x.fd ∧
    ((x.fd ≠ n ∧ y = x) ∨
     (x.fd = n ∧ y.events = bitAnd x.events (bitNot e) ∧ y.events ≠ 0)) := by
  unfold remove_fd_entry at h
  by_cases hn : x.fd = n
  · rw [if_pos hn] at h
    by_cases h0 : bitAnd x.events (bitNot e) = 0
    · rw [if_pos h0] at h
      exact absurd h (by simp)
    · rw [if_neg h0] at h
      have hy := (Option.some.inj h).symm
      have hs : toShort (bitAnd x.events (bitNot e)) = bitAnd x.events (bitNot e) :=
        toShort_of_isShort (isShort_bitAnd_bitNot hx he)
      rw [hs] at hy
      rw [hy]
      exact ⟨rfl, Or.inr ⟨hn, rfl, h0⟩⟩
  · rw [if_neg hn] at h
    have hy := (Option.some.inj h).symm
    rw [hy]
    exact ⟨rfl, Or.inl ⟨hn, rfl⟩⟩

/-- The function `Fl::remove_fd` with a `short` mask keeps the entries of one
descriptor disjoint. -/
theorem filterMap_entry_pairwise {n e : Int} {t : List FD}
    (ht : ∀ x ∈ t, isShort x.events) (he : isShort e)
    (hp : t.Pairwise disjointEntries) :
    (t.filterMap (remove_fd_entry n e)).Pairwise disjointEntries := by
  have hp2 : t.Pairwise
      (fun a b => isShort a.events ∧ isShort b.events ∧ disjointEntries a b) :=
    hp.imp_of_mem fun ha hb hab => ⟨ht _ ha, ht _ hb, hab⟩
  refine List.Pairwise.filterMap (remove_fd_entry n e) ?_ hp2
  intro a a2 hR b hb b2 hb2
  obtain ⟨ha, ha2, hd⟩ := hR
  obtain ⟨f1, c1⟩ := remove_fd_entry_short ha he hb
  obtain ⟨f2, c2⟩ := remove_fd_entry_short ha2 he hb2
  intro hfd
  have hfd2 : a.fd = a2.fd := by rw [← f1, ← f2]; exact hfd
  have h0 := hd hfd2
  rcases c1 with ⟨_, e1⟩ | ⟨_, e1, _⟩ <;> rcases c2 with ⟨_, e2⟩ | ⟨_, e2, _⟩
  · rw [e1, e2]; exact h0
  · rw [e1, e2]; exact (bitAnd_disjoint_of_disjoint (bitNot e) (bitNot e) h0).2.2
  · rw [e1, e2]; exact (bitAnd_disjoint_of_disjoint (bitNot e) (bitNot e) h0).2.1
  · rw [e1, e2]; exact (bitAnd_disjoint_of_disjoint (bitNot e) (bitNot e) h0).1

/-- The invariant of the reachable tables is kept by every call with a `short` mask:
the masks are `short` values, the entries of one descriptor are disjoint, and an entry
with the mask 0 was registered with the mask 0 by a call of the history `H`. -/
theorem FdOp_run_invariant (op : FdOp) (s : FdState) (H : List FdOp)
    (hs : s.masksShort) (hp : s.table.Pairwise disjointEntries)
    (hz : ∀ x ∈ s.table, x.events = 0 → FdOp.add x.fd 0 x.cb x.arg ∈ H)
    (hop : isShort op.events) :
    (op.run s).masksShort ∧ (op.run s).table.Pairwise disjointEntries ∧
    (∀ x ∈ (op.run s).table, x.events = 0 → FdOp.add x.fd 0 x.cb x.arg ∈ H ++ [op]) := by
  have hkept : ∀ n e, isShort e → ∀ x ∈ s.table.filterMap (remove_fd_entry n e),
      x.events = 0 → FdOp.add x.fd 0 x.cb x.arg ∈ H := by
    intro n e he x hx h0
    obtain ⟨y, hy, hxy⟩ := List.mem_filterMap.mp hx
    obtain ⟨_, c⟩ := remove_fd_entry_short (hs y hy) he hxy
    rcases c with ⟨_, e1⟩ | ⟨_, _, e2⟩
    · rw [e1]; rw [e1] at h0; exact hz y hy h0
    · exact absurd h0 e2
  cases op with
  | add n e cb v =>
    have he : isShort e := hop
    refine ⟨add_fd_masksShort n e cb v s hs, ?_, ?_⟩
    · show (add_fd n e cb v s).table.Pairwise disjointEntries
      rw [add_fd_table, List.pairwise_append]
      refine ⟨filterMap_entry_pairwise hs he hp, List.pairwise_singleton _ _, ?_⟩
      intro a ha b hb
      rw [List.mem_singleton] at hb
      subst hb
      obtain ⟨y, hy, hay⟩ := List.mem_filterMap.mp ha
      obtain ⟨f1, c⟩ := remove_fd_entry_short (hs y hy) he hay
      intro hfd
      have hfd2 : y.fd = n := by rw [← f1]; exact hfd
      rcases c with ⟨hn, _⟩ | ⟨_, e1, _⟩
      · exact absurd hfd2 hn
      · show bitAnd a.events (toShort e) = 0
        rw [e1, toShort_of_isShort he]
        exact bitAnd_bitNot_disjoint _ _
    · intro x hx h0
      have hx2 : x ∈ s.table.filterMap (remove_fd_entry n e) ++ [⟨n, toShort e, cb, v⟩] := by
        rw [← add_fd_table]; exact hx
      rcases List.mem_append.mp hx2 with hx3 | hx3
      · exact List.mem_append_left _ (hkept n e he x hx3 h0)
      · rw [List.mem_singleton] at hx3
        subst hx3
        have h1 : toShort e = 0 := h0
        rw [toShort_of_isShort he] at h1
        subst h1
        exact List.mem_append_right _ (List.mem_singleton.mpr rfl)
  | remove n e =>
    have he : isShort e := hop
    refine ⟨remove_fd_masksShort n e s hs, ?_, ?_⟩
    · show (remove_fd n e s).table.Pairwise disjointEntries
      rw [remove_fd_table]
      exact filterMap_entry_pairwise hs he hp
    · intro x hx h0
      have hx2 : x ∈ s.table.filterMap (remove_fd_entry n e) := by
        rw [← remove_fd_table]; exact hx
      exact List.mem_append_left _ (hkept n e he x hx2 h0)

/-- The invariant of the reachable tables after a sequence of calls with `short`
masks. -/
theorem runOps_invariant : ∀ (ops : List FdOp) (s : FdState) (H : List FdOp),
    s.masksShort → s.table.Pairwise disjointEntries →
    (∀ x ∈ s.table, x.events = 0 → FdOp.add x.fd 0 x.cb x.arg ∈ H) →
    (∀ op ∈ ops, isShort op.events) →
    (runOps ops s).masksShort ∧ (runOps ops s).table.Pairwise disjointEntries ∧
    (∀ x ∈ (runOps ops s).table, x.events = 0 → FdOp.add x.fd 0 x.cb x.arg ∈ H ++ ops) := by
  intro ops
  induction ops with
  | nil =>
    intro s H hs hp hz _
    refine ⟨hs, hp, ?_⟩
    intro x hx h0
    rw [List.append_nil]
    exact hz x hx h0
  | cons op ops ih =>
    intro s H hs hp hz hops
    obtain ⟨s1, p1, z1⟩ := FdOp_run_invariant op s H hs hp hz
      (hops op (List.mem_cons_self _ _))
    obtain ⟨s2, p2, z2⟩ := ih (op.run s) (H ++ [op]) s1 p1 z1
      (fun o ho => hops o (List.mem_cons_of_mem _ ho))
    have hrun : runOps (op :: ops) s = runOps ops (op.run s) := rfl
    rw [hrun]
    refine ⟨s2, p2, ?_⟩
    intro x hx h0
    have := z2 x hx h0
    rw [List.append_assoc] at this
    exact this

/-- In a table whose entries of one descriptor are disjoint, at most one entry of a
descriptor holds a given event bit. -/
theorem at_most_one_entry_per_bit {t : List FD} (hp : t.Pairwise disjointEntries)
    (f : Int) (j : Nat) :
    (t.filter fun x => decide (x.fd = f ∧ bitAnd x.events ((2 ^ j : Nat) : Int) ≠ 0)).length
      ≤ 1 := by
  induction t with
  | nil => simp
  | cons x t ih =>
    rw [List.pairwise_cons] at hp
    obtain ⟨hx, ht⟩ := hp
    by_cases hq : x.fd = f ∧ bitAnd x.events ((2 ^ j : Nat) : Int) ≠ 0
    · have hnone : (t.filter fun y =>
          decide (y.fd = f ∧ bitAnd y.events ((2 ^ j : Nat) : Int) ≠ 0)) = [] := by
        rw [List.filter_eq_nil_iff]
        intro y hy hyq
        have hyq2 := of_decide_eq_true hyq
        have hd := hx y hy (by rw [hq.1, hyq2.1])
        exact bitAnd_ne_zero_of_common_bit j hq.2 hyq2.2 hd
      rw [List.filter_cons_of_pos (by simpa using hq), hnone]
      simp
    · rw [List.filter_cons_of_neg (by simpa using hq)]
      exact ih ht

/-- The calls of `fl_handle` are no callbacks. -/
theorem filter_isCallback_fl_handle (L : List NativeEvent) :
    (L.map WaitCall.fl_handle).filter WaitCall.isCallback = [] := by
  induction L with
  | nil => rfl
  | cons x L ih => simp [WaitCall.isCallback]

/-- A callback that makes no call of the descriptor interface leaves the table as it
is; the one callback that `call_cb` invokes is the one of the entry. -/
theorem call_cb_passive {D : Type} (E : WaitEnv) (hE : ∀ cb f arg, E.cb cb f arg = [])
    (x : FD) (s : WaitState D) :
    (call_cb E x s).fds = s.fds ∧
    (call_cb E x s).calls.filter WaitCall.isCallback
      = s.calls.filter WaitCall.isCallback ++ [WaitCall.callback x.cb x.fd x.arg] := by
  unfold call_cb
  simp only []
  by_cases h : x.cb = fd_callback
  · rw [if_pos h]
    obtain ⟨h1, h2, _⟩ := do_queued_events_spec
      ({ s with calls := s.calls ++ [WaitCall.callback x.cb x.fd x.arg] } : WaitState D)
    refine ⟨h2, ?_⟩
    rw [h1, List.filter_append, filter_isCallback_fl_handle, List.append_nil,
      List.filter_append]
    rfl
  · rw [if_neg h, hE]
    refine ⟨rfl, ?_⟩
    show (s.calls ++ [WaitCall.callback x.cb x.fd x.arg]).filter WaitCall.isCallback = _
    rw [List.filter_append]
    rfl

/-- With callbacks that leave the table alone, the dispatch loop of `fl_wait` ends
within `nfds` iterations and invokes the callbacks of the entries from the index `i` on
that pass its test, in table order. -/
theorem fl_wait_loop_passive {D : Type} (E : WaitEnv) (r : SelectResult)
    (hE : ∀ cb f arg, E.cb cb f arg = []) :
    ∀ (k i : Nat) (s : WaitState D), s.fds.nfds ≤ i + k →
    (fl_wait_loop E r k i s).2 = true ∧ (fl_wait_loop E r k i s).1.fds = s.fds ∧
    (fl_wait_loop E r k i s).1.calls.filter WaitCall.isCallback
      = s.calls.filter WaitCall.isCallback
        ++ ((seg s.fds.fd i (s.fds.nfds - i)).filter (isReady r)).map
            fun x => WaitCall.callback x.cb x.fd x.arg := by
  intro k
  induction k with
  | zero =>
    intro i s h
    have h0 : s.fds.nfds - i = 0 := by omega
    have hi : ¬ i < s.fds.nfds := by omega
    rw [h0]
    simp [fl_wait_loop, seg, hi]
  | succ k ih =>
    intro i s h
    unfold fl_wait_loop
    by_cases hi : i < s.fds.nfds
    · rw [if_pos hi]
      simp only []
      have hlen : s.fds.nfds - i = (s.fds.nfds - (i + 1)) + 1 := by omega
      rw [hlen, seg_succ]
      by_cases hc : bitAnd (s.fds.fd i).events (fl_wait_revents r (s.fds.fd i).fd) ≠ 0
      · rw [if_pos hc]
        obtain ⟨c1, c2⟩ := call_cb_passive E hE (s.fds.fd i) s
        obtain ⟨i1, i2, i3⟩ := ih (i + 1) (call_cb E (s.fds.fd i) s) (by rw [c1]; omega)
        refine ⟨i1, by rw [i2, c1], ?_⟩
        rw [i3, c2, c1]
        have hr : isReady r (s.fds.fd i) = true := by
          unfold isReady
          exact decide_eq_true hc
        rw [List.filter_cons_of_pos hr]
        simp
      · rw [if_neg hc]
        obtain ⟨i1, i2, i3⟩ := ih (i + 1) s (by omega)
        refine ⟨i1, i2, ?_⟩
        rw [i3]
        have hr : ¬ isReady r (s.fds.fd i) = true := by
          unfold isReady
          intro h2
          exact hc (of_decide_eq_true h2)
        rw [List.filter_cons_of_neg hr]
    · rw [if_neg hi]
      have h0 : s.fds.nfds - i = 0 := by omega
      rw [h0]
      simp [seg]

/-- The table is the segment of the array from 0 to `nfds`. -/
theorem seg_zero_eq_table (s : FdState) : seg s.fd 0 s.nfds = s.table := by
  unfold seg FdState.table
  apply List.map_congr_left
  intro t _
  simp

/-- C24, the code at the failing input: for the class "x" the WM_CLASS block of
`Fl_X::create` sends the 5 bytes x NUL X NUL X and not the 3 bytes x NUL X, because the
second `toupper(*q++)` steps over the NUL that ends the one-character name; the class
"X" fares alike, and for an empty prefix (the classes "" and "-f") it sends 2 NUL bytes
and not 1.  For "fltk" and "xterm" it sends fltk NUL Fltk (9 bytes) and xterm NUL XTerm
(11 bytes).  The bordered top-level example window of class "x" is sent the 5 bytes by
`Fl_X::create`. -/
theorem wm_class_steps_over_short_names :
    wm_class_data [120] = some ([120, 0, 88, 0, 88], 5) ∧
    wm_class_data [88] = some ([88, 0, 88, 0, 88], 5) ∧
    wm_class_data [] = some ([0, 0], 2) ∧
    wm_class_data [45, 102] = some ([0, 0], 2) ∧
    wm_class_data [102, 108, 116, 107]
      = some ([102, 108, 116, 107, 0, 70, 108, 116, 107], 9) ∧
    wm_class_data [120, 116, 101, 114, 109]
      = some ([120, 116, 101, 114, 109, 0, 88, 84, 101, 114, 109], 11) ∧
    (exampleWindow 100 50).xclass = some [120] ∧
    sentProperty XA_WM_CLASS
      (Fl_X.create lp64 exampleGlobals (exampleWindow 100 50) 24 1 1 (-1) 40).2.2
      = [([120, 0, 88, 0, 88], 5)] := by
  refine ⟨by decide, by decide, by decide, by decide, by decide, by decide, rfl, by decide⟩


end FLTK
